import Mathlib

/-!
# procgen: episode lifecycle (`game.cpp`) and the heist game with keys and doors (`heistpp.cpp`)

A shallow embedding of `Game::reset`, `Game::step` and of the collision rules of
`HeistPPGame`, with the properties of the specification stated over it.

Conventions of the embedding.

* `float` rewards and bonuses are exact rationals (`ℚ`): the properties below are about
  which values are added, not about rounding.
* `int` counters (`cur_time`, `reset_count`, `episodes_remaining`) are mathematical
  integers: signed overflow is undefined behaviour in C++ and no execution covered here
  reaches it.  The one place where the source narrows explicitly, the seed increment
  `(int32_t)(current_level_seed + 997)`, is wrapped to 32 bits.
* `game_step` and `game_reset` are virtual.  They are parameters of the lifecycle
  (`Hooks`); they may read the whole object and write the state owned by the concrete
  game (`world`) and, for `game_step`, `step_data`.
* `RandGen` is declared outside the two source files; the generator state is a type
  parameter and `randint` a parameter.
-/

namespace Procgen

/-! ## Episode lifecycle: `game.cpp` -/

/-- Per-step result record `step_data` of `Game`. -/
structure StepData where
  reward : ℚ
  done : Bool
  level_complete : Bool
  deriving DecidableEq

/-- The fields of `Game` that `reset` and `step` read or write. `R` is the state of
`level_seed_rand_gen`, `W` everything owned by the concrete game (entities, grid,
`rand_gen`, ...). -/
structure Game (R W : Type) where
  timeout : Int
  episodes_remaining : Int
  cur_time : Int
  action : Int
  default_action : Int
  reset_count : Int
  current_level_seed : Int
  level_seed_low : Int
  level_seed_high : Int
  level_seed_rand_gen : R
  use_sequential_levels : Bool
  total_reward : ℚ
  last_ep_reward : ℚ
  last_reward : ℚ
  last_reward_timer : Int
  episode_done : Bool
  step_data : StepData
  world : W

/-- The code `Game::reset` and `Game::step` call but `game.cpp` does not define:
`RandGen::randint` on `level_seed_rand_gen`, `rand_gen.seed`, and the virtual
`game_reset` and `game_step`. -/
structure Hooks (R W : Type) where
  randint : R → Int → Int → Int × R
  seed : Int → W → W
  game_reset : Game R W → W
  game_step : Game R W → W × StepData

/-- What one call of `Game::step` writes to the caller's buffers (lines 178-181). The cast
`(int32_t)(level_seed)` of an `int` is the identity. -/
structure StepOut where
  reward : ℚ
  done : Bool
  level_seed : Int
  level_complete : Bool
  deriving DecidableEq

/-- The cast `(int32_t) v`: `v` reduced into `[-2^31, 2^31)`. -/
def wrap32 (v : Int) : Int := (v + 2147483648) % 4294967296 - 2147483648

/-- Part of `Game::reset`, lines 113-126: the choice of the seed, or the clearing of `step_data`
in the middle of a batch. -/
def Game.reset_seed {R W : Type} (h : Hooks R W) (g : Game R W) : Game R W :=
  if g.episodes_remaining = 0 then
    if g.use_sequential_levels && g.step_data.level_complete then
      { g with current_level_seed := wrap32 (g.current_level_seed + 997),
               episodes_remaining := 1 }
    else
      { g with current_level_seed := (h.randint g.level_seed_rand_gen g.level_seed_low
                                        g.level_seed_high).1,
               level_seed_rand_gen := (h.randint g.level_seed_rand_gen g.level_seed_low
                                        g.level_seed_high).2,
               episodes_remaining := 1 }
  else
    { g with step_data := { reward := 0, done := false, level_complete := false } }

/-- Method `Game::reset` (lines 110-135). -/
def Game.reset {R W : Type} (h : Hooks R W) (g : Game R W) : Game R W :=
  let g1 := { g with reset_count := g.reset_count + 1 }
  let g2 := Game.reset_seed h g1
  let g3 := { g2 with world := h.seed g2.current_level_seed g2.world }
  let g4 := { g3 with world := h.game_reset g3 }
  { g4 with cur_time := 0,
            total_reward := 0,
            episodes_remaining := g4.episodes_remaining - 1,
            action := g4.default_action }

/-- Part of `Game::step`, lines 138-149: the clock advances, the sentinel action is replaced,
`step_data` is cleared and `game_step` runs. -/
def Game.step_game {R W : Type} (h : Hooks R W) (g : Game R W) : Game R W :=
  let g1 := { g with cur_time := g.cur_time + 1 }
  let g2 := { g1 with action := if g1.action = -1 then g1.default_action else g1.action }
  let g3 := { g2 with step_data := { reward := 0, done := false, level_complete := false } }
  { g3 with world := (h.game_step g3).1, step_data := (h.game_step g3).2 }

/-- The local `will_force_reset` of `Game::step`. -/
def Game.will_force_reset {R W : Type} (g : Game R W) : Bool := decide (g.action = -1)

/-- The value `step_data.done` receives at line 151 of `Game::step`: whether this call
ends the episode. -/
def Game.step_done {R W : Type} (h : Hooks R W) (g : Game R W) : Bool :=
  (Game.step_game h g).step_data.done || Game.will_force_reset g
    || decide ((Game.step_game h g).cur_time ≥ (Game.step_game h g).timeout)

/-- Part of `Game::step`, lines 151-157: `done` is settled and the reward is accumulated. -/
def Game.step_account {R W : Type} (h : Hooks R W) (g : Game R W) : Game R W :=
  let g4 := Game.step_game h g
  let g5 := { g4 with step_data := { g4.step_data with done := Game.step_done h g } }
  let g6 := { g5 with total_reward := g5.total_reward + g5.step_data.reward }
  if g6.step_data.reward ≠ 0 then
    { g6 with last_reward_timer := 10, last_reward := g6.step_data.reward }
  else g6

/-- Part of `Game::step`, line 162: `last_ep_reward = total_reward`. -/
def Game.record_episode {R W : Type} (g : Game R W) : Game R W :=
  { g with last_ep_reward := g.total_reward }

/-- Part of `Game::step`, lines 161-164: an episode that is over is recorded and `reset` runs. -/
def Game.step_end {R W : Type} (h : Hooks R W) (g : Game R W) : Game R W :=
  if g.step_data.done then Game.reset h (Game.record_episode g) else g

/-- Part of `Game::step`, lines 166-170: in sequential-levels mode a completed level hides `done`. -/
def Game.step_mask {R W : Type} (g : Game R W) : Game R W :=
  let g8 := if g.use_sequential_levels && g.step_data.level_complete then
      { g with step_data := { g.step_data with done := false } }
    else g
  { g8 with episode_done := g8.step_data.done }

/-- Method `Game::step` (lines 137-182): the state after the call and what it publishes. The
rendering of the `rgb` observation (lines 172-176) changes no field kept here. -/
def Game.step {R W : Type} (h : Hooks R W) (g : Game R W) : Game R W × StepOut :=
  let g6 := Game.step_account h g
  let level_seed := g6.current_level_seed
  let g9 := Game.step_mask (Game.step_end h g6)
  (g9, { reward := g9.step_data.reward,
         done := g9.step_data.done,
         level_seed := level_seed,
         level_complete := g9.step_data.level_complete })

/-- The caller stores the agent's action in the field `action`. -/
def Game.set_action {R W : Type} (a : Int) (g : Game R W) : Game R W :=
  { g with action := a }

/-- The caller stores the agent's action in `action` and calls `Game::step`. -/
def Game.act {R W : Type} (h : Hooks R W) (a : Int) (g : Game R W) : Game R W × StepOut :=
  Game.step h (Game.set_action a g)

/-- One `Game.act` per action of the list, in order: the final state and the list of
published results. -/
def Game.run {R W : Type} (h : Hooks R W) : List Int → Game R W → Game R W × List StepOut
  | [], g => (g, [])
  | a :: as, g =>
    let r := Game.act h a g
    let rs := Game.run h as r.1
    (rs.1, r.2 :: rs.2)

/-- None of the calls of `Game.run` on this list ends its episode. -/
def Game.none_ends {R W : Type} (h : Hooks R W) : List Int → Game R W → Bool
  | [], _ => true
  | a :: as, g =>
    !(Game.step_done h (Game.set_action a g)) && Game.none_ends h as (Game.act h a g).1

/-- The states in which the calls of `Game.run` on this list start, each with its action
stored. -/
def Game.entries {R W : Type} (h : Hooks R W) : List Int → Game R W → List (Game R W)
  | [], _ => []
  | a :: as, g => Game.set_action a g :: Game.entries h as (Game.act h a g).1

/-! ### Concrete games for the closed examples -/

/-- A generator for the examples: a counter that returns `low` plus the count. -/
def counterRandint (r : Nat) (low _high : Int) : Int × Nat := (low + r, r + 1)

/-- A game whose `game_step` earns reward `rew` and sets `done` to `d` and
`level_complete` to `lc`; its world counts the calls of `game_reset`. -/
def flagHooks (rew : ℚ) (d lc : Bool) : Hooks Nat Nat where
  randint := counterRandint
  seed := fun _ w => w
  game_reset := fun g => g.world + 1
  game_step := fun g => (g.world, { reward := rew, done := d, level_complete := lc })

/-- A state as the constructor `Game::Game` and a first `reset` leave it, with the given
timeout, mode and batch counter. -/
def freshGame (timeout episodes_remaining : Int) (sequential : Bool) : Game Nat Nat where
  timeout := timeout
  episodes_remaining := episodes_remaining
  cur_time := 0
  action := 0
  default_action := 0
  reset_count := 1
  current_level_seed := 5
  level_seed_low := 0
  level_seed_high := 100
  level_seed_rand_gen := 7
  use_sequential_levels := sequential
  total_reward := 0
  last_ep_reward := 0
  last_reward := -1
  last_reward_timer := 0
  episode_done := false
  step_data := { reward := 0, done := false, level_complete := false }
  world := 0

/-! ## The heist game with keys and doors: `heistpp.cpp` -/

/-- Entity type of a locked door (`heistpp.cpp`, line 9). -/
def LOCKED_DOOR : Int := 1

/-- Entity type of a key (line 10). -/
def KEY : Int := 2

/-- Entity type of the exit (line 11). -/
def EXIT : Int := 9

/-- Entity type of a key icon on the ring (line 12). -/
def KEY_ON_RING : Int := 11

/-- Entity type of a water hazard (line 13). -/
def WATER : Int := 20

/-- Entity type of a fire hazard (line 14). -/
def FIRE : Int := 21

/-- The fields of `Entity` that `heistpp.cpp` reads or writes, the rendering attributes
(`rotation`, `render_z`, `use_abs_coords`) apart. -/
structure Entity where
  type : Int
  x : ℚ
  y : ℚ
  vx : ℚ
  vy : ℚ
  rx : ℚ
  ry : ℚ
  image_theme : Int
  will_erase : Bool
  deriving DecidableEq

/-- The conversion `int(v)` of a `float`: truncation toward zero. -/
def float_to_int (v : ℚ) : Int := Int.tdiv v.num v.den

/-- Modelled from the spec: the grid of `BasicAbstractGame` (`grid.h` and
`basic-abstract-game.cpp` are not among the source files). An array of cell-type codes of
fixed shape `w × h`, row after row. -/
structure Grid where
  w : Int
  h : Int
  data : List Int
  deriving DecidableEq

/-- Whether `(x, y)` is a cell of the grid. -/
def Grid.contains (gr : Grid) (x y : Int) : Bool :=
  decide (0 ≤ x) && decide (x < gr.w) && decide (0 ≤ y) && decide (y < gr.h)

/-- Modelled from the spec: `set_obj(x, y, type)`, the operation `set_cell(coord, type)`
of the world model. A cell of the grid receives the code; the shape never changes, so a
coordinate outside the grid writes nothing. -/
def Grid.set_obj (gr : Grid) (x y v : Int) : Grid :=
  if gr.contains x y then { gr with data := gr.data.set (y * gr.w + x).toNat v } else gr

/-- Modelled from the spec: `get_obj(x, y)`, the bounds-safe `get_cell(coord)`; a read
outside the grid returns the configured out-of-bounds object. -/
def Grid.get_obj (gr : Grid) (out_of_bounds_object x y : Int) : Int :=
  if gr.contains x y then gr.data.getD (y * gr.w + x).toNat out_of_bounds_object
  else out_of_bounds_object

/-- The read `has_keys[i]` of the `std::vector<bool>`; an index outside the vector is
undefined behaviour and gives `none`. -/
def vec_get (v : List Bool) (i : Int) : Option Bool :=
  if 0 ≤ i then v[i.toNat]? else none

/-- The write `has_keys[i] = b`; an index outside the vector gives `none`. -/
def vec_set (v : List Bool) (i : Int) (b : Bool) : Option (List Bool) :=
  if 0 ≤ i ∧ i.toNat < v.length then some (v.set i.toNat b) else none

/-- The fields of `HeistPPGame`, its own and the inherited ones that `heistpp.cpp` uses. -/
structure HeistPPGame where
  step_data : StepData
  entities : List Entity
  grid : Grid
  grid_step : Bool
  main_width : Int
  main_height : Int
  world_dim : Int
  num_keys : Int
  num_doors : Int
  has_keys : List Bool
  wall_chance : ℚ
  water_chance : ℚ
  fire_chance : ℚ
  with_grid_steps : Bool
  completion_bonus : ℚ
  fire_bonus : ℚ
  water_bonus : ℚ
  action_bonus : ℚ
  deriving DecidableEq

/-- Method `HeistPPGame::is_blocked` (lines 93-98). `base` is `BasicAbstractGame::is_blocked`,
which is defined outside the source files. -/
def HeistPPGame.is_blocked (base : Entity → Int → Bool → Bool) (src : Entity) (target : Int)
    (is_horizontal : Bool) : Bool :=
  if target = LOCKED_DOOR then true else base src target is_horizontal

/-- Method `HeistPPGame::is_blocked_ents` (lines 100-107); the line written to `std::cout`
changes no state. `base` is `BasicAbstractGame::is_blocked_ents`. -/
def HeistPPGame.is_blocked_ents (g : HeistPPGame) (base : Entity → Entity → Bool → Bool)
    (src target : Entity) (is_horizontal : Bool) : Option Bool :=
  if target.type = LOCKED_DOOR then
    (vec_get g.has_keys target.image_theme).map (fun k => !k)
  else some (base src target is_horizontal)

/-- Modelled from the spec: `BasicAbstractGame::handle_agent_collision`, defined in
`basic-abstract-game.cpp`, which is not among the source files. The spec gives every
collision effect to the handlers of the concrete game, so the base handler changes
nothing. -/
def BasicAbstractGame.handle_agent_collision (g : HeistPPGame) (_obj : Nat) : HeistPPGame := g

/-- Part of `HeistPPGame::handle_agent_collision`, lines 129-137: every locked door of the theme
has its grid cell set to `SPACE`. -/
def HeistPPGame.clear_door_cells (SPACE theme : Int) (entities : List Entity) (grid : Grid) :
    Grid :=
  entities.foldl (fun gr entity =>
    if entity.type ≠ LOCKED_DOOR then gr
    else if entity.image_theme ≠ theme then gr
    else gr.set_obj (float_to_int entity.x) (float_to_int entity.y) SPACE) grid

/-- The write `obj->will_erase = true` on the entity at position `i` of `entities`. -/
def HeistPPGame.mark_erased (g : HeistPPGame) (i : Nat) (obj : Entity) : HeistPPGame :=
  { g with entities := g.entities.set i { obj with will_erase := true } }

/-- Method `HeistPPGame::handle_agent_collision` (lines 116-151). The shared pointer `obj` is the
position `i` of the entity in `entities`; `SPACE` is a cell code declared outside the
source files. The result is `none` where the C++ is undefined: `obj` is no entity, or
`has_keys` is indexed outside its bounds. -/
def HeistPPGame.handle_agent_collision (SPACE : Int) (g0 : HeistPPGame) (i : Nat) :
    Option HeistPPGame :=
  let g := BasicAbstractGame.handle_agent_collision g0 i
  match g.entities[i]? with
  | none => none
  | some obj =>
    if obj.type = EXIT then
      some { g with step_data :=
        { reward := g.step_data.reward + g.completion_bonus,
          done := true,
          level_complete := true } }
    else if obj.type = KEY then
      match vec_set g.has_keys obj.image_theme true with
      | none => none
      | some keys =>
        let g1 := { HeistPPGame.mark_erased g i obj with has_keys := keys }
        if g1.grid_step then
          some { g1 with grid :=
            HeistPPGame.clear_door_cells SPACE obj.image_theme g1.entities g1.grid }
        else some g1
    else if obj.type = LOCKED_DOOR then
      match vec_get g.has_keys obj.image_theme with
      | none => none
      | some has_key => if has_key then some (HeistPPGame.mark_erased g i obj) else some g
    else if obj.type = WATER then
      some { g with step_data :=
        { g.step_data with reward := g.step_data.reward + g.water_bonus } }
    else if obj.type = FIRE then
      some { g with step_data :=
        { g.step_data with reward := g.step_data.reward + g.fire_bonus } }
    else some g

/-! ### A concrete heist state for the closed examples -/

/-- An entity of the given type and theme standing in cell `(x, y)`. -/
def mkEntity (type : Int) (theme : Int) (x y : ℚ) : Entity where
  type := type
  x := x
  y := y
  vx := 0
  vy := 0
  rx := 1/2
  ry := 1/2
  image_theme := theme
  will_erase := false

/-- A 3 × 3 world in grid-step mode with a key (theme 1), its door, the exit, a water and
a fire hazard; the door cell `(1, 1)` holds `LOCKED_DOOR`, every other cell the code 100.
The bonuses are the registered defaults of the constructor (lines 57-60). -/
def heistExample (has_keys : List Bool) : HeistPPGame where
  step_data := { reward := -1, done := false, level_complete := false }
  entities := [mkEntity KEY 1 (1/2) (1/2), mkEntity LOCKED_DOOR 1 (3/2) (3/2),
               mkEntity EXIT 0 (5/2) (5/2), mkEntity WATER 0 (1/2) (5/2),
               mkEntity FIRE 0 (5/2) (1/2)]
  grid := { w := 3, h := 3, data := [100, 100, 100, 100, 1, 100, 100, 100, 100] }
  grid_step := true
  main_width := 3
  main_height := 3
  world_dim := 3
  num_keys := 1
  num_doors := 1
  has_keys := has_keys
  wall_chance := 1
  water_chance := 1
  fire_chance := 1
  with_grid_steps := true
  completion_bonus := 10
  fire_bonus := -5
  water_bonus := -2
  action_bonus := -1

/-! ## Construction and call sequences: `game.cpp` -/

/-- Constructor `Game::Game` (lines 22-34): the fields the body assigns; `g0` holds the
fields it leaves to their declarations and to the configuration that follows. -/
def Game.ctor {R W : Type} (g0 : Game R W) : Game R W :=
  { g0 with timeout := 1000,
            episodes_remaining := 0,
            last_ep_reward := 0,
            last_reward := -1,
            default_action := 0,
            reset_count := 0,
            current_level_seed := 0,
            step_data := { reward := 0, done := false, level_complete := false } }

/-- A call made on a `Game` by its owner: `reset()`, or `step()` after storing an action. -/
inductive Call where
  | reset : Call
  | step : Int → Call
  deriving DecidableEq

/-- The state after one call. -/
def Game.call {R W : Type} (h : Hooks R W) (g : Game R W) : Call → Game R W
  | Call.reset => Game.reset h g
  | Call.step a => (Game.act h a g).1

/-- The state after a sequence of calls, made in order. -/
def Game.exec {R W : Type} (h : Hooks R W) (calls : List Call) (g : Game R W) : Game R W :=
  calls.foldl (Game.call h) g

/-! ## Named buffers: `game.cpp` -/

/-- The descriptor `libenv_space` of a channel: its name, element type tag and shape. The
type is declared outside the source files. -/
structure LibenvSpace where
  name : String
  dtype : Int
  shape : List Int
  deriving DecidableEq

/-- The record `GameSpaceBuffer`: the descriptor a channel is bound to (a null pointer
until it is connected) and the address of its memory (0 for null). -/
structure GameSpaceBuffer where
  space : Option LibenvSpace
  buffer : Nat
  deriving DecidableEq

/-- The value `GameSpaceBuffer()` of a channel that is registered and not connected. -/
def GameSpaceBuffer.unconnected : GameSpaceBuffer := { space := none, buffer := 0 }

/-- A `std::map<std::string, GameSpaceBuffer>`: the record stored under a name, if any. -/
abbrev BufferMap := String → Option GameSpaceBuffer

/-- The assignment `buffer_map[name] = b`. -/
def BufferMap.assign (m : BufferMap) (name : String) (b : GameSpaceBuffer) : BufferMap :=
  fun n => if n = name then some b else m n

/-- The two registries of a `Game`. -/
structure Buffers where
  info_buffers : BufferMap
  obs_buffers : BufferMap

/-- Method `Game::register_info_buffer` (lines 187-189). -/
def Buffers.register_info_buffer (b : Buffers) (name : String) : Buffers :=
  { b with info_buffers := b.info_buffers.assign name GameSpaceBuffer.unconnected }

/-- Method `Game::register_obs_buffer` (lines 191-193). -/
def Buffers.register_obs_buffer (b : Buffers) (name : String) : Buffers :=
  { b with obs_buffers := b.obs_buffers.assign name GameSpaceBuffer.unconnected }

/-- The registrations of the constructor `Game::Game` (lines 36-38), on empty maps. -/
def Game.ctor_buffers : Buffers :=
  let b0 : Buffers := { info_buffers := fun _ => none, obs_buffers := fun _ => none }
  let b1 := b0.register_info_buffer "level_seed"
  let b2 := b1.register_info_buffer "level_complete"
  b2.register_obs_buffer "rgb"

/-- How a call that can fail ends: normally, by a failed `fassert` (the process stops), or
in undefined behaviour (a vector read past its end). -/
inductive Outcome (α : Type) where
  | ok : α → Outcome α
  | fatal : Outcome α
  | undefined : Outcome α

/-- The loop of `Game::connect_buffer` (lines 196-204) from index `i` on; `spaces` holds
the descriptors not yet visited. -/
def Game.connect_buffer_from (buffer : List Nat) :
    Nat → List LibenvSpace → BufferMap → Outcome BufferMap
  | _, [], m => Outcome.ok m
  | i, s :: rest, m =>
    match m s.name with
    | none => Outcome.fatal
    | some _ =>
      match buffer[i]? with
      | none => Outcome.undefined
      | some p =>
        Game.connect_buffer_from buffer (i + 1) rest
          (m.assign s.name { space := some s, buffer := p })

/-- Method `Game::connect_buffer` (lines 195-205). -/
def Game.connect_buffer (buffer_map : BufferMap) (spaces : List LibenvSpace)
    (buffer : List Nat) : Outcome BufferMap :=
  Game.connect_buffer_from buffer 0 spaces buffer_map

/-! ## Configuration of the heist game: `heistpp.cpp` -/

/-- The options the constructor `HeistPPGame::HeistPPGame` registers (lines 46-60), with
the values they hold when `game_init` reads them. -/
structure HeistOptions where
  world_dim : Int
  wall_chance : ℚ
  water_chance : ℚ
  fire_chance : ℚ
  with_grid_steps : Nat
  num_keys : Int
  num_doors : Int
  completion_bonus : ℚ
  fire_bonus : ℚ
  water_bonus : ℚ
  action_bonus : ℚ

/-- The registered default values (lines 46-60). -/
def HeistOptions.defaults : HeistOptions where
  world_dim := 5
  wall_chance := 1
  water_chance := 0
  fire_chance := 0
  with_grid_steps := 1
  num_keys := 0
  num_doors := 0
  completion_bonus := 10
  fire_bonus := -5
  water_bonus := -2
  action_bonus := -1

/-- Method `HeistPPGame::choose_world_dim` (lines 153-160); `maxspeed` is not kept. -/
def HeistPPGame.choose_world_dim (o : HeistOptions) (g : HeistPPGame) : HeistPPGame :=
  let g1 := { g with world_dim := o.world_dim }
  let g2 := { g1 with main_width := g1.world_dim }
  { g2 with main_height := g2.world_dim }

/-- Part of `HeistPPGame::game_init`, lines 175-182: probabilities whose sum exceeds 1 are
scaled, then turned into cumulative thresholds. -/
def HeistPPGame.init_chances (g : HeistPPGame) : HeistPPGame :=
  let sum_chance := g.wall_chance + g.water_chance + g.fire_chance
  let g1 := if sum_chance > 1 then
      { g with wall_chance := g.wall_chance / sum_chance,
               water_chance := g.water_chance / sum_chance,
               fire_chance := g.fire_chance / sum_chance }
    else g
  let g2 := { g1 with water_chance := g1.water_chance + g1.wall_chance }
  { g2 with fire_chance := g2.fire_chance + g2.water_chance }

/-- Method `HeistPPGame::game_init` (lines 162-191) on the state `g` that
`BasicAbstractGame::game_init` leaves; `none` is a failed `fassert`. -/
def HeistPPGame.game_init (o : HeistOptions) (g : HeistPPGame) : Option HeistPPGame :=
  let g1 := { g with wall_chance := o.wall_chance,
                     water_chance := o.water_chance,
                     fire_chance := o.fire_chance,
                     num_keys := o.num_keys,
                     num_doors := o.num_doors }
  if ¬ (g1.num_keys ≥ g1.num_doors) then none
  else if ¬ (g1.num_keys ≤ 3) then none
  else if ¬ (g1.num_doors ≤ 3) then none
  else
    let g2 := HeistPPGame.init_chances g1
    some { g2 with with_grid_steps := decide (o.with_grid_steps ≠ 0),
                   completion_bonus := o.completion_bonus,
                   fire_bonus := o.fire_bonus,
                   water_bonus := o.water_bonus,
                   action_bonus := o.action_bonus }

/-! ## Level generation of the heist game: `HeistPPGame::game_reset` -/

/-- What `game_reset` uses and `heistpp.cpp` does not define: the cell codes and
`MAZE_OFFSET` of the headers, the generator `rand_gen` (state `R`, with `randn` and
`rand01`), the maze generator (`MazeGen` with `generate_maze_with_doors`, giving the
reader `grid.get` of the generated maze), the position `spawn_entity` chooses for a new
entity, and the extents `match_aspect_ratio` gives an entity. -/
structure HeistExternals (R : Type) where
  WALL_OBJ : Int
  SPACE : Int
  KEY_OBJ : Int
  DOOR_OBJ : Int
  EXIT_OBJ : Int
  AGENT_OBJ : Int
  MAZE_OFFSET : Int
  randn : R → Int → Int × R
  rand01 : R → ℚ × R
  generate_maze_with_doors : R → Int → Int → (Int → Int → Int) × R
  spawn_position : R → List Entity → ℚ → Int → ℚ → ℚ → ℚ → ℚ → (ℚ × ℚ) × R
  match_aspect_ratio : Entity → ℚ × ℚ

/-- Modelled from the spec: `add_entity(x, y, vx, vy, r, type)` of the world model, which
is defined in `basic-abstract-game.cpp`, not among the source files. The new entity, with
theme 0 and not marked for erasure; the caller appends it to `entities`. -/
def BasicAbstractGame.add_entity (x y vx vy r : ℚ) (type : Int) : Entity where
  type := type
  x := x
  y := y
  vx := vx
  vy := vy
  rx := r
  ry := r
  image_theme := 0
  will_erase := false

/-- Modelled from the spec: `set_obj(index, type)`, the write of a cell by its index. -/
def Grid.set_obj_index (gr : Grid) (index v : Int) : Grid :=
  if 0 ≤ index ∧ index < gr.w * gr.h then { gr with data := gr.data.set index.toNat v }
  else gr

/-- The write of fields of the entity at position `i` through a pointer to it. -/
def update_entity (entities : List Entity) (i : Nat) (f : Entity → Entity) : List Entity :=
  match entities[i]? with
  | some e => entities.set i (f e)
  | none => entities

/-- The state the loops of `game_reset` carry: grid, entities, `rand_gen` and the local
`num_placed_doors`. -/
structure ResetState (R : Type) where
  grid : Grid
  entities : List Entity
  rand_gen : R
  num_placed_doors : Int

/-- The local `maze_scale` of `game_reset` (line 208). -/
def HeistPPGame.maze_scale (g : HeistPPGame) : ℚ := (g.main_height : ℚ) / ((g.world_dim : ℚ) * 1)

/-- Part of `HeistPPGame::game_reset`, lines 241-256: an open cell of the maze becomes
`SPACE`; a wall cell is re-rolled into a wall, a water hazard, a fire hazard or space. -/
def HeistPPGame.reset_terrain {R : Type} (x : HeistExternals R) (g : HeistPPGame)
    (obj cx cy : Int) (st : ResetState R) : ResetState R :=
  if obj ≠ x.WALL_OBJ then
    { st with grid := st.grid.set_obj cx cy x.SPACE }
  else
    let chance := (x.rand01 st.rand_gen).1
    let st1 := { st with rand_gen := (x.rand01 st.rand_gen).2 }
    if chance < g.wall_chance then
      { st1 with grid := st1.grid.set_obj cx cy x.WALL_OBJ }
    else if chance < g.water_chance then
      { st1 with grid := st1.grid.set_obj cx cy x.SPACE,
                 entities := st1.entities ++
                   [BasicAbstractGame.add_entity ((cx : ℚ) + 1/2) ((cy : ℚ) + 1/2) 0 0 (1/2)
                     WATER] }
    else if chance < g.fire_chance then
      { st1 with grid := st1.grid.set_obj cx cy x.SPACE,
                 entities := st1.entities ++
                   [BasicAbstractGame.add_entity ((cx : ℚ) + 1/2) ((cy : ℚ) + 1/2) 0 0 (1/2)
                     FIRE] }
    else
      { st1 with grid := st1.grid.set_obj cx cy x.SPACE }

/-- The call `spawn_entity(rad, type, x, y, w, h)` followed by the assignment of the theme
and `match_aspect_ratio`: an entity of that radius and type at the position chosen
outside the source files, appended to `entities`. -/
def HeistPPGame.spawn_entity {R : Type} (x : HeistExternals R) (rad : ℚ) (type : Int)
    (px py w h : ℚ) (theme : Int) (st : ResetState R) : ResetState R :=
  let pos := (x.spawn_position st.rand_gen st.entities rad type px py w h).1
  let ent := { BasicAbstractGame.add_entity pos.1 pos.2 0 0 rad type with
                image_theme := theme }
  let ent1 := { ent with rx := (x.match_aspect_ratio ent).1,
                         ry := (x.match_aspect_ratio ent).2 }
  { st with entities := st.entities ++ [ent1],
            rand_gen := (x.spawn_position st.rand_gen st.entities rad type px py w h).2 }

/-- Part of `HeistPPGame::game_reset`, lines 258-280: the entity the maze cell stands for,
a key, a door (while doors are left to place; in grid-step mode its cell becomes
`LOCKED_DOOR`), the exit, or the place of the agent. -/
def HeistPPGame.reset_object {R : Type} (x : HeistExternals R) (g : HeistPPGame)
    (agent : Nat) (obj cx cy : Int) (st : ResetState R) : ResetState R :=
  let maze_scale := g.maze_scale
  let r_ent := maze_scale / 2
  let obj_x := ((cx : ℚ) + 1/2) * maze_scale
  let obj_y := ((cy : ℚ) + 1/2) * maze_scale
  if obj ≥ x.KEY_OBJ then
    HeistPPGame.spawn_entity x (3/8 * maze_scale) KEY (maze_scale * cx) (maze_scale * cy)
      maze_scale maze_scale (obj - x.KEY_OBJ - 1) st
  else if obj ≥ x.DOOR_OBJ then
    if st.num_placed_doors < g.num_doors then
      let st1 := if g.grid_step then
          { st with grid := st.grid.set_obj cx cy LOCKED_DOOR }
        else st
      { st1 with entities := st1.entities ++
                   [{ BasicAbstractGame.add_entity obj_x obj_y 0 0 r_ent LOCKED_DOOR with
                        image_theme := obj - x.DOOR_OBJ - 1 }],
                 num_placed_doors := st1.num_placed_doors + 1 }
    else st
  else if obj = x.EXIT_OBJ then
    HeistPPGame.spawn_entity x (3/8 * maze_scale) EXIT (maze_scale * cx) (maze_scale * cy)
      maze_scale maze_scale 0 st
  else if obj = x.AGENT_OBJ then
    { st with entities :=
        update_entity st.entities agent (fun a => { a with x := obj_x, y := obj_y }) }
  else st

/-- The body of the loops of `game_reset` (lines 233-280) for the maze cell `(i, j)`. -/
def HeistPPGame.reset_cell {R : Type} (x : HeistExternals R) (g : HeistPPGame) (agent : Nat)
    (maze : Int → Int → Int) (off_x off_y : Int) (st : ResetState R) (ij : Int × Int) :
    ResetState R :=
  let cx := off_x + ij.1
  let cy := off_y + ij.2
  let obj := maze (ij.1 + x.MAZE_OFFSET) (ij.2 + x.MAZE_OFFSET)
  HeistPPGame.reset_object x g agent obj cx cy (HeistPPGame.reset_terrain x g obj cx cy st)

/-- The cells `(i, j)` in the order the loops of lines 231-232 visit them. -/
def HeistPPGame.maze_cells (maze_dim : Int) : List (Int × Int) :=
  (List.range maze_dim.toNat).flatMap (fun (i : Nat) =>
    (List.range maze_dim.toNat).map (fun (j : Nat) => (Int.ofNat i, Int.ofNat j)))

/-- Part of `HeistPPGame::game_reset`, line 287-292: the key icon `i` of the ring. -/
def HeistPPGame.ring_key {R : Type} (x : HeistExternals R) (i : Nat) : Entity :=
  let ring_key_r : ℚ := 3/100
  let ent := { BasicAbstractGame.add_entity (1 - ring_key_r * (2 * (i : ℚ) + 5/4))
                (ring_key_r * (3/4)) 0 0 ring_key_r KEY_ON_RING with image_theme := i }
  { ent with rx := (x.match_aspect_ratio ent).1, ry := (x.match_aspect_ratio ent).2 }

/-- Part of `HeistPPGame::game_reset`, lines 198-223: the mode and the empty key set, the
extents of the agent, the generated maze, the agent moved away, and the two offsets. The
result is the game, the maze reader, `off_x`, `off_y` and the generator state. -/
def HeistPPGame.reset_setup {R : Type} (x : HeistExternals R) (agent : Nat)
    (g : HeistPPGame) (r : R) : HeistPPGame × (Int → Int → Int) × Int × Int × R :=
  let g1 := { g with grid_step := g.with_grid_steps }
  let g2 := { g1 with has_keys := [false, false, false] }
  let maze_dim := g2.world_dim
  let maze_scale := g2.maze_scale
  let sized := update_entity g2.entities agent
    (fun a => { a with rx := 3/8 * maze_scale, ry := 3/8 * maze_scale })
  let g3 := { g2 with entities := sized }
  let gen := x.generate_maze_with_doors r maze_dim g3.num_keys
  let moved := update_entity g3.entities agent (fun a => { a with x := -1, y := -1 })
  let g4 := { g3 with entities := moved }
  let ox := x.randn gen.2 (g4.world_dim - maze_dim + 1)
  let oy := x.randn ox.2 (g4.world_dim - maze_dim + 1)
  (g4, gen.1, ox.1, oy.1, oy.2)

/-- Part of `HeistPPGame::game_reset`, lines 225-227: every cell becomes `WALL_OBJ`;
`grid_size` is the number of cells. -/
def HeistPPGame.fill_walls (WALL_OBJ : Int) (gr : Grid) : Grid :=
  (List.range (gr.w * gr.h).toNat).foldl
    (fun acc (i : Nat) => acc.set_obj_index (Int.ofNat i) WALL_OBJ) gr

/-- Method `HeistPPGame::game_reset` (lines 193-294) on the state `g` that
`BasicAbstractGame::game_reset` leaves, in which the agent is the entity at position
`agent`; `r` is the state of `rand_gen`. The flag `options.center_agent` (line 196) and
the rendering attributes of the ring icons are not kept. -/
def HeistPPGame.game_reset {R : Type} (x : HeistExternals R) (agent : Nat) (g : HeistPPGame)
    (r : R) : HeistPPGame × R :=
  let su := HeistPPGame.reset_setup x agent g r
  let g4 := su.1
  let st0 : ResetState R :=
    { grid := HeistPPGame.fill_walls x.WALL_OBJ g4.grid,
      entities := g4.entities,
      rand_gen := su.2.2.2.2,
      num_placed_doors := 0 }
  let st1 := (HeistPPGame.maze_cells g4.world_dim).foldl
    (HeistPPGame.reset_cell x g4 agent su.2.1 su.2.2.1 su.2.2.2.1) st0
  let ring := (List.range g4.num_keys.toNat).map (HeistPPGame.ring_key x)
  ({ g4 with grid := st1.grid, entities := st1.entities ++ ring }, st1.rand_gen)

/-- The reader of the maze that `game_reset` generates (line 216). -/
def HeistPPGame.reset_maze {R : Type} (x : HeistExternals R) (agent : Nat) (g : HeistPPGame)
    (r : R) : Int → Int → Int :=
  (HeistPPGame.reset_setup x agent g r).2.1

/-- The local `off_x` of `game_reset` (line 222). -/
def HeistPPGame.reset_off_x {R : Type} (x : HeistExternals R) (agent : Nat)
    (g : HeistPPGame) (r : R) : Int :=
  (HeistPPGame.reset_setup x agent g r).2.2.1

/-- The local `off_y` of `game_reset` (line 223). -/
def HeistPPGame.reset_off_y {R : Type} (x : HeistExternals R) (agent : Nat)
    (g : HeistPPGame) (r : R) : Int :=
  (HeistPPGame.reset_setup x agent g r).2.2.2.1

/-- The entities `game_reset` creates: those behind the entities it found. -/
def HeistPPGame.reset_created {R : Type} (x : HeistExternals R) (agent : Nat)
    (g : HeistPPGame) (r : R) : List Entity :=
  (HeistPPGame.game_reset x agent g r).1.entities.drop g.entities.length

/-- The state in which the loop over the cells of `game_reset` starts (lines 225-230). -/
def HeistPPGame.reset_start {R : Type} (x : HeistExternals R) (agent : Nat)
    (g : HeistPPGame) (r : R) : ResetState R :=
  { grid := HeistPPGame.fill_walls x.WALL_OBJ (HeistPPGame.reset_setup x agent g r).1.grid,
    entities := (HeistPPGame.reset_setup x agent g r).1.entities,
    rand_gen := (HeistPPGame.reset_setup x agent g r).2.2.2.2,
    num_placed_doors := 0 }

/-- The state in which the loop over the cells of `game_reset` ends (line 282). -/
def HeistPPGame.reset_final {R : Type} (x : HeistExternals R) (agent : Nat)
    (g : HeistPPGame) (r : R) : ResetState R :=
  (HeistPPGame.maze_cells (HeistPPGame.reset_setup x agent g r).1.world_dim).foldl
    (HeistPPGame.reset_cell x (HeistPPGame.reset_setup x agent g r).1 agent
      (HeistPPGame.reset_maze x agent g r) (HeistPPGame.reset_off_x x agent g r)
      (HeistPPGame.reset_off_y x agent g r))
    (HeistPPGame.reset_start x agent g r)

/-- An entity of the given type, theme and radius at `(x, y)`, at rest. -/
def mkEntityAt (type : Int) (theme : Int) (x y r : ℚ) : Entity where
  type := type
  x := x
  y := y
  vx := 0
  vy := 0
  rx := r
  ry := r
  image_theme := theme
  will_erase := false

/-! ### A concrete level for the closed examples -/

/-- Example cell codes: wall 51, space 100, door base 1000, key base 2000, exit 9, agent
0, maze offset 1. The draws of `rand01` run through 1/4, 1/2, 3/4 by the counter. A maze
of 3 × 3 cells with the agent at `(0, 0)`, the key of theme 1 at `(2, 0)`, its door at
`(1, 1)`, the exit at `(2, 2)` and walls at `(1, 0)`, `(0, 2)` and `(1, 2)`. -/
def exampleExternals : HeistExternals Nat where
  WALL_OBJ := 51
  SPACE := 100
  KEY_OBJ := 2000
  DOOR_OBJ := 1000
  EXIT_OBJ := 9
  AGENT_OBJ := 0
  MAZE_OFFSET := 1
  randn := fun r n => ((r : Int) % n, r + 1)
  rand01 := fun r => (((r % 3 : Nat) : ℚ) / 4 + 1/4, r + 1)
  generate_maze_with_doors := fun r _ _ =>
    (fun i j =>
      if (i, j) = (1, 1) then 0
      else if (i, j) = (3, 1) then 2002
      else if (i, j) = (2, 2) then 1002
      else if (i, j) = (3, 3) then 9
      else if (i, j) = (2, 1) ∨ (i, j) = (1, 3) ∨ (i, j) = (2, 3) then 51
      else if 1 ≤ i ∧ i ≤ 3 ∧ 1 ≤ j ∧ j ≤ 3 then 100
      else 51, r + 1)
  spawn_position := fun r _ _ _ px py w h => ((px + w / 2, py + h / 2), r + 1)
  match_aspect_ratio := fun e => (e.rx, e.rx)

/-- A heist state as the base class leaves it before `game_reset`: a 3 × 3 grid, the
agent alone, one key and one door configured, and the given terrain thresholds. -/
def exampleLevel (wall_chance water_chance fire_chance : ℚ) : HeistPPGame where
  step_data := { reward := 0, done := false, level_complete := false }
  entities := [mkEntity 0 0 0 0]
  grid := { w := 3, h := 3, data := [100, 100, 100, 100, 100, 100, 100, 100, 100] }
  grid_step := false
  main_width := 3
  main_height := 3
  world_dim := 3
  num_keys := 1
  num_doors := 1
  has_keys := []
  wall_chance := wall_chance
  water_chance := water_chance
  fire_chance := fire_chance
  with_grid_steps := true
  completion_bonus := 10
  fire_bonus := -5
  water_bonus := -2
  action_bonus := -1

/-! ## One step of the heist game: `HeistPPGame::game_step` -/

/-- The collision handlers run for the entities the agent overlaps, given by their
positions in `entities`, in that order; `none` is undefined behaviour in a handler. -/
def HeistPPGame.collide (SPACE : Int) : List Nat → HeistPPGame → Option HeistPPGame
  | [], g => some g
  | i :: rest, g =>
    match HeistPPGame.handle_agent_collision SPACE g i with
    | none => none
    | some g1 => HeistPPGame.collide SPACE rest g1

/-- Modelled from the spec: `BasicAbstractGame::game_step`, defined in
`basic-abstract-game.cpp`, which is not among the source files. The action becomes a
velocity and the entities move subject to the blocking rules: `move` gives the entities
after the movement and the positions of the entities the agent then overlaps, in entity
iteration order. The collision handler runs once for each of them, and the entities
marked for erasure are removed at the end of the step. -/
def BasicAbstractGame.game_step (SPACE : Int)
    (move : Int → HeistPPGame → List Entity × List Nat) (action : Int) (g : HeistPPGame) :
    Option HeistPPGame :=
  match HeistPPGame.collide SPACE (move action g).2 { g with entities := (move action g).1 } with
  | none => none
  | some g1 => some { g1 with entities := g1.entities.filter (fun e => !e.will_erase) }

/-- Method `HeistPPGame::game_step` (lines 296-333): the step of the base class, then the
per-action reward. The facing of the agent (line 299) and the `state` info channel
(lines 303-331) change no field kept here. -/
def HeistPPGame.game_step (SPACE : Int) (move : Int → HeistPPGame → List Entity × List Nat)
    (action : Int) (g : HeistPPGame) : Option HeistPPGame :=
  match BasicAbstractGame.game_step SPACE move action g with
  | none => none
  | some g1 =>
    some { g1 with step_data :=
      { g1.step_data with reward := g1.step_data.reward + g1.action_bonus } }

/-- The heist game under the episode lifecycle: `step_data` is the record of the `Game`,
and a world `none` is a game that ran into undefined behaviour. `game_reset` stays a
parameter. -/
def heistHooks {R : Type} (randint : R → Int → Int → Int × R)
    (seed : Int → Option HeistPPGame → Option HeistPPGame)
    (game_reset : Game R (Option HeistPPGame) → Option HeistPPGame) (SPACE : Int)
    (move : Int → HeistPPGame → List Entity × List Nat) : Hooks R (Option HeistPPGame) where
  randint := randint
  seed := seed
  game_reset := game_reset
  game_step := fun g =>
    match g.world with
    | none => (none, g.step_data)
    | some w =>
      match HeistPPGame.game_step SPACE move g.action { w with step_data := g.step_data } with
      | none => (none, g.step_data)
      | some w1 => (some w1, w1.step_data)

/-- Physics for the examples: nothing moves, and the agent overlaps the entity at the
position the action names. -/
def exampleMove (action : Int) (w : HeistPPGame) : List Entity × List Nat :=
  (w.entities, if 0 ≤ action ∧ action.toNat < w.entities.length then [action.toNat] else [])

/-- The lifecycle hooks of the heist game for the examples: `game_reset` keeps the
world. -/
def exampleHeistHooks : Hooks Nat (Option HeistPPGame) :=
  heistHooks counterRandint (fun _ w => w) (fun g => g.world) 100 exampleMove

/-- The start of an episode of the example heist state, no key collected, with timeout
1000 in non-sequential mode. -/
def exampleHeistGame : Game Nat (Option HeistPPGame) where
  timeout := 1000
  episodes_remaining := 0
  cur_time := 0
  action := 0
  default_action := 0
  reset_count := 1
  current_level_seed := 5
  level_seed_low := 0
  level_seed_high := 100
  level_seed_rand_gen := 7
  use_sequential_levels := false
  total_reward := 0
  last_ep_reward := 0
  last_reward := -1
  last_reward_timer := 0
  episode_done := false
  step_data := { reward := 0, done := false, level_complete := false }
  world := some (heistExample [false, false, false])

/-- The example heist episode with timeout 3, in sequential-levels mode. -/
def exampleHeistTimeout : Game Nat (Option HeistPPGame) :=
  { exampleHeistGame with timeout := 3, use_sequential_levels := true }

/-! ## Theorems: episode lifecycle -/

section lifecycle_lemmas

variable {R W : Type} (h : Hooks R W) (g : Game R W)

theorem Game.reset_step_data_of_zero (he : g.episodes_remaining = 0) :
    (Game.reset h g).step_data = g.step_data := by
  simp [Game.reset, Game.reset_seed, he]
  split <;> rfl

theorem Game.reset_use_sequential_levels :
    (Game.reset h g).use_sequential_levels = g.use_sequential_levels := by
  simp only [Game.reset, Game.reset_seed]
  split
  · split <;> rfl
  · rfl

theorem Game.reset_cur_time : (Game.reset h g).cur_time = 0 := rfl

theorem Game.reset_total_reward : (Game.reset h g).total_reward = 0 := rfl

theorem Game.reset_last_ep_reward : (Game.reset h g).last_ep_reward = g.last_ep_reward := by
  simp only [Game.reset, Game.reset_seed]
  split
  · split <;> rfl
  · rfl

theorem Game.reset_reset_count : (Game.reset h g).reset_count = g.reset_count + 1 := by
  simp only [Game.reset, Game.reset_seed]
  split
  · split <;> rfl
  · rfl

theorem Game.reset_episodes_remaining :
    (Game.reset h g).episodes_remaining
      = if g.episodes_remaining = 0 then 0 else g.episodes_remaining - 1 := by
  simp only [Game.reset, Game.reset_seed]
  split
  · split <;> rfl
  · rfl

theorem Game.step_account_step_data :
    (Game.step_account h g).step_data
      = { (Game.step_game h g).step_data with done := Game.step_done h g } := by
  simp only [Game.step_account]
  split <;> rfl

theorem Game.step_account_total_reward :
    (Game.step_account h g).total_reward
      = g.total_reward + (Game.step_game h g).step_data.reward := by
  simp only [Game.step_account]
  split <;> simp [Game.step_game]

theorem Game.step_account_episodes_remaining :
    (Game.step_account h g).episodes_remaining = g.episodes_remaining := by
  simp only [Game.step_account]
  split <;> rfl

theorem Game.step_account_use_sequential_levels :
    (Game.step_account h g).use_sequential_levels = g.use_sequential_levels := by
  simp only [Game.step_account]
  split <;> rfl

theorem Game.step_game_cur_time : (Game.step_game h g).cur_time = g.cur_time + 1 := rfl

theorem Game.step_game_timeout : (Game.step_game h g).timeout = g.timeout := rfl

theorem Game.step_account_reset_count :
    (Game.step_account h g).reset_count = g.reset_count := by
  simp only [Game.step_account]
  split <;> rfl

theorem Game.step_account_current_level_seed :
    (Game.step_account h g).current_level_seed = g.current_level_seed := by
  simp only [Game.step_account]
  split <;> rfl

theorem Game.step_account_level_seed_rand_gen :
    (Game.step_account h g).level_seed_rand_gen = g.level_seed_rand_gen := by
  simp only [Game.step_account]
  split <;> rfl

theorem Game.step_account_cur_time :
    (Game.step_account h g).cur_time = g.cur_time + 1 := by
  simp only [Game.step_account]
  split <;> rfl

theorem Game.step_account_timeout :
    (Game.step_account h g).timeout = g.timeout := by
  simp only [Game.step_account]
  split <;> rfl

theorem Game.step_mask_step_data :
    (Game.step_mask g).step_data
      = { g.step_data with
          done := if g.use_sequential_levels && g.step_data.level_complete then false
                  else g.step_data.done } := by
  simp only [Game.step_mask]
  split <;> rfl

theorem Game.step_mask_reset_count : (Game.step_mask g).reset_count = g.reset_count := by
  simp only [Game.step_mask]
  split <;> rfl

theorem Game.step_mask_cur_time : (Game.step_mask g).cur_time = g.cur_time := by
  simp only [Game.step_mask]
  split <;> rfl

theorem Game.step_mask_timeout : (Game.step_mask g).timeout = g.timeout := by
  simp only [Game.step_mask]
  split <;> rfl

theorem Game.step_mask_current_level_seed :
    (Game.step_mask g).current_level_seed = g.current_level_seed := by
  simp only [Game.step_mask]
  split <;> rfl

theorem Game.step_mask_level_seed_rand_gen :
    (Game.step_mask g).level_seed_rand_gen = g.level_seed_rand_gen := by
  simp only [Game.step_mask]
  split <;> rfl

theorem Game.step_mask_total_reward : (Game.step_mask g).total_reward = g.total_reward := by
  simp only [Game.step_mask]
  split <;> rfl

theorem Game.step_mask_last_ep_reward :
    (Game.step_mask g).last_ep_reward = g.last_ep_reward := by
  simp only [Game.step_mask]
  split <;> rfl

theorem Game.step_mask_episodes_remaining :
    (Game.step_mask g).episodes_remaining = g.episodes_remaining := by
  simp only [Game.step_mask]
  split <;> rfl

/-- In sequential-levels mode `reset` after a completed level adds 997 to the seed and
leaves `level_seed_rand_gen` alone. -/
theorem Game.reset_sequential (he : g.episodes_remaining = 0)
    (hs : g.use_sequential_levels = true) (hl : g.step_data.level_complete = true) :
    (Game.reset h g).current_level_seed = wrap32 (g.current_level_seed + 997) ∧
    (Game.reset h g).level_seed_rand_gen = g.level_seed_rand_gen := by
  simp [Game.reset, Game.reset_seed, he, hs, hl]

theorem Game.step_end_of_not_done (hd : Game.step_done h g = false) :
    Game.step_end h (Game.step_account h g) = Game.step_account h g := by
  simp [Game.step_end, Game.step_account_step_data, hd]

theorem Game.step_end_of_done (hd : Game.step_done h g = true) :
    Game.step_end h (Game.step_account h g)
      = Game.reset h (Game.record_episode (Game.step_account h g)) := by
  simp [Game.step_end, Game.step_account_step_data, hd]

/-- With `episodes_remaining = 0` the reset inside `step` keeps `step_data`. -/
theorem Game.step_end_step_data (he : g.episodes_remaining = 0) :
    (Game.step_end h (Game.step_account h g)).step_data
      = (Game.step_account h g).step_data := by
  unfold Game.step_end
  split
  · rw [Game.reset_step_data_of_zero]
    · rfl
    · exact (Game.step_account_episodes_remaining h g).trans he
  · rfl

theorem Game.step_end_use_sequential_levels :
    (Game.step_end h (Game.step_account h g)).use_sequential_levels
      = g.use_sequential_levels := by
  unfold Game.step_end
  split
  · rw [Game.reset_use_sequential_levels]
    exact Game.step_account_use_sequential_levels h g
  · exact Game.step_account_use_sequential_levels h g

/-- The published `done` flag in terms of the line-151 value. -/
theorem Game.step_out_done (he : g.episodes_remaining = 0) :
    (Game.step h g).2.done
      = (if g.use_sequential_levels && (Game.step_game h g).step_data.level_complete
          then false else Game.step_done h g) := by
  show (Game.step_mask (Game.step_end h (Game.step_account h g))).step_data.done = _
  rw [Game.step_mask_step_data]
  simp only [Game.step_end_step_data h g he, Game.step_end_use_sequential_levels,
    Game.step_account_step_data]

/-- A call that does not end the episode publishes `done = false`. -/
theorem Game.step_out_done_of_not_done (hd : Game.step_done h g = false) :
    (Game.step h g).2.done = false := by
  show (Game.step_mask (Game.step_end h (Game.step_account h g))).step_data.done = _
  rw [Game.step_mask_step_data, Game.step_end_of_not_done h g hd]
  simp [Game.step_account_step_data, hd]

/-- A call that does not end the episode publishes the reward the handlers earned. -/
theorem Game.step_out_reward_of_not_done (hd : Game.step_done h g = false) :
    (Game.step h g).2.reward = (Game.step_game h g).step_data.reward := by
  show (Game.step_mask (Game.step_end h (Game.step_account h g))).step_data.reward = _
  rw [Game.step_mask_step_data, Game.step_end_of_not_done h g hd,
    Game.step_account_step_data]

theorem Game.step_total_reward_of_not_done (hd : Game.step_done h g = false) :
    (Game.step h g).1.total_reward
      = g.total_reward + (Game.step_game h g).step_data.reward := by
  show (Game.step_mask (Game.step_end h (Game.step_account h g))).total_reward = _
  rw [Game.step_mask_total_reward, Game.step_end_of_not_done h g hd,
    Game.step_account_total_reward]

theorem Game.step_cur_time_of_not_done (hd : Game.step_done h g = false) :
    (Game.step h g).1.cur_time = g.cur_time + 1 := by
  show (Game.step_mask (Game.step_end h (Game.step_account h g))).cur_time = _
  rw [Game.step_mask_cur_time, Game.step_end_of_not_done h g hd,
    Game.step_account_cur_time]

theorem Game.step_timeout_of_not_done (hd : Game.step_done h g = false) :
    (Game.step h g).1.timeout = g.timeout := by
  show (Game.step_mask (Game.step_end h (Game.step_account h g))).timeout = _
  rw [Game.step_mask_timeout, Game.step_end_of_not_done h g hd,
    Game.step_account_timeout]

theorem Game.step_episodes_remaining_of_not_done (hd : Game.step_done h g = false) :
    (Game.step h g).1.episodes_remaining = g.episodes_remaining := by
  show (Game.step_mask (Game.step_end h (Game.step_account h g))).episodes_remaining = _
  rw [Game.step_mask_episodes_remaining, Game.step_end_of_not_done h g hd,
    Game.step_account_episodes_remaining]

/-- The line-151 value spelled out. -/
theorem Game.step_done_eq :
    Game.step_done h g = ((Game.step_game h g).step_data.done || decide (g.action = -1)
      || decide (g.cur_time + 1 ≥ g.timeout)) := rfl

theorem Game.run_append (xs ys : List Int) :
    Game.run h (xs ++ ys) g
      = ((Game.run h ys (Game.run h xs g).1).1,
         (Game.run h xs g).2 ++ (Game.run h ys (Game.run h xs g).1).2) := by
  induction xs generalizing g with
  | nil => rfl
  | cons a as ih =>
    show Game.run h (a :: (as ++ ys)) g = _
    simp only [Game.run, ih, List.cons_append]

/-- Reward bookkeeping over calls none of which ends the episode. -/
theorem Game.run_total_reward (acts : List Int) (hn : Game.none_ends h acts g = true) :
    (Game.run h acts g).1.total_reward
        = g.total_reward + ((Game.run h acts g).2.map StepOut.reward).sum ∧
    (Game.run h acts g).1.episodes_remaining = g.episodes_remaining := by
  induction acts generalizing g with
  | nil => simp [Game.run]
  | cons a as ih =>
    simp only [Game.none_ends, Bool.and_eq_true, Bool.not_eq_true'] at hn
    obtain ⟨hd, hrest⟩ := hn
    have h1 := ih (Game.act h a g).1 hrest
    simp only [Game.run, List.map_cons, List.sum_cons]
    refine ⟨?_, ?_⟩
    · rw [h1.1]
      show (Game.step h (Game.set_action a g)).1.total_reward + _
        = g.total_reward + ((Game.step h (Game.set_action a g)).2.reward + _)
      rw [Game.step_total_reward_of_not_done _ _ hd, Game.step_out_reward_of_not_done _ _ hd]
      show g.total_reward + _ + _ = _
      ring
    · rw [h1.2]
      exact Game.step_episodes_remaining_of_not_done _ _ hd

/-- The flags published by the calls that lead up to the timeout: the clock stands at
`cur_time`, as many calls as steps are left follow, no handler sets `done`, no action is
the sentinel, and the last call is not masked by a completed level. -/
theorem Game.run_done_flags (acts : List Int) (hne : acts ≠ [])
    (he : g.episodes_remaining = 0)
    (hlen : g.cur_time + (acts.length : Int) = g.timeout)
    (ha : ∀ a ∈ acts, a ≠ -1)
    (hq : ∀ s ∈ Game.entries h acts g, (Game.step_game h s).step_data.done = false)
    (hm : ∀ s, (Game.entries h acts g).getLast? = some s →
      ¬ (s.use_sequential_levels = true ∧ (Game.step_game h s).step_data.level_complete = true)) :
    (Game.run h acts g).2.map StepOut.done
      = List.replicate (acts.length - 1) false ++ [true] := by
  induction acts generalizing g with
  | nil => exact absurd rfl hne
  | cons a as ih =>
    have ha1 : a ≠ -1 := ha a (List.mem_cons_self a as)
    have hq1 : (Game.step_game h (Game.set_action a g)).step_data.done = false :=
      hq _ (List.mem_cons_self _ _)
    cases as with
    | nil =>
      have hd : Game.step_done h (Game.set_action a g) = true := by
        rw [Game.step_done_eq, hq1]
        have : (Game.set_action a g).cur_time + 1 ≥ (Game.set_action a g).timeout := by
          show g.cur_time + 1 ≥ g.timeout
          rw [← hlen]; simp
        simp [this]
      have hm1 := hm (Game.set_action a g) rfl
      have hout : (Game.step h (Game.set_action a g)).2.done = true := by
        rw [Game.step_out_done h (Game.set_action a g) he, hd]
        have hc : ((Game.set_action a g).use_sequential_levels
            && (Game.step_game h (Game.set_action a g)).step_data.level_complete) = false := by
          cases hs : (Game.set_action a g).use_sequential_levels
          · rfl
          · cases hl : (Game.step_game h (Game.set_action a g)).step_data.level_complete
            · rfl
            · exact absurd ⟨hs, hl⟩ hm1
        rw [hc]; rfl
      simp [Game.run, Game.act, hout]
    | cons b bs =>
      have hd : Game.step_done h (Game.set_action a g) = false := by
        rw [Game.step_done_eq, hq1]
        have h1 : ¬ ((Game.set_action a g).cur_time + 1 ≥ (Game.set_action a g).timeout) := by
          show ¬ (g.cur_time + 1 ≥ g.timeout)
          rw [← hlen]
          simp only [List.length_cons]
          push_cast
          omega
        have h2 : ¬ ((Game.set_action a g).action = -1) := ha1
        simp [h1, h2]
      have hout : (Game.step h (Game.set_action a g)).2.done = false :=
        Game.step_out_done_of_not_done h _ hd
      have ih1 := ih (Game.act h a g).1 (List.cons_ne_nil b bs)
        ((Game.step_episodes_remaining_of_not_done h _ hd).trans he)
        (by
          show (Game.step h (Game.set_action a g)).1.cur_time + _
            = (Game.step h (Game.set_action a g)).1.timeout
          rw [Game.step_cur_time_of_not_done h _ hd, Game.step_timeout_of_not_done h _ hd]
          show g.cur_time + 1 + _ = g.timeout
          rw [← hlen]
          simp only [List.length_cons]
          push_cast
          ring)
        (fun x hx => ha x (List.mem_cons_of_mem a hx))
        (fun s hs => hq s (List.mem_cons_of_mem _ hs))
        (fun s hs => hm s (by
          simp only [Game.entries] at hs ⊢
          rw [List.getLast?_cons_cons]
          exact hs))
      show ((Game.act h a g).2 :: (Game.run h (b :: bs) (Game.act h a g).1).2).map StepOut.done
        = _
      rw [List.map_cons, ih1]
      show (Game.step h (Game.set_action a g)).2.done :: _ = _
      rw [hout]
      simp [List.replicate_succ]

end lifecycle_lemmas

/-- C1. With `episodes_remaining = 0`, the `done` flag that `Game::step` publishes is the
disjunction of the handler-set flag, the sentinel test `action == -1` and the timeout test
on the incremented clock, except that it is `false` when `use_sequential_levels` is on and
the handlers set `level_complete` in that step. -/
theorem Game.step_publishes_done {R W : Type} (h : Hooks R W) (g : Game R W)
    (he : g.episodes_remaining = 0) :
    (Game.step h g).2.done =
      if g.use_sequential_levels && (Game.step_game h g).step_data.level_complete then false
      else ((Game.step_game h g).step_data.done || decide (g.action = -1)
              || decide (g.cur_time + 1 ≥ g.timeout)) := by
  have hd : Game.step_done h g = ((Game.step_game h g).step_data.done || decide (g.action = -1)
              || decide (g.cur_time + 1 ≥ g.timeout)) := by
    simp [Game.step_done, Game.will_force_reset, Game.step_game_cur_time,
      Game.step_game_timeout]
  rw [← hd]
  have hsd : (Game.step_end h (Game.step_account h g)).step_data
      = (Game.step_account h g).step_data := by
    unfold Game.step_end
    split
    · rw [Game.reset_step_data_of_zero]; rfl
      exact Game.step_account_episodes_remaining h g ▸ he
    · rfl
  have hsq : (Game.step_end h (Game.step_account h g)).use_sequential_levels
      = g.use_sequential_levels := by
    unfold Game.step_end
    split
    · rw [Game.reset_use_sequential_levels]
      exact Game.step_account_use_sequential_levels h g
    · exact Game.step_account_use_sequential_levels h g
  show (Game.step_mask (Game.step_end h (Game.step_account h g))).step_data.done = _
  unfold Game.step_mask
  simp only [hsd, hsq, Game.step_account_step_data]
  split
  · rfl
  · rw [hsd, Game.step_account_step_data]

/-- Witness of C1: a sequential-levels game whose handlers complete the level. -/
theorem Game.step_publishes_done_witness :
    (freshGame 3 0 true).episodes_remaining = 0 ∧
    (Game.step (flagHooks 1 true true) (freshGame 3 0 true)).2.done =
      (if (freshGame 3 0 true).use_sequential_levels
            && (Game.step_game (flagHooks 1 true true) (freshGame 3 0 true)).step_data.level_complete
        then false
        else ((Game.step_game (flagHooks 1 true true) (freshGame 3 0 true)).step_data.done
              || decide ((freshGame 3 0 true).action = -1)
              || decide ((freshGame 3 0 true).cur_time + 1 ≥ (freshGame 3 0 true).timeout))) :=
  ⟨rfl, Game.step_publishes_done (flagHooks 1 true true) (freshGame 3 0 true) rfl⟩

/-- C3. Sequential levels masking: with `use_sequential_levels` on and
`episodes_remaining = 0`, a step in which the handlers set `done` and `level_complete`
publishes `done = false` and `level_complete = true`, performs the internal reset
(`reset_count` grows by one, `cur_time` is 0), and leaves `current_level_seed` at the old
seed plus 997 wrapped to 32 bits, with `level_seed_rand_gen` not advanced. -/
theorem Game.step_sequential_masking {R W : Type} (h : Hooks R W) (g : Game R W)
    (hs : g.use_sequential_levels = true) (he : g.episodes_remaining = 0)
    (hd : (Game.step_game h g).step_data.done = true)
    (hl : (Game.step_game h g).step_data.level_complete = true) :
    (Game.step h g).2.done = false ∧
    (Game.step h g).2.level_complete = true ∧
    (Game.step h g).1.reset_count = g.reset_count + 1 ∧
    (Game.step h g).1.cur_time = 0 ∧
    (Game.step h g).1.current_level_seed = wrap32 (g.current_level_seed + 997) ∧
    (Game.step h g).1.level_seed_rand_gen = g.level_seed_rand_gen := by
  have hdone : (Game.step_account h g).step_data.done = true := by
    simp [Game.step_account_step_data, Game.step_done, hd]
  have hlc : (Game.step_account h g).step_data.level_complete = true := by
    simp [Game.step_account_step_data, hl]
  have hend : Game.step_end h (Game.step_account h g)
      = Game.reset h (Game.record_episode (Game.step_account h g)) := by
    simp [Game.step_end, hdone]
  have he6 : (Game.record_episode (Game.step_account h g)).episodes_remaining = 0 := by
    show (Game.step_account h g).episodes_remaining = 0
    rw [Game.step_account_episodes_remaining, he]
  have hs6 : (Game.record_episode (Game.step_account h g)).use_sequential_levels = true := by
    show (Game.step_account h g).use_sequential_levels = true
    rw [Game.step_account_use_sequential_levels, hs]
  have hseq := Game.reset_sequential h (Game.record_episode (Game.step_account h g)) he6 hs6 hlc
  have hsd : (Game.step_end h (Game.step_account h g)).step_data
      = (Game.step_account h g).step_data := by
    rw [hend, Game.reset_step_data_of_zero _ _ he6]; rfl
  have hsq : (Game.step_end h (Game.step_account h g)).use_sequential_levels = true := by
    rw [hend, Game.reset_use_sequential_levels]; exact hs6
  refine ⟨?_, ?_, ?_, ?_, ?_, ?_⟩
  · show (Game.step_mask (Game.step_end h (Game.step_account h g))).step_data.done = false
    simp [Game.step_mask_step_data, hsd, hsq, hlc]
  · show (Game.step_mask (Game.step_end h (Game.step_account h g))).step_data.level_complete
      = true
    simp [Game.step_mask_step_data, hsd, hlc]
  · show (Game.step_mask (Game.step_end h (Game.step_account h g))).reset_count = _
    rw [Game.step_mask_reset_count, hend, Game.reset_reset_count]
    exact congrArg (· + 1) (Game.step_account_reset_count h g)
  · show (Game.step_mask (Game.step_end h (Game.step_account h g))).cur_time = _
    rw [Game.step_mask_cur_time, hend, Game.reset_cur_time]
  · show (Game.step_mask (Game.step_end h (Game.step_account h g))).current_level_seed = _
    rw [Game.step_mask_current_level_seed, hend, hseq.1]
    exact congrArg (fun v => wrap32 (v + 997)) (Game.step_account_current_level_seed h g)
  · show (Game.step_mask (Game.step_end h (Game.step_account h g))).level_seed_rand_gen = _
    rw [Game.step_mask_level_seed_rand_gen, hend, hseq.2]
    exact Game.step_account_level_seed_rand_gen h g

/-- Witness of C3: a level completed in sequential-levels mode. -/
theorem Game.step_sequential_masking_witness :
    (Game.step (flagHooks 10 true true) (freshGame 1000 0 true)).2.done = false ∧
    (Game.step (flagHooks 10 true true) (freshGame 1000 0 true)).2.level_complete = true ∧
    (Game.step (flagHooks 10 true true) (freshGame 1000 0 true)).1.reset_count
      = (freshGame 1000 0 true).reset_count + 1 ∧
    (Game.step (flagHooks 10 true true) (freshGame 1000 0 true)).1.cur_time = 0 ∧
    (Game.step (flagHooks 10 true true) (freshGame 1000 0 true)).1.current_level_seed
      = wrap32 ((freshGame 1000 0 true).current_level_seed + 997) ∧
    (Game.step (flagHooks 10 true true) (freshGame 1000 0 true)).1.level_seed_rand_gen
      = (freshGame 1000 0 true).level_seed_rand_gen :=
  Game.step_sequential_masking (flagHooks 10 true true) (freshGame 1000 0 true)
    rfl rfl rfl rfl

/-- C4. Reward conservation within an episode: from a state with `total_reward = 0` (as
`Game::reset` leaves it), after any number of calls of `Game::step` none of which ends the
episode, `total_reward` is the sum of the rewards those calls published. -/
theorem Game.reward_conservation {R W : Type} (h : Hooks R W) (g : Game R W)
    (acts : List Int) (h0 : g.total_reward = 0)
    (hn : Game.none_ends h acts g = true) :
    (Game.run h acts g).1.total_reward
      = ((Game.run h acts g).2.map StepOut.reward).sum := by
  have hsum := (Game.run_total_reward h g acts hn).1
  rw [hsum, h0, zero_add]

/-- Witness of C4: three steps of reward `-1/2` each, far from the timeout. -/
theorem Game.reward_conservation_witness :
    (Game.run (flagHooks (-1/2) false false) [0, 1, 2] (freshGame 10 0 false)).1.total_reward
      = ((Game.run (flagHooks (-1/2) false false) [0, 1, 2]
          (freshGame 10 0 false)).2.map StepOut.reward).sum :=
  Game.reward_conservation (flagHooks (-1/2) false false) (freshGame 10 0 false) [0, 1, 2]
    rfl (by simp [Game.none_ends, Game.act, Game.set_action, Game.step, Game.step_mask,
      Game.step_end, Game.step_account, Game.step_game, Game.step_done,
      Game.will_force_reset, flagHooks, freshGame])

/-- C5 (as amended). Episode-end reward capture: from a state with `total_reward = 0`,
after calls none of which ends the episode and a final call that does, `total_reward` is 0
whatever `episodes_remaining` holds, and when `episodes_remaining = 0` the captured
`last_ep_reward` is the sum of the rewards published by all calls of the episode, the
final one included. -/
theorem Game.episode_reward_capture {R W : Type} (h : Hooks R W) (g : Game R W)
    (acts : List Int) (a : Int) (h0 : g.total_reward = 0)
    (hn : Game.none_ends h acts g = true)
    (hend : Game.step_done h (Game.set_action a (Game.run h acts g).1) = true) :
    (Game.run h (acts ++ [a]) g).1.total_reward = 0 ∧
    (g.episodes_remaining = 0 →
      (Game.run h (acts ++ [a]) g).1.last_ep_reward
        = ((Game.run h (acts ++ [a]) g).2.map StepOut.reward).sum) := by
  obtain ⟨hsum, hrem⟩ := Game.run_total_reward h g acts hn
  have hstep := Game.step_end_of_done h (Game.set_action a (Game.run h acts g).1) hend
  rw [Game.run_append]
  refine ⟨?_, ?_⟩
  · show (Game.step_mask (Game.step_end h (Game.step_account h
      (Game.set_action a (Game.run h acts g).1)))).total_reward = 0
    rw [Game.step_mask_total_reward, hstep, Game.reset_total_reward]
  · intro he
    have he1 : (Game.set_action a (Game.run h acts g).1).episodes_remaining = 0 :=
      hrem.trans he
    have hlast : (Game.step h (Game.set_action a (Game.run h acts g).1)).1.last_ep_reward
        = (Game.run h acts g).1.total_reward
          + (Game.step_game h (Game.set_action a (Game.run h acts g).1)).step_data.reward := by
      show (Game.step_mask (Game.step_end h (Game.step_account h
        (Game.set_action a (Game.run h acts g).1)))).last_ep_reward = _
      rw [Game.step_mask_last_ep_reward, hstep, Game.reset_last_ep_reward]
      exact Game.step_account_total_reward h _
    have hrew : (Game.step h (Game.set_action a (Game.run h acts g).1)).2.reward
        = (Game.step_game h (Game.set_action a (Game.run h acts g).1)).step_data.reward := by
      show (Game.step_mask (Game.step_end h (Game.step_account h
        (Game.set_action a (Game.run h acts g).1)))).step_data.reward = _
      rw [Game.step_mask_step_data, Game.step_end_step_data h _ he1,
        Game.step_account_step_data]
    show (Game.step h (Game.set_action a (Game.run h acts g).1)).1.last_ep_reward
      = (((Game.run h acts g).2
          ++ [(Game.step h (Game.set_action a (Game.run h acts g).1)).2]).map
            StepOut.reward).sum
    rw [hlast, List.map_append, List.sum_append, hsum, h0, zero_add]
    simp [hrew]

/-- Witness of C5 (as amended): two steps, the second reaching the timeout. -/
theorem Game.episode_reward_capture_witness :
    (Game.run (flagHooks (-1) false false) ([0] ++ [1]) (freshGame 2 0 false)).1.total_reward
      = 0 ∧
    ((freshGame 2 0 false).episodes_remaining = 0 →
      (Game.run (flagHooks (-1) false false) ([0] ++ [1])
          (freshGame 2 0 false)).1.last_ep_reward
        = ((Game.run (flagHooks (-1) false false) ([0] ++ [1])
            (freshGame 2 0 false)).2.map StepOut.reward).sum) :=
  Game.episode_reward_capture (flagHooks (-1) false false) (freshGame 2 0 false) [0] 1
    rfl (by decide) (by decide)

/-- C5 as stated fails: with `episodes_remaining = 1` the reset inside the final call
clears `step_data`, so the final call publishes reward 0 while `last_ep_reward` holds the
reward `-1` that call earned. -/
theorem Game.episode_reward_capture_counterexample :
    (freshGame 1 1 false).total_reward = 0 ∧
    Game.step_done (flagHooks (-1) false false) (Game.set_action 0 (freshGame 1 1 false))
      = true ∧
    (Game.run (flagHooks (-1) false false) [0] (freshGame 1 1 false)).1.last_ep_reward = -1 ∧
    ((Game.run (flagHooks (-1) false false) [0] (freshGame 1 1 false)).2.map
      StepOut.reward).sum = 0 ∧
    (Game.run (flagHooks (-1) false false) [0] (freshGame 1 1 false)).1.last_ep_reward
      ≠ ((Game.run (flagHooks (-1) false false) [0] (freshGame 1 1 false)).2.map
          StepOut.reward).sum := by
  have hlast : (Game.run (flagHooks (-1) false false) [0]
      (freshGame 1 1 false)).1.last_ep_reward = -1 := by
    simp [Game.run, Game.act, Game.set_action, Game.step, Game.step_mask, Game.step_end,
      Game.step_account, Game.step_game, Game.step_done, Game.will_force_reset, Game.reset,
      Game.reset_seed, Game.record_episode, flagHooks, freshGame]
  have hsum : ((Game.run (flagHooks (-1) false false) [0] (freshGame 1 1 false)).2.map
      StepOut.reward).sum = 0 := by
    simp [Game.run, Game.act, Game.set_action, Game.step, Game.step_mask, Game.step_end,
      Game.step_account, Game.step_game, Game.step_done, Game.will_force_reset, Game.reset,
      Game.reset_seed, Game.record_episode, flagHooks, freshGame]
  refine ⟨rfl, by decide, hlast, hsum, ?_⟩
  rw [hlast, hsum]
  norm_num

/-- C6. After `Game::reset`: `cur_time = 0`, `total_reward = 0`, `action` is the default
action, `reset_count` has grown by exactly one, and `episodes_remaining` is the entry value
minus one when that was non-zero and 0 when a new batch of size one was started. -/
theorem Game.reset_postconditions {R W : Type} (h : Hooks R W) (g : Game R W) :
    (Game.reset h g).cur_time = 0 ∧
    (Game.reset h g).total_reward = 0 ∧
    (Game.reset h g).action = g.default_action ∧
    (Game.reset h g).reset_count = g.reset_count + 1 ∧
    (Game.reset h g).episodes_remaining
      = (if g.episodes_remaining = 0 then 0 else g.episodes_remaining - 1) := by
  refine ⟨rfl, rfl, ?_, Game.reset_reset_count h g, Game.reset_episodes_remaining h g⟩
  simp only [Game.reset, Game.reset_seed]
  split
  · split <;> rfl
  · rfl

/-! ## Theorems: collisions and blocking in the heist game -/

/-- C7. On an entity of type `EXIT`, `HeistPPGame::handle_agent_collision` sets
`step_data.done` and `step_data.level_complete`, adds exactly `completion_bonus` to
`step_data.reward`, and changes neither `has_keys` nor any entity (so no `will_erase`
flag) nor the grid. -/
theorem HeistPPGame.exit_collision (SPACE : Int) (g : HeistPPGame) (i : Nat) (e : Entity)
    (hi : g.entities[i]? = some e) (ht : e.type = EXIT) :
    ∃ g', HeistPPGame.handle_agent_collision SPACE g i = some g' ∧
      g'.step_data.done = true ∧
      g'.step_data.level_complete = true ∧
      g'.step_data.reward = g.step_data.reward + g.completion_bonus ∧
      g'.has_keys = g.has_keys ∧
      g'.entities = g.entities ∧
      g'.entities.map Entity.will_erase = g.entities.map Entity.will_erase ∧
      g'.grid = g.grid := by
  refine ⟨{ g with step_data :=
      { reward := g.step_data.reward + g.completion_bonus,
        done := true,
        level_complete := true } }, ?_, rfl, rfl, rfl, rfl, rfl, rfl, rfl⟩
  simp only [HeistPPGame.handle_agent_collision, BasicAbstractGame.handle_agent_collision, hi]
  rw [if_pos ht]

/-- Witness of C7: the agent touches the exit of the example world. -/
theorem HeistPPGame.exit_collision_witness :
    ∃ g', HeistPPGame.handle_agent_collision 100 (heistExample [false, true, false]) 2
        = some g' ∧
      g'.step_data.done = true ∧
      g'.step_data.level_complete = true ∧
      g'.step_data.reward = (heistExample [false, true, false]).step_data.reward
        + (heistExample [false, true, false]).completion_bonus ∧
      g'.has_keys = (heistExample [false, true, false]).has_keys ∧
      g'.entities = (heistExample [false, true, false]).entities ∧
      g'.entities.map Entity.will_erase
        = (heistExample [false, true, false]).entities.map Entity.will_erase ∧
      g'.grid = (heistExample [false, true, false]).grid :=
  HeistPPGame.exit_collision 100 (heistExample [false, true, false]) 2
    (mkEntity EXIT 0 (5/2) (5/2)) rfl rfl

/-- C8. On a `KEY` entity of theme `t` in `0..2` (with the three-entry `has_keys` that
`game_reset` builds), `HeistPPGame::handle_agent_collision` marks that key erased, sets
`has_keys[t]`, leaves `has_keys[u]` as it was for every `u ≠ t`, leaves every other
entity as it was, and leaves `step_data` (reward, done, level_complete) unchanged. -/
theorem HeistPPGame.key_collision (SPACE : Int) (g : HeistPPGame) (i : Nat) (e : Entity)
    (hi : g.entities[i]? = some e) (ht : e.type = KEY)
    (hk : g.has_keys.length = 3) (h0 : 0 ≤ e.image_theme) (h2 : e.image_theme ≤ 2) :
    ∃ g', HeistPPGame.handle_agent_collision SPACE g i = some g' ∧
      g'.entities = g.entities.set i { e with will_erase := true } ∧
      g'.entities[i]? = some { e with will_erase := true } ∧
      vec_get g'.has_keys e.image_theme = some true ∧
      (∀ u : Int, u ≠ e.image_theme → vec_get g'.has_keys u = vec_get g.has_keys u) ∧
      g'.has_keys.length = 3 ∧
      g'.step_data = g.step_data := by
  have hlt : e.image_theme.toNat < g.has_keys.length := by omega
  have hset : vec_set g.has_keys e.image_theme true
      = some (g.has_keys.set e.image_theme.toNat true) := by
    simp [vec_set, h0, hlt]
  have hil : i < g.entities.length := by
    rcases Nat.lt_or_ge i g.entities.length with h | h
    · exact h
    · rw [List.getElem?_eq_none h] at hi
      exact absurd hi (by simp)
  have hkey : KEY ≠ EXIT := by decide
  have hfacts : (g.entities.set i { e with will_erase := true })[i]?
        = some { e with will_erase := true } ∧
      vec_get (g.has_keys.set e.image_theme.toNat true) e.image_theme = some true ∧
      (∀ u : Int, u ≠ e.image_theme →
        vec_get (g.has_keys.set e.image_theme.toNat true) u = vec_get g.has_keys u) ∧
      (g.has_keys.set e.image_theme.toNat true).length = 3 := by
    refine ⟨?_, ?_, ?_, ?_⟩
    · simp [hil]
    · simp [vec_get, h0, hlt]
    · intro u hu
      unfold vec_get
      split
      · rename_i hu0
        have hne : e.image_theme.toNat ≠ u.toNat := by omega
        rw [List.getElem?_set_ne hne]
      · rfl
    · simp [hk]
  have hcall : HeistPPGame.handle_agent_collision SPACE g i
      = (if g.grid_step then
          some { { HeistPPGame.mark_erased g i e with
                    has_keys := g.has_keys.set e.image_theme.toNat true } with
            grid := HeistPPGame.clear_door_cells SPACE e.image_theme
              (g.entities.set i { e with will_erase := true }) g.grid }
        else some { HeistPPGame.mark_erased g i e with
                    has_keys := g.has_keys.set e.image_theme.toNat true }) := by
    simp only [HeistPPGame.handle_agent_collision, BasicAbstractGame.handle_agent_collision,
      hi]
    rw [if_neg (by rw [ht]; exact hkey), if_pos ht, hset]
    rfl
  rw [hcall]
  cases g.grid_step
  · exact ⟨_, rfl, rfl, hfacts.1, hfacts.2.1, hfacts.2.2.1, hfacts.2.2.2, rfl⟩
  · exact ⟨_, rfl, rfl, hfacts.1, hfacts.2.1, hfacts.2.2.1, hfacts.2.2.2, rfl⟩

/-- Witness of C8: the agent picks up the key of theme 1 in the example world. -/
theorem HeistPPGame.key_collision_witness :
    ∃ g', HeistPPGame.handle_agent_collision 100 (heistExample [false, false, false]) 0
        = some g' ∧
      g'.entities = (heistExample [false, false, false]).entities.set 0
        { mkEntity KEY 1 (1/2) (1/2) with will_erase := true } ∧
      g'.entities[0]? = some { mkEntity KEY 1 (1/2) (1/2) with will_erase := true } ∧
      vec_get g'.has_keys (mkEntity KEY 1 (1/2) (1/2)).image_theme = some true ∧
      (∀ u : Int, u ≠ (mkEntity KEY 1 (1/2) (1/2)).image_theme →
        vec_get g'.has_keys u = vec_get (heistExample [false, false, false]).has_keys u) ∧
      g'.has_keys.length = 3 ∧
      g'.step_data = (heistExample [false, false, false]).step_data :=
  HeistPPGame.key_collision 100 (heistExample [false, false, false]) 0
    (mkEntity KEY 1 (1/2) (1/2)) rfl rfl rfl (by decide) (by decide)

/-- C9. Door gate: `is_blocked` is `true` for the target `LOCKED_DOOR` for every mover and
axis; for a `LOCKED_DOOR` entity of theme `t` whose `has_keys[t]` is `k`,
`is_blocked_ents` returns `true` iff `k` is false, and `handle_agent_collision` marks the
door erased iff `k` is true (so a door not yet marked is erased on touch exactly when it
does not block at entity level), changing no reward, done flag or key. -/
theorem HeistPPGame.door_gate (SPACE : Int) (g : HeistPPGame) (i : Nat) (e : Entity)
    (k : Bool) (hi : g.entities[i]? = some e) (ht : e.type = LOCKED_DOOR)
    (hk : vec_get g.has_keys e.image_theme = some k) :
    (∀ (base : Entity → Int → Bool → Bool) (src : Entity) (is_horizontal : Bool),
      HeistPPGame.is_blocked base src LOCKED_DOOR is_horizontal = true) ∧
    (∀ (base : Entity → Entity → Bool → Bool) (src : Entity) (is_horizontal : Bool),
      HeistPPGame.is_blocked_ents g base src e is_horizontal = some (!k)) ∧
    ∃ g', HeistPPGame.handle_agent_collision SPACE g i = some g' ∧
      g' = (if k then HeistPPGame.mark_erased g i e else g) ∧
      g'.entities[i]? = some { e with will_erase := e.will_erase || k } ∧
      (e.will_erase = false →
        ∀ (base : Entity → Entity → Bool → Bool) (src : Entity) (is_horizontal : Bool),
          ((g'.entities[i]?.map Entity.will_erase = some true) ↔
            HeistPPGame.is_blocked_ents g base src e is_horizontal = some false)) ∧
      g'.step_data = g.step_data ∧
      g'.has_keys = g.has_keys ∧
      g'.grid = g.grid := by
  have hil : i < g.entities.length := by
    rcases Nat.lt_or_ge i g.entities.length with h | h
    · exact h
    · rw [List.getElem?_eq_none h] at hi
      exact absurd hi (by simp)
  have hblk : ∀ (base : Entity → Entity → Bool → Bool) (src : Entity) (is_horizontal : Bool),
      HeistPPGame.is_blocked_ents g base src e is_horizontal = some (!k) := by
    intro base src is_horizontal
    simp [HeistPPGame.is_blocked_ents, ht, hk]
  have hcall : HeistPPGame.handle_agent_collision SPACE g i
      = some (if k then HeistPPGame.mark_erased g i e else g) := by
    simp only [HeistPPGame.handle_agent_collision, BasicAbstractGame.handle_agent_collision,
      hi]
    rw [if_neg (by rw [ht]; decide), if_neg (by rw [ht]; decide), if_pos ht, hk]
    cases k <;> rfl
  refine ⟨?_, hblk, _, hcall, rfl, ?_, ?_, ?_, ?_, ?_⟩
  · intro base src is_horizontal
    simp [HeistPPGame.is_blocked]
  · cases k
    · simp [hi]
    · simp [HeistPPGame.mark_erased, hil]
  · intro hw base src is_horizontal
    rw [hblk]
    cases k
    · simp [hi, hw]
    · simp [HeistPPGame.mark_erased, hil]
  · cases k <;> rfl
  · cases k <;> rfl
  · cases k <;> rfl

/-- Witness of C9: the door of theme 1 of the example world, its key collected. -/
theorem HeistPPGame.door_gate_witness :
    (∀ (base : Entity → Int → Bool → Bool) (src : Entity) (is_horizontal : Bool),
      HeistPPGame.is_blocked base src LOCKED_DOOR is_horizontal = true) ∧
    (∀ (base : Entity → Entity → Bool → Bool) (src : Entity) (is_horizontal : Bool),
      HeistPPGame.is_blocked_ents (heistExample [false, true, false]) base src
        (mkEntity LOCKED_DOOR 1 (3/2) (3/2)) is_horizontal = some (!true)) ∧
    ∃ g', HeistPPGame.handle_agent_collision 100 (heistExample [false, true, false]) 1
        = some g' ∧
      g' = (if true then HeistPPGame.mark_erased (heistExample [false, true, false]) 1
              (mkEntity LOCKED_DOOR 1 (3/2) (3/2))
            else heistExample [false, true, false]) ∧
      g'.entities[1]? = some { mkEntity LOCKED_DOOR 1 (3/2) (3/2) with
        will_erase := (mkEntity LOCKED_DOOR 1 (3/2) (3/2)).will_erase || true } ∧
      ((mkEntity LOCKED_DOOR 1 (3/2) (3/2)).will_erase = false →
        ∀ (base : Entity → Entity → Bool → Bool) (src : Entity) (is_horizontal : Bool),
          ((g'.entities[1]?.map Entity.will_erase = some true) ↔
            HeistPPGame.is_blocked_ents (heistExample [false, true, false]) base src
              (mkEntity LOCKED_DOOR 1 (3/2) (3/2)) is_horizontal = some false)) ∧
      g'.step_data = (heistExample [false, true, false]).step_data ∧
      g'.has_keys = (heistExample [false, true, false]).has_keys ∧
      g'.grid = (heistExample [false, true, false]).grid :=
  HeistPPGame.door_gate 100 (heistExample [false, true, false]) 1
    (mkEntity LOCKED_DOOR 1 (3/2) (3/2)) true rfl rfl rfl

/-- C10. On a `WATER` entity `HeistPPGame::handle_agent_collision` adds exactly
`water_bonus` to `step_data.reward`, on a `FIRE` entity exactly `fire_bonus`; in both
cases `step_data.done`, `step_data.level_complete`, `has_keys`, the grid and every entity
(so every `will_erase` flag) stay as they were. -/
theorem HeistPPGame.hazard_collision (SPACE : Int) (g : HeistPPGame) (i : Nat) (e : Entity)
    (hi : g.entities[i]? = some e) (ht : e.type = WATER ∨ e.type = FIRE) :
    ∃ g', HeistPPGame.handle_agent_collision SPACE g i = some g' ∧
      g'.step_data.reward = g.step_data.reward
        + (if e.type = WATER then g.water_bonus else g.fire_bonus) ∧
      g'.step_data.done = g.step_data.done ∧
      g'.step_data.level_complete = g.step_data.level_complete ∧
      g'.has_keys = g.has_keys ∧
      g'.grid = g.grid ∧
      g'.entities = g.entities ∧
      g'.entities.map Entity.will_erase = g.entities.map Entity.will_erase := by
  rcases ht with ht | ht
  · refine ⟨{ g with step_data :=
        { g.step_data with reward := g.step_data.reward + g.water_bonus } },
      ?_, ?_, rfl, rfl, rfl, rfl, rfl, rfl⟩
    · simp only [HeistPPGame.handle_agent_collision,
        BasicAbstractGame.handle_agent_collision, hi]
      rw [if_neg (by rw [ht]; decide), if_neg (by rw [ht]; decide),
        if_neg (by rw [ht]; decide), if_pos ht]
    · rw [if_pos ht]
  · refine ⟨{ g with step_data :=
        { g.step_data with reward := g.step_data.reward + g.fire_bonus } },
      ?_, ?_, rfl, rfl, rfl, rfl, rfl, rfl⟩
    · simp only [HeistPPGame.handle_agent_collision,
        BasicAbstractGame.handle_agent_collision, hi]
      rw [if_neg (by rw [ht]; decide), if_neg (by rw [ht]; decide),
        if_neg (by rw [ht]; decide), if_neg (by rw [ht]; decide), if_pos ht]
    · rw [if_neg (by rw [ht]; decide)]

/-- Witness of C10: the agent touches the fire hazard of the example world. -/
theorem HeistPPGame.hazard_collision_witness :
    ∃ g', HeistPPGame.handle_agent_collision 100 (heistExample [false, false, false]) 4
        = some g' ∧
      g'.step_data.reward = (heistExample [false, false, false]).step_data.reward
        + (if (mkEntity FIRE 0 (5/2) (1/2)).type = WATER
            then (heistExample [false, false, false]).water_bonus
            else (heistExample [false, false, false]).fire_bonus) ∧
      g'.step_data.done = (heistExample [false, false, false]).step_data.done ∧
      g'.step_data.level_complete
        = (heistExample [false, false, false]).step_data.level_complete ∧
      g'.has_keys = (heistExample [false, false, false]).has_keys ∧
      g'.grid = (heistExample [false, false, false]).grid ∧
      g'.entities = (heistExample [false, false, false]).entities ∧
      g'.entities.map Entity.will_erase
        = (heistExample [false, false, false]).entities.map Entity.will_erase :=
  HeistPPGame.hazard_collision 100 (heistExample [false, false, false]) 4
    (mkEntity FIRE 0 (5/2) (1/2)) rfl (Or.inr rfl)

/-! ## Theorems: published seed and the batch counter -/

/-- C17. The `level_seed` that `Game::step` publishes is `current_level_seed` as it stood
when the call began, the seed of the episode in which the action was applied, on every
call: also on a call that ends the episode and returns holding the state of the next. -/
theorem Game.step_publishes_active_seed {R W : Type} (h : Hooks R W) (g : Game R W)
    (a : Int) :
    (Game.step h g).2.level_seed = g.current_level_seed ∧
    (Game.act h a g).2.level_seed = g.current_level_seed := by
  constructor
  · show (Game.step_account h g).current_level_seed = g.current_level_seed
    exact Game.step_account_current_level_seed h g
  · show (Game.step_account h (Game.set_action a g)).current_level_seed
      = g.current_level_seed
    exact Game.step_account_current_level_seed h (Game.set_action a g)

/-- A call of `step` keeps `episodes_remaining = 0`. -/
theorem Game.step_episodes_remaining_zero {R W : Type} (h : Hooks R W) (g : Game R W)
    (he : g.episodes_remaining = 0) : (Game.step h g).1.episodes_remaining = 0 := by
  show (Game.step_mask (Game.step_end h (Game.step_account h g))).episodes_remaining = 0
  rw [Game.step_mask_episodes_remaining]
  unfold Game.step_end
  split
  · have h6 : (Game.record_episode (Game.step_account h g)).episodes_remaining = 0 :=
      (Game.step_account_episodes_remaining h g).trans he
    rw [Game.reset_episodes_remaining, if_pos h6]
  · rw [Game.step_account_episodes_remaining, he]

/-- Every call keeps `episodes_remaining = 0`. -/
theorem Game.exec_episodes_remaining_zero {R W : Type} (h : Hooks R W) (calls : List Call)
    (g : Game R W) (he : g.episodes_remaining = 0) :
    (Game.exec h calls g).episodes_remaining = 0 := by
  induction calls generalizing g with
  | nil => exact he
  | cons c cs ih =>
    show (Game.exec h cs (Game.call h g c)).episodes_remaining = 0
    apply ih
    cases c with
    | reset =>
      show (Game.reset h g).episodes_remaining = 0
      rw [Game.reset_episodes_remaining, if_pos he]
    | step a => exact Game.step_episodes_remaining_zero h (Game.set_action a g) he

/-- C18. Batch counter invariant: after any sequence of `reset()` and `step()` calls on a
constructed `Game`, `episodes_remaining = 0`, before and after a further `reset()`; so
that `reset()` does not take the mid-batch branch (`step_data` is kept, not cleared) and
assigns `current_level_seed` anew, by the increment of 997 or by a draw. -/
theorem Game.batch_counter_invariant {R W : Type} (h : Hooks R W) (g0 : Game R W)
    (calls : List Call) :
    (Game.exec h calls (Game.ctor g0)).episodes_remaining = 0 ∧
    (Game.reset h (Game.exec h calls (Game.ctor g0))).episodes_remaining = 0 ∧
    (Game.reset h (Game.exec h calls (Game.ctor g0))).step_data
      = (Game.exec h calls (Game.ctor g0)).step_data ∧
    (Game.reset h (Game.exec h calls (Game.ctor g0))).current_level_seed
      = (if (Game.exec h calls (Game.ctor g0)).use_sequential_levels
            && (Game.exec h calls (Game.ctor g0)).step_data.level_complete
          then wrap32 ((Game.exec h calls (Game.ctor g0)).current_level_seed + 997)
          else (h.randint (Game.exec h calls (Game.ctor g0)).level_seed_rand_gen
                  (Game.exec h calls (Game.ctor g0)).level_seed_low
                  (Game.exec h calls (Game.ctor g0)).level_seed_high).1) := by
  have he : (Game.exec h calls (Game.ctor g0)).episodes_remaining = 0 :=
    Game.exec_episodes_remaining_zero h calls (Game.ctor g0) rfl
  refine ⟨he, ?_, Game.reset_step_data_of_zero h _ he, ?_⟩
  · rw [Game.reset_episodes_remaining, if_pos he]
  · generalize Game.exec h calls (Game.ctor g0) = g at he
    simp only [Game.reset, Game.reset_seed, he]
    by_cases hc : (g.use_sequential_levels && g.step_data.level_complete) = true
    · simp [hc]
    · simp [hc]

/-! ## Theorems: configuration of the heist game -/

/-- C11 (as amended). `HeistPPGame::game_init` is fatal exactly when the pair violates
`num_doors <= num_keys <= 3`: whenever `num_doors > num_keys` or either count exceeds 3,
and in no other case; negative counts are not rejected. -/
theorem HeistPPGame.game_init_fatal_iff (o : HeistOptions) (g : HeistPPGame) :
    (HeistPPGame.game_init o g = none ↔ ¬ (o.num_doors ≤ o.num_keys ∧ o.num_keys ≤ 3)) ∧
    (o.num_doors > o.num_keys ∨ o.num_keys > 3 ∨ o.num_doors > 3 →
      HeistPPGame.game_init o g = none) := by
  have key : HeistPPGame.game_init o g = none
      ↔ ¬ (o.num_doors ≤ o.num_keys ∧ o.num_keys ≤ 3) := by
    unfold HeistPPGame.game_init
    simp only []
    split
    · rename_i h1
      constructor
      · intro _ hc
        exact h1 hc.1
      · intro _
        rfl
    · rename_i h1
      split
      · rename_i h2
        constructor
        · intro _ hc
          exact h2 hc.2
        · intro _
          rfl
      · rename_i h2
        split
        · rename_i h3
          exfalso
          apply h3
          have h1' : o.num_doors ≤ o.num_keys := not_not.mp h1
          have h2' : o.num_keys ≤ 3 := not_not.mp h2
          exact le_trans h1' h2'
        · constructor
          · intro hn
            exact absurd hn (by simp)
          · intro hc
            exact absurd ⟨not_not.mp h1, not_not.mp h2⟩ hc
  refine ⟨key, ?_⟩
  intro hv
  rw [key]
  intro hc
  omega

/-- C11 as stated fails: `num_keys = 0` with `num_doors = -1` violates
`0 <= num_doors <= num_keys <= 3`, and `game_init` accepts it. -/
theorem HeistPPGame.game_init_fatal_iff_counterexample :
    ¬ ((0 : Int) ≤ -1 ∧ (-1 : Int) ≤ 0 ∧ (0 : Int) ≤ 3) ∧
    ({ HeistOptions.defaults with num_keys := 0, num_doors := -1 } : HeistOptions).num_keys
      = 0 ∧
    ({ HeistOptions.defaults with num_keys := 0, num_doors := -1 } : HeistOptions).num_doors
      = -1 ∧
    (HeistPPGame.game_init { HeistOptions.defaults with num_keys := 0, num_doors := -1 }
      (heistExample [])).isSome = true := by
  refine ⟨by decide, rfl, rfl, ?_⟩
  simp [HeistPPGame.game_init, HeistOptions.defaults]

/-- Witness of C11 (as amended): two doors for one key are rejected. -/
theorem HeistPPGame.game_init_fatal_iff_witness :
    (HeistPPGame.game_init { HeistOptions.defaults with num_keys := 1, num_doors := 2 }
        (heistExample []) = none
      ↔ ¬ (({ HeistOptions.defaults with num_keys := 1, num_doors := 2 } :
              HeistOptions).num_doors
            ≤ ({ HeistOptions.defaults with num_keys := 1, num_doors := 2 } :
              HeistOptions).num_keys
          ∧ ({ HeistOptions.defaults with num_keys := 1, num_doors := 2 } :
              HeistOptions).num_keys ≤ 3)) ∧
    (({ HeistOptions.defaults with num_keys := 1, num_doors := 2 } : HeistOptions).num_doors
        > ({ HeistOptions.defaults with num_keys := 1, num_doors := 2 } :
            HeistOptions).num_keys
      ∨ ({ HeistOptions.defaults with num_keys := 1, num_doors := 2 } :
            HeistOptions).num_keys > 3
      ∨ ({ HeistOptions.defaults with num_keys := 1, num_doors := 2 } :
            HeistOptions).num_doors > 3 →
      HeistPPGame.game_init { HeistOptions.defaults with num_keys := 1, num_doors := 2 }
        (heistExample []) = none) :=
  HeistPPGame.game_init_fatal_iff
    { HeistOptions.defaults with num_keys := 1, num_doors := 2 } (heistExample [])

/-! ## Theorems: named buffers -/

/-- A binding leaves the set of registered names as it was. -/
theorem BufferMap.assign_eq_none (m : BufferMap) (name : String) (b : GameSpaceBuffer)
    (hreg : m name ≠ none) (n : String) : m.assign name b n = none ↔ m n = none := by
  unfold BufferMap.assign
  by_cases hn : n = name
  · rw [if_pos hn, hn]
    simp [hreg]
  · rw [if_neg hn]

/-- The loop of `connect_buffer` is fatal exactly when a name still to visit is not
registered. -/
theorem Game.connect_buffer_from_fatal (buffer : List Nat) (i : Nat)
    (spaces : List LibenvSpace) (m : BufferMap)
    (hlen : i + spaces.length ≤ buffer.length) :
    Game.connect_buffer_from buffer i spaces m = Outcome.fatal
      ↔ ∃ s ∈ spaces, m s.name = none := by
  induction spaces generalizing i m with
  | nil => simp [Game.connect_buffer_from]
  | cons s rest ih =>
    unfold Game.connect_buffer_from
    cases hm : m s.name with
    | none =>
      simp only []
      exact ⟨fun _ => ⟨s, List.mem_cons_self _ _, hm⟩, fun _ => trivial⟩
    | some b0 =>
      have hi : i < buffer.length := by
        simp only [List.length_cons] at hlen
        omega
      obtain ⟨p, hp⟩ : ∃ p, buffer[i]? = some p := ⟨buffer[i], List.getElem?_eq_getElem hi⟩
      simp only [hp]
      have hreg : m s.name ≠ none := by rw [hm]; simp
      rw [ih (i + 1) _ (by simp only [List.length_cons] at hlen; omega)]
      constructor
      · rintro ⟨t, ht, hnone⟩
        exact ⟨t, List.mem_cons_of_mem _ ht,
          (BufferMap.assign_eq_none m s.name _ hreg t.name).mp hnone⟩
      · rintro ⟨t, ht, hnone⟩
        rcases List.mem_cons.mp ht with rfl | ht'
        · exact absurd hnone hreg
        · exact ⟨t, ht', (BufferMap.assign_eq_none m s.name _ hreg t.name).mpr hnone⟩

/-- The loop of `connect_buffer` succeeds when every name still to visit is registered. -/
theorem Game.connect_buffer_from_ok (buffer : List Nat) (i : Nat)
    (spaces : List LibenvSpace) (m : BufferMap)
    (hlen : i + spaces.length ≤ buffer.length)
    (hreg : ∀ s ∈ spaces, m s.name ≠ none) :
    ∃ m', Game.connect_buffer_from buffer i spaces m = Outcome.ok m' := by
  induction spaces generalizing i m with
  | nil => exact ⟨m, rfl⟩
  | cons s rest ih =>
    unfold Game.connect_buffer_from
    have hs := hreg s (List.mem_cons_self _ _)
    cases hm : m s.name with
    | none => exact absurd hm hs
    | some b0 =>
      have hi : i < buffer.length := by
        simp only [List.length_cons] at hlen
        omega
      obtain ⟨p, hp⟩ : ∃ p, buffer[i]? = some p := ⟨buffer[i], List.getElem?_eq_getElem hi⟩
      simp only [hp]
      apply ih (i + 1) _ (by simp only [List.length_cons] at hlen; omega)
      intro t ht hnone
      exact hreg t (List.mem_cons_of_mem _ ht)
        ((BufferMap.assign_eq_none m s.name _ hs t.name).mp hnone)

/-- What a successful loop of `connect_buffer` leaves: the same registered names, the
channels not named untouched, and each named channel bound to the descriptor and the
pointer of its last occurrence. -/
theorem Game.connect_buffer_from_bindings (buffer : List Nat) (i : Nat)
    (spaces : List LibenvSpace) (m m' : BufferMap)
    (hok : Game.connect_buffer_from buffer i spaces m = Outcome.ok m') :
    (∀ n, m' n = none ↔ m n = none) ∧
    (∀ n, (∀ s ∈ spaces, s.name ≠ n) → m' n = m n) ∧
    (∀ (k : Nat) (s : LibenvSpace) (p : Nat), spaces[k]? = some s → buffer[i + k]? = some p →
      (∀ (j : Nat) (t : LibenvSpace), k < j → spaces[j]? = some t → t.name ≠ s.name) →
      m' s.name = some { space := some s, buffer := p }) := by
  induction spaces generalizing i m with
  | nil =>
    simp only [Game.connect_buffer_from, Outcome.ok.injEq] at hok
    subst hok
    refine ⟨fun _ => Iff.rfl, fun _ _ => rfl, ?_⟩
    intro k s p hk
    simp at hk
  | cons s0 rest ih =>
    unfold Game.connect_buffer_from at hok
    cases hm : m s0.name with
    | none => simp [hm] at hok
    | some b0 =>
      simp only [hm] at hok
      cases hp : buffer[i]? with
      | none => simp [hp] at hok
      | some p0 =>
        simp only [hp] at hok
        have hreg : m s0.name ≠ none := by rw [hm]; simp
        obtain ⟨h1, h2, h3⟩ := ih (i + 1) _ hok
        refine ⟨?_, ?_, ?_⟩
        · intro n
          rw [h1 n]
          exact BufferMap.assign_eq_none m s0.name _ hreg n
        · intro n hn
          rw [h2 n (fun t ht => hn t (List.mem_cons_of_mem _ ht))]
          unfold BufferMap.assign
          rw [if_neg (fun hc => hn s0 (List.mem_cons_self _ _) hc.symm)]
        · intro k s p hk hpk hlast
          cases k with
          | zero =>
            simp only [List.getElem?_cons_zero, Option.some.injEq] at hk
            subst hk
            rw [Nat.add_zero, hp] at hpk
            simp only [Option.some.injEq] at hpk
            subst hpk
            rw [h2 s0.name]
            · simp [BufferMap.assign]
            · intro t ht hname
              obtain ⟨j, hj⟩ := List.getElem?_of_mem ht
              exact hlast (j + 1) t (Nat.succ_pos j) (by simpa using hj) hname
          | succ k' =>
            simp only [List.getElem?_cons_succ] at hk
            apply h3 k' s p hk
            · rw [← hpk]
              congr 1
              omega
            · intro j t hj htj
              exact hlast (j + 1) t (by omega) (by simpa using htj)

/-- C12. `Game::connect_buffer`, for a pointer vector at least as long as the list of
spaces, is fatal iff some space of the list has a name that is not registered in the
map; when every name is registered it succeeds, and then each named channel is bound to
the descriptor and pointer of its last occurrence in the list, each channel not named is
unchanged, and the registered names are the same. The constructor registers exactly
`level_seed` and `level_complete` as info channels and `rgb` as observation channel. -/
theorem Game.connect_buffer_contract (m : BufferMap) (spaces : List LibenvSpace)
    (buffer : List Nat) (hlen : spaces.length ≤ buffer.length) :
    (Game.connect_buffer m spaces buffer = Outcome.fatal
      ↔ ∃ s ∈ spaces, m s.name = none) ∧
    ((∀ s ∈ spaces, m s.name ≠ none) →
      ∃ m', Game.connect_buffer m spaces buffer = Outcome.ok m') ∧
    (∀ m', Game.connect_buffer m spaces buffer = Outcome.ok m' →
      (∀ (k : Nat) (s : LibenvSpace) (p : Nat), spaces[k]? = some s → buffer[k]? = some p →
        (∀ (j : Nat) (t : LibenvSpace), k < j → spaces[j]? = some t → t.name ≠ s.name) →
        m' s.name = some { space := some s, buffer := p }) ∧
      (∀ n, (∀ s ∈ spaces, s.name ≠ n) → m' n = m n) ∧
      (∀ n, m' n = none ↔ m n = none)) ∧
    (∀ n, Game.ctor_buffers.info_buffers n ≠ none
      ↔ (n = "level_seed" ∨ n = "level_complete")) ∧
    (∀ n, Game.ctor_buffers.obs_buffers n ≠ none ↔ n = "rgb") := by
  have hlen0 : 0 + spaces.length ≤ buffer.length := by omega
  refine ⟨Game.connect_buffer_from_fatal buffer 0 spaces m hlen0,
    Game.connect_buffer_from_ok buffer 0 spaces m hlen0, ?_, ?_, ?_⟩
  · intro m' hok
    obtain ⟨h1, h2, h3⟩ := Game.connect_buffer_from_bindings buffer 0 spaces m m' hok
    refine ⟨?_, h2, h1⟩
    intro k s p hk hp hlast
    exact h3 k s p hk (by rw [Nat.zero_add]; exact hp) hlast
  · intro n
    simp only [Game.ctor_buffers, Buffers.register_info_buffer, Buffers.register_obs_buffer,
      BufferMap.assign]
    by_cases h1 : n = "level_complete"
    · simp [h1]
    · by_cases h2 : n = "level_seed"
      · simp [h2]
      · simp [h1, h2]
  · intro n
    simp only [Game.ctor_buffers, Buffers.register_info_buffer, Buffers.register_obs_buffer,
      BufferMap.assign]
    by_cases h1 : n = "rgb"
    · simp [h1]
    · simp [h1]

/-- Witness of C12: the two info channels of the constructor are connected. -/
theorem Game.connect_buffer_contract_witness :
    (Game.connect_buffer Game.ctor_buffers.info_buffers
        [{ name := "level_seed", dtype := 1, shape := [1] },
         { name := "level_complete", dtype := 0, shape := [1] }] [4096, 8192] = Outcome.fatal
      ↔ ∃ s ∈ ([{ name := "level_seed", dtype := 1, shape := [1] },
                { name := "level_complete", dtype := 0, shape := [1] }] : List LibenvSpace),
          Game.ctor_buffers.info_buffers s.name = none) ∧
    ((∀ s ∈ ([{ name := "level_seed", dtype := 1, shape := [1] },
              { name := "level_complete", dtype := 0, shape := [1] }] : List LibenvSpace),
        Game.ctor_buffers.info_buffers s.name ≠ none) →
      ∃ m', Game.connect_buffer Game.ctor_buffers.info_buffers
        [{ name := "level_seed", dtype := 1, shape := [1] },
         { name := "level_complete", dtype := 0, shape := [1] }] [4096, 8192]
          = Outcome.ok m') ∧
    (∀ m', Game.connect_buffer Game.ctor_buffers.info_buffers
        [{ name := "level_seed", dtype := 1, shape := [1] },
         { name := "level_complete", dtype := 0, shape := [1] }] [4096, 8192]
          = Outcome.ok m' →
      (∀ (k : Nat) (s : LibenvSpace) (p : Nat),
        ([{ name := "level_seed", dtype := 1, shape := [1] },
          { name := "level_complete", dtype := 0, shape := [1] }] : List LibenvSpace)[k]?
            = some s →
        ([4096, 8192] : List Nat)[k]? = some p →
        (∀ (j : Nat) (t : LibenvSpace), k < j →
          ([{ name := "level_seed", dtype := 1, shape := [1] },
            { name := "level_complete", dtype := 0, shape := [1] }] : List LibenvSpace)[j]?
              = some t → t.name ≠ s.name) →
        m' s.name = some { space := some s, buffer := p }) ∧
      (∀ n, (∀ s ∈ ([{ name := "level_seed", dtype := 1, shape := [1] },
                     { name := "level_complete", dtype := 0, shape := [1] }] :
                      List LibenvSpace), s.name ≠ n) →
        m' n = Game.ctor_buffers.info_buffers n) ∧
      (∀ n, m' n = none ↔ Game.ctor_buffers.info_buffers n = none)) ∧
    (∀ n, Game.ctor_buffers.info_buffers n ≠ none
      ↔ (n = "level_seed" ∨ n = "level_complete")) ∧
    (∀ n, Game.ctor_buffers.obs_buffers n ≠ none ↔ n = "rgb") :=
  Game.connect_buffer_contract Game.ctor_buffers.info_buffers
    [{ name := "level_seed", dtype := 1, shape := [1] },
     { name := "level_complete", dtype := 0, shape := [1] }] [4096, 8192] (by decide)

/-! ## Lemmas: the grid -/

section grid_lemmas

/-- The index of a cell of the grid lies inside the array. -/
theorem Grid.index_lt (w h x y : Int) (hx0 : 0 ≤ x) (hxw : x < w) (hy0 : 0 ≤ y)
    (hyh : y < h) : 0 ≤ y * w + x ∧ y * w + x < w * h := by
  have hw : 0 < w := lt_of_le_of_lt hx0 hxw
  constructor
  · have := mul_nonneg hy0 (le_of_lt hw)
    omega
  · have h1 : y + 1 ≤ h := hyh
    have h2 : (y + 1) * w ≤ h * w := mul_le_mul_of_nonneg_right h1 (le_of_lt hw)
    have h3 : (y + 1) * w = y * w + w := by ring
    have h4 : h * w = w * h := mul_comm h w
    omega

/-- Two cells of the grid with the same index are the same cell. -/
theorem Grid.index_inj (w x y x' y' : Int) (hx0 : 0 ≤ x) (hxw : x < w) (hx0' : 0 ≤ x')
    (hxw' : x' < w) (hidx : y * w + x = y' * w + x') : x = x' ∧ y = y' := by
  have hw : 0 < w := lt_of_le_of_lt hx0 hxw
  have hx : (y * w + x) % w = x := by
    rw [add_comm, Int.add_mul_emod_self, Int.emod_eq_of_lt hx0 hxw]
  have hx' : (y' * w + x') % w = x' := by
    rw [add_comm, Int.add_mul_emod_self, Int.emod_eq_of_lt hx0' hxw']
  have hxx : x = x' := by rw [← hx, ← hx', hidx]
  refine ⟨hxx, ?_⟩
  subst hxx
  have : y * w = y' * w := by omega
  exact Int.eq_of_mul_eq_mul_right (ne_of_gt hw) this

theorem Grid.contains_iff (gr : Grid) (x y : Int) :
    gr.contains x y = true ↔ (0 ≤ x ∧ x < gr.w) ∧ (0 ≤ y ∧ y < gr.h) := by
  simp [Grid.contains, and_assoc]

theorem Grid.set_obj_w (gr : Grid) (x y v : Int) : (gr.set_obj x y v).w = gr.w := by
  unfold Grid.set_obj
  split <;> rfl

theorem Grid.set_obj_h (gr : Grid) (x y v : Int) : (gr.set_obj x y v).h = gr.h := by
  unfold Grid.set_obj
  split <;> rfl

theorem Grid.set_obj_length (gr : Grid) (x y v : Int) :
    (gr.set_obj x y v).data.length = gr.data.length := by
  unfold Grid.set_obj
  split
  · simp
  · rfl

theorem Grid.set_obj_contains (gr : Grid) (x y v x' y' : Int) :
    (gr.set_obj x y v).contains x' y' = gr.contains x' y' := by
  simp [Grid.contains, Grid.set_obj_w, Grid.set_obj_h]

/-- A cell that is written holds the code written. -/
theorem Grid.get_obj_set_obj_same (gr : Grid) (oob x y v : Int)
    (hlen : gr.data.length = (gr.w * gr.h).toNat) (hc : gr.contains x y = true) :
    (gr.set_obj x y v).get_obj oob x y = v := by
  obtain ⟨⟨hx0, hxw⟩, hy0, hyh⟩ := (Grid.contains_iff gr x y).mp hc
  obtain ⟨hi0, hilt⟩ := Grid.index_lt gr.w gr.h x y hx0 hxw hy0 hyh
  have hidx : (y * gr.w + x).toNat < gr.data.length := by
    rw [hlen]
    omega
  unfold Grid.get_obj
  rw [Grid.set_obj_contains, if_pos hc, Grid.set_obj_w]
  unfold Grid.set_obj
  rw [if_pos hc]
  simp [List.getD_eq_getElem?_getD, hidx]

/-- A write leaves every other cell as it was. -/
theorem Grid.get_obj_set_obj_ne (gr : Grid) (oob x y v x' y' : Int)
    (hne : ¬ (x' = x ∧ y' = y)) :
    (gr.set_obj x y v).get_obj oob x' y' = gr.get_obj oob x' y' := by
  unfold Grid.get_obj
  rw [Grid.set_obj_contains, Grid.set_obj_w]
  by_cases hc' : gr.contains x' y' = true
  · rw [if_pos hc', if_pos hc']
    unfold Grid.set_obj
    by_cases hc : gr.contains x y = true
    · rw [if_pos hc]
      obtain ⟨⟨hx0, hxw⟩, hy0, hyh⟩ := (Grid.contains_iff gr x y).mp hc
      obtain ⟨⟨hx0', hxw'⟩, hy0', hyh'⟩ := (Grid.contains_iff gr x' y').mp hc'
      obtain ⟨hi0, _⟩ := Grid.index_lt gr.w gr.h x y hx0 hxw hy0 hyh
      obtain ⟨hi0', _⟩ := Grid.index_lt gr.w gr.h x' y' hx0' hxw' hy0' hyh'
      have hidx : (y * gr.w + x).toNat ≠ (y' * gr.w + x').toNat := by
        intro heq
        have heq' : y * gr.w + x = y' * gr.w + x' := by omega
        obtain ⟨h1, h2⟩ := Grid.index_inj gr.w x y x' y' hx0 hxw hx0' hxw' heq'
        exact hne ⟨h1.symm, h2.symm⟩
      simp [List.getD_eq_getElem?_getD, List.getElem?_set_ne hidx]
    · rw [if_neg hc]
  · rw [if_neg hc', if_neg hc']

theorem Grid.set_obj_index_w (gr : Grid) (i v : Int) : (gr.set_obj_index i v).w = gr.w := by
  unfold Grid.set_obj_index
  split <;> rfl

theorem Grid.set_obj_index_h (gr : Grid) (i v : Int) : (gr.set_obj_index i v).h = gr.h := by
  unfold Grid.set_obj_index
  split <;> rfl

theorem Grid.set_obj_index_length (gr : Grid) (i v : Int) :
    (gr.set_obj_index i v).data.length = gr.data.length := by
  unfold Grid.set_obj_index
  split
  · simp
  · rfl

/-- Filling the grid with walls keeps its shape. -/
theorem HeistPPGame.fill_walls_shape (WALL_OBJ : Int) (gr : Grid) :
    (HeistPPGame.fill_walls WALL_OBJ gr).w = gr.w ∧
    (HeistPPGame.fill_walls WALL_OBJ gr).h = gr.h ∧
    (HeistPPGame.fill_walls WALL_OBJ gr).data.length = gr.data.length := by
  unfold HeistPPGame.fill_walls
  generalize List.range (gr.w * gr.h).toNat = l
  suffices hs : ∀ acc : Grid, acc.w = gr.w ∧ acc.h = gr.h ∧ acc.data.length = gr.data.length →
      (l.foldl (fun acc (i : Nat) => acc.set_obj_index (Int.ofNat i) WALL_OBJ) acc).w = gr.w ∧
      (l.foldl (fun acc (i : Nat) => acc.set_obj_index (Int.ofNat i) WALL_OBJ) acc).h = gr.h ∧
      (l.foldl (fun acc (i : Nat) => acc.set_obj_index (Int.ofNat i) WALL_OBJ) acc).data.length
        = gr.data.length from hs gr ⟨rfl, rfl, rfl⟩
  induction l with
  | nil => intro acc hacc; exact hacc
  | cons a as ih =>
    intro acc hacc
    apply ih
    rw [Grid.set_obj_index_w, Grid.set_obj_index_h, Grid.set_obj_index_length]
    exact hacc

end grid_lemmas

/-! ## Lemmas: one cell of the level generation -/

section reset_lemmas

variable {R : Type} (x : HeistExternals R) (g : HeistPPGame)

theorem update_entity_length (l : List Entity) (i : Nat) (f : Entity → Entity) :
    (update_entity l i f).length = l.length := by
  unfold update_entity
  split <;> simp

theorem update_entity_drop (l : List Entity) (i n : Nat) (f : Entity → Entity) (hi : i < n) :
    (update_entity l i f).drop n = l.drop n := by
  unfold update_entity
  split
  · exact List.drop_set_of_lt _ l hi
  · rfl

theorem HeistPPGame.reset_terrain_shape (obj cx cy : Int) (st : ResetState R) :
    (HeistPPGame.reset_terrain x g obj cx cy st).grid.w = st.grid.w ∧
    (HeistPPGame.reset_terrain x g obj cx cy st).grid.h = st.grid.h ∧
    (HeistPPGame.reset_terrain x g obj cx cy st).grid.data.length
      = st.grid.data.length := by
  unfold HeistPPGame.reset_terrain
  simp only []
  split_ifs <;>
    exact ⟨Grid.set_obj_w _ _ _ _, Grid.set_obj_h _ _ _ _, Grid.set_obj_length _ _ _ _⟩

theorem HeistPPGame.reset_terrain_get_ne (obj cx cy oob x' y' : Int) (st : ResetState R)
    (hne : ¬ (x' = cx ∧ y' = cy)) :
    (HeistPPGame.reset_terrain x g obj cx cy st).grid.get_obj oob x' y'
      = st.grid.get_obj oob x' y' := by
  unfold HeistPPGame.reset_terrain
  simp only []
  split_ifs <;> exact Grid.get_obj_set_obj_ne _ _ _ _ _ _ _ hne

theorem HeistPPGame.reset_terrain_get_same (obj cx cy oob : Int) (st : ResetState R)
    (hobj : obj ≠ x.WALL_OBJ) (hlen : st.grid.data.length = (st.grid.w * st.grid.h).toNat)
    (hc : st.grid.contains cx cy = true) :
    (HeistPPGame.reset_terrain x g obj cx cy st).grid.get_obj oob cx cy = x.SPACE := by
  unfold HeistPPGame.reset_terrain
  rw [if_pos hobj]
  exact Grid.get_obj_set_obj_same _ _ _ _ _ hlen hc

/-- The entities the re-roll of a cell adds are hazards, stand in the centre of the
cell, and come from a wall cell of the maze whose draw was not below `wall_chance`. -/
theorem HeistPPGame.reset_terrain_entities (obj cx cy : Int) (st : ResetState R) :
    ∃ new, (HeistPPGame.reset_terrain x g obj cx cy st).entities = st.entities ++ new ∧
      ∀ e ∈ new, (e.type = WATER ∨ e.type = FIRE) ∧ obj = x.WALL_OBJ ∧
        e.x = (cx : ℚ) + 1/2 ∧ e.y = (cy : ℚ) + 1/2 ∧
        ¬ ((x.rand01 st.rand_gen).1 < g.wall_chance) := by
  unfold HeistPPGame.reset_terrain
  simp only []
  split_ifs with h1 h2 h3 h4
  · exact ⟨[], by simp, by simp⟩
  · exact ⟨[], by simp, by simp⟩
  · refine ⟨[BasicAbstractGame.add_entity ((cx : ℚ) + 1/2) ((cy : ℚ) + 1/2) 0 0 (1/2) WATER],
      rfl, ?_⟩
    intro e he
    rw [List.mem_singleton] at he
    subst he
    exact ⟨Or.inl rfl, not_not.mp h1, rfl, rfl, h2⟩
  · refine ⟨[BasicAbstractGame.add_entity ((cx : ℚ) + 1/2) ((cy : ℚ) + 1/2) 0 0 (1/2) FIRE],
      rfl, ?_⟩
    intro e he
    rw [List.mem_singleton] at he
    subst he
    exact ⟨Or.inr rfl, not_not.mp h1, rfl, rfl, h2⟩
  · exact ⟨[], by simp, by simp⟩

theorem HeistPPGame.spawn_entity_grid (rad : ℚ) (type : Int) (px py w h : ℚ) (theme : Int)
    (st : ResetState R) :
    (HeistPPGame.spawn_entity x rad type px py w h theme st).grid = st.grid := rfl

/-- An entity placed by `spawn_entity` has the type asked for. -/
theorem HeistPPGame.spawn_entity_entities (rad : ℚ) (type : Int) (px py w h : ℚ)
    (theme : Int) (st : ResetState R) :
    ∃ ent, (HeistPPGame.spawn_entity x rad type px py w h theme st).entities
        = st.entities ++ [ent] ∧ ent.type = type :=
  ⟨_, rfl, rfl⟩

theorem HeistPPGame.reset_object_shape (agent : Nat) (obj cx cy : Int) (st : ResetState R) :
    (HeistPPGame.reset_object x g agent obj cx cy st).grid.w = st.grid.w ∧
    (HeistPPGame.reset_object x g agent obj cx cy st).grid.h = st.grid.h ∧
    (HeistPPGame.reset_object x g agent obj cx cy st).grid.data.length
      = st.grid.data.length := by
  unfold HeistPPGame.reset_object
  simp only []
  split_ifs
  · exact ⟨rfl, rfl, rfl⟩
  · exact ⟨Grid.set_obj_w _ _ _ _, Grid.set_obj_h _ _ _ _, Grid.set_obj_length _ _ _ _⟩
  · exact ⟨rfl, rfl, rfl⟩
  · exact ⟨rfl, rfl, rfl⟩
  · exact ⟨rfl, rfl, rfl⟩
  · exact ⟨rfl, rfl, rfl⟩
  · exact ⟨rfl, rfl, rfl⟩

theorem HeistPPGame.reset_object_get_ne (agent : Nat) (obj cx cy oob x' y' : Int)
    (st : ResetState R) (hne : ¬ (x' = cx ∧ y' = cy)) :
    (HeistPPGame.reset_object x g agent obj cx cy st).grid.get_obj oob x' y'
      = st.grid.get_obj oob x' y' := by
  unfold HeistPPGame.reset_object
  simp only []
  split_ifs
  · rfl
  · exact Grid.get_obj_set_obj_ne _ _ _ _ _ _ _ hne
  · rfl
  · rfl
  · rfl
  · rfl
  · rfl

/-- The object step leaves the code of its cell, or makes it `LOCKED_DOOR`. -/
theorem HeistPPGame.reset_object_get_same (agent : Nat) (obj cx cy oob : Int)
    (st : ResetState R) (hlen : st.grid.data.length = (st.grid.w * st.grid.h).toNat)
    (hc : st.grid.contains cx cy = true) :
    (HeistPPGame.reset_object x g agent obj cx cy st).grid.get_obj oob cx cy
        = st.grid.get_obj oob cx cy ∨
    (HeistPPGame.reset_object x g agent obj cx cy st).grid.get_obj oob cx cy
        = LOCKED_DOOR := by
  unfold HeistPPGame.reset_object
  simp only []
  split_ifs
  · exact Or.inl rfl
  · exact Or.inr (Grid.get_obj_set_obj_same _ _ _ _ _ hlen hc)
  · exact Or.inl rfl
  · exact Or.inl rfl
  · exact Or.inl rfl
  · exact Or.inl rfl
  · exact Or.inl rfl

/-- The entities the object step adds behind position `n0`: no hazard, and a door stands
at the centre of the cell scaled by `maze_scale`, carries the theme of the maze code
and, in grid-step mode, has its cell marked `LOCKED_DOOR`. -/
theorem HeistPPGame.reset_object_entities (agent n0 : Nat) (obj cx cy oob : Int)
    (st : ResetState R) (hagent : agent < n0) (hn0 : n0 ≤ st.entities.length) :
    ∃ new, (HeistPPGame.reset_object x g agent obj cx cy st).entities.drop n0
        = st.entities.drop n0 ++ new ∧
      n0 ≤ (HeistPPGame.reset_object x g agent obj cx cy st).entities.length ∧
      ∀ e ∈ new, e.type ≠ WATER ∧ e.type ≠ FIRE ∧
        (e.type = LOCKED_DOOR →
          e.x = ((cx : ℚ) + 1/2) * g.maze_scale ∧ e.y = ((cy : ℚ) + 1/2) * g.maze_scale ∧
          e.image_theme = obj - x.DOOR_OBJ - 1 ∧
          (g.grid_step = true → st.grid.data.length = (st.grid.w * st.grid.h).toNat →
            st.grid.contains cx cy = true →
            (HeistPPGame.reset_object x g agent obj cx cy st).grid.get_obj oob cx cy
              = LOCKED_DOOR)) := by
  unfold HeistPPGame.reset_object
  simp only []
  by_cases h1 : obj ≥ x.KEY_OBJ
  · rw [if_pos h1]
    obtain ⟨ent, hent, htype⟩ := HeistPPGame.spawn_entity_entities x (3/8 * g.maze_scale) KEY
      (g.maze_scale * cx) (g.maze_scale * cy) g.maze_scale g.maze_scale (obj - x.KEY_OBJ - 1) st
    rw [hent]
    refine ⟨[ent], List.drop_append_of_le_length hn0, ?_, ?_⟩
    · simp only [List.length_append, List.length_singleton]
      omega
    · intro e he
      rw [List.mem_singleton] at he
      subst he
      rw [htype]
      exact ⟨by decide, by decide, fun hd => absurd hd (by decide)⟩
  · rw [if_neg h1]
    by_cases h2 : obj ≥ x.DOOR_OBJ
    · rw [if_pos h2]
      by_cases h3 : st.num_placed_doors < g.num_doors
      · rw [if_pos h3]
        cases hgs : g.grid_step
        · simp only [Bool.false_eq_true, if_false]
          refine ⟨[_], List.drop_append_of_le_length hn0, ?_, ?_⟩
          · simp only [List.length_append, List.length_singleton]
            omega
          · intro e he
            rw [List.mem_singleton] at he
            subst he
            refine ⟨by show LOCKED_DOOR ≠ WATER; decide, by show LOCKED_DOOR ≠ FIRE; decide,
              fun _ => ⟨rfl, rfl, rfl, ?_⟩⟩
            intro hc
            exact absurd hc (by simp)
        · simp only [if_true]
          refine ⟨[_], List.drop_append_of_le_length hn0, ?_, ?_⟩
          · simp only [List.length_append, List.length_singleton]
            omega
          · intro e he
            rw [List.mem_singleton] at he
            subst he
            refine ⟨by show LOCKED_DOOR ≠ WATER; decide, by show LOCKED_DOOR ≠ FIRE; decide,
              fun _ => ⟨rfl, rfl, rfl, ?_⟩⟩
            intro _ hlen hc
            exact Grid.get_obj_set_obj_same _ _ _ _ _ hlen hc
      · rw [if_neg h3]
        exact ⟨[], by simp, hn0, by simp⟩
    · rw [if_neg h2]
      by_cases h4 : obj = x.EXIT_OBJ
      · rw [if_pos h4]
        obtain ⟨ent, hent, htype⟩ := HeistPPGame.spawn_entity_entities x (3/8 * g.maze_scale)
          EXIT (g.maze_scale * cx) (g.maze_scale * cy) g.maze_scale g.maze_scale 0 st
        rw [hent]
        refine ⟨[ent], List.drop_append_of_le_length hn0, ?_, ?_⟩
        · simp only [List.length_append, List.length_singleton]
          omega
        · intro e he
          rw [List.mem_singleton] at he
          subst he
          rw [htype]
          exact ⟨by decide, by decide, fun hd => absurd hd (by decide)⟩
      · rw [if_neg h4]
        by_cases h5 : obj = x.AGENT_OBJ
        · rw [if_pos h5]
          refine ⟨[], ?_, ?_, by simp⟩
          · rw [List.append_nil]
            exact update_entity_drop _ _ _ _ hagent
          · rw [update_entity_length]
            exact hn0
        · rw [if_neg h5]
          exact ⟨[], by simp, hn0, by simp⟩

theorem Grid.contains_congr (a b : Grid) (hw : a.w = b.w) (hh : a.h = b.h) (x' y' : Int) :
    a.contains x' y' = b.contains x' y' := by
  simp [Grid.contains, hw, hh]

theorem HeistPPGame.reset_cell_shape (agent : Nat) (maze : Int → Int → Int)
    (off_x off_y : Int) (st : ResetState R) (c : Int × Int) :
    (HeistPPGame.reset_cell x g agent maze off_x off_y st c).grid.w = st.grid.w ∧
    (HeistPPGame.reset_cell x g agent maze off_x off_y st c).grid.h = st.grid.h ∧
    (HeistPPGame.reset_cell x g agent maze off_x off_y st c).grid.data.length
      = st.grid.data.length := by
  unfold HeistPPGame.reset_cell
  simp only []
  obtain ⟨a1, a2, a3⟩ := HeistPPGame.reset_terrain_shape x g
    (maze (c.1 + x.MAZE_OFFSET) (c.2 + x.MAZE_OFFSET)) (off_x + c.1) (off_y + c.2) st
  obtain ⟨b1, b2, b3⟩ := HeistPPGame.reset_object_shape x g agent
    (maze (c.1 + x.MAZE_OFFSET) (c.2 + x.MAZE_OFFSET)) (off_x + c.1) (off_y + c.2)
    (HeistPPGame.reset_terrain x g (maze (c.1 + x.MAZE_OFFSET) (c.2 + x.MAZE_OFFSET))
      (off_x + c.1) (off_y + c.2) st)
  exact ⟨b1.trans a1, b2.trans a2, b3.trans a3⟩

/-- The step for a cell writes no other cell of the grid. -/
theorem HeistPPGame.reset_cell_get_ne (agent : Nat) (maze : Int → Int → Int)
    (off_x off_y oob : Int) (st : ResetState R) (c d : Int × Int) (hne : d ≠ c) :
    (HeistPPGame.reset_cell x g agent maze off_x off_y st c).grid.get_obj oob
        (off_x + d.1) (off_y + d.2)
      = st.grid.get_obj oob (off_x + d.1) (off_y + d.2) := by
  have hcoord : ¬ (off_x + d.1 = off_x + c.1 ∧ off_y + d.2 = off_y + c.2) := by
    rintro ⟨h1, h2⟩
    apply hne
    ext
    · omega
    · omega
  unfold HeistPPGame.reset_cell
  simp only []
  rw [HeistPPGame.reset_object_get_ne x g agent _ _ _ oob _ _ _ hcoord,
    HeistPPGame.reset_terrain_get_ne x g _ _ _ oob _ _ _ hcoord]

/-- The step for an open cell of the maze leaves `SPACE` or `LOCKED_DOOR` in its cell. -/
theorem HeistPPGame.reset_cell_get_same (agent : Nat) (maze : Int → Int → Int)
    (off_x off_y oob : Int) (st : ResetState R) (c : Int × Int)
    (hobj : maze (c.1 + x.MAZE_OFFSET) (c.2 + x.MAZE_OFFSET) ≠ x.WALL_OBJ)
    (hlen : st.grid.data.length = (st.grid.w * st.grid.h).toNat)
    (hc : st.grid.contains (off_x + c.1) (off_y + c.2) = true) :
    (HeistPPGame.reset_cell x g agent maze off_x off_y st c).grid.get_obj oob
        (off_x + c.1) (off_y + c.2) = x.SPACE ∨
    (HeistPPGame.reset_cell x g agent maze off_x off_y st c).grid.get_obj oob
        (off_x + c.1) (off_y + c.2) = LOCKED_DOOR := by
  obtain ⟨a1, a2, a3⟩ := HeistPPGame.reset_terrain_shape x g
    (maze (c.1 + x.MAZE_OFFSET) (c.2 + x.MAZE_OFFSET)) (off_x + c.1) (off_y + c.2) st
  have hsame := HeistPPGame.reset_terrain_get_same x g _ (off_x + c.1) (off_y + c.2) oob st
    hobj hlen hc
  have hlen' : (HeistPPGame.reset_terrain x g
      (maze (c.1 + x.MAZE_OFFSET) (c.2 + x.MAZE_OFFSET)) (off_x + c.1) (off_y + c.2)
        st).grid.data.length
      = ((HeistPPGame.reset_terrain x g
          (maze (c.1 + x.MAZE_OFFSET) (c.2 + x.MAZE_OFFSET)) (off_x + c.1) (off_y + c.2)
            st).grid.w
        * (HeistPPGame.reset_terrain x g
          (maze (c.1 + x.MAZE_OFFSET) (c.2 + x.MAZE_OFFSET)) (off_x + c.1) (off_y + c.2)
            st).grid.h).toNat := by
    rw [a1, a2, a3, hlen]
  have hc' : (HeistPPGame.reset_terrain x g
      (maze (c.1 + x.MAZE_OFFSET) (c.2 + x.MAZE_OFFSET)) (off_x + c.1) (off_y + c.2)
        st).grid.contains (off_x + c.1) (off_y + c.2) = true := by
    rw [Grid.contains_congr _ st.grid a1 a2]
    exact hc
  unfold HeistPPGame.reset_cell
  simp only []
  rcases HeistPPGame.reset_object_get_same x g agent
    (maze (c.1 + x.MAZE_OFFSET) (c.2 + x.MAZE_OFFSET)) (off_x + c.1) (off_y + c.2) oob _
    hlen' hc' with h | h
  · exact Or.inl (h.trans hsame)
  · exact Or.inr h

/-- The entities the step for a cell adds behind position `n0`. -/
theorem HeistPPGame.reset_cell_entities (agent n0 : Nat) (maze : Int → Int → Int)
    (off_x off_y oob : Int) (st : ResetState R) (c : Int × Int)
    (hagent : agent < n0) (hn0 : n0 ≤ st.entities.length) :
    ∃ new, (HeistPPGame.reset_cell x g agent maze off_x off_y st c).entities.drop n0
        = st.entities.drop n0 ++ new ∧
      n0 ≤ (HeistPPGame.reset_cell x g agent maze off_x off_y st c).entities.length ∧
      ∀ e ∈ new,
        ((e.type = WATER ∨ e.type = FIRE) →
          maze (c.1 + x.MAZE_OFFSET) (c.2 + x.MAZE_OFFSET) = x.WALL_OBJ ∧
          e.x = ((off_x + c.1 : Int) : ℚ) + 1/2 ∧ e.y = ((off_y + c.2 : Int) : ℚ) + 1/2 ∧
          ∃ r, ¬ ((x.rand01 r).1 < g.wall_chance)) ∧
        (e.type = LOCKED_DOOR →
          e.x = (((off_x + c.1 : Int) : ℚ) + 1/2) * g.maze_scale ∧
          e.y = (((off_y + c.2 : Int) : ℚ) + 1/2) * g.maze_scale ∧
          e.image_theme
            = maze (c.1 + x.MAZE_OFFSET) (c.2 + x.MAZE_OFFSET) - x.DOOR_OBJ - 1 ∧
          (g.grid_step = true → st.grid.data.length = (st.grid.w * st.grid.h).toNat →
            st.grid.contains (off_x + c.1) (off_y + c.2) = true →
            (HeistPPGame.reset_cell x g agent maze off_x off_y st c).grid.get_obj oob
              (off_x + c.1) (off_y + c.2) = LOCKED_DOOR)) := by
  obtain ⟨a1, a2, a3⟩ := HeistPPGame.reset_terrain_shape x g
    (maze (c.1 + x.MAZE_OFFSET) (c.2 + x.MAZE_OFFSET)) (off_x + c.1) (off_y + c.2) st
  obtain ⟨tnew, ht, htq⟩ := HeistPPGame.reset_terrain_entities x g
    (maze (c.1 + x.MAZE_OFFSET) (c.2 + x.MAZE_OFFSET)) (off_x + c.1) (off_y + c.2) st
  have hn1 : n0 ≤ (HeistPPGame.reset_terrain x g
      (maze (c.1 + x.MAZE_OFFSET) (c.2 + x.MAZE_OFFSET)) (off_x + c.1) (off_y + c.2)
        st).entities.length := by
    rw [ht, List.length_append]
    omega
  obtain ⟨onew, ho, hlen2, hoq⟩ := HeistPPGame.reset_object_entities x g agent n0
    (maze (c.1 + x.MAZE_OFFSET) (c.2 + x.MAZE_OFFSET)) (off_x + c.1) (off_y + c.2) oob
    (HeistPPGame.reset_terrain x g (maze (c.1 + x.MAZE_OFFSET) (c.2 + x.MAZE_OFFSET))
      (off_x + c.1) (off_y + c.2) st) hagent hn1
  refine ⟨tnew ++ onew, ?_, hlen2, ?_⟩
  · show (HeistPPGame.reset_object x g agent _ _ _ _).entities.drop n0 = _
    rw [ho, ht, List.drop_append_of_le_length hn0, List.append_assoc]
  · intro e he
    rcases List.mem_append.mp he with he | he
    · obtain ⟨q1, q2, q3, q4, q5⟩ := htq e he
      refine ⟨fun _ => ⟨q2, q3, q4, _, q5⟩, ?_⟩
      intro hd
      rcases q1 with q1 | q1
      · rw [q1] at hd
        exact absurd hd (by decide)
      · rw [q1] at hd
        exact absurd hd (by decide)
    · obtain ⟨q1, q2, q3⟩ := hoq e he
      refine ⟨?_, ?_⟩
      · rintro (hw | hf)
        · exact absurd hw q1
        · exact absurd hf q2
      · intro hd
        obtain ⟨p1, p2, p3, p4⟩ := q3 hd
        refine ⟨p1, p2, p3, ?_⟩
        intro hgs hlen hc
        apply p4 hgs
        · rw [a1, a2, a3, hlen]
        · rw [Grid.contains_congr _ st.grid a1 a2]
          exact hc

end reset_lemmas

/-! ## Lemmas: the loops of the level generation -/

section loop_lemmas

/-- A property of the cells visited so far and the state reached, kept by every step of a
loop over distinct cells, holds of all cells at the end. -/
theorem foldl_invariant {α β : Type} (f : β → α → β) (P : List α → β → Prop) (l : List α)
    (hnd : l.Nodup) (b : β) (h0 : P [] b)
    (hstep : ∀ pre a st, a ∈ l → a ∉ pre → (∀ c ∈ pre, c ∈ l) → P pre st →
      P (pre ++ [a]) (f st a)) :
    P l (l.foldl f b) := by
  suffices hs : ∀ (rest pre : List α) (st : β), pre ++ rest = l → P pre st →
      P l (rest.foldl f st) from hs l [] b rfl h0
  intro rest
  induction rest with
  | nil =>
    intro pre st hl hP
    rw [List.append_nil] at hl
    rw [← hl]
    exact hP
  | cons a rest ih =>
    intro pre st hl hP
    have hmem : a ∈ l := by rw [← hl]; simp
    have hnot : a ∉ pre := by
      intro ha
      rw [← hl] at hnd
      have := (List.nodup_append.mp hnd).2.2
      exact this ha (List.mem_cons_self a rest)
    have hpre : ∀ c ∈ pre, c ∈ l := by
      intro c hc
      rw [← hl]
      exact List.mem_append_left _ hc
    exact ih (pre ++ [a]) (f st a) (by rw [List.append_assoc]; exact hl)
      (hstep pre a st hmem hnot hpre hP)

theorem HeistPPGame.mem_maze_cells (d : Int) (c : Int × Int) :
    c ∈ HeistPPGame.maze_cells d ↔ (0 ≤ c.1 ∧ c.1 < d) ∧ (0 ≤ c.2 ∧ c.2 < d) := by
  unfold HeistPPGame.maze_cells
  simp only [List.mem_flatMap, List.mem_map, List.mem_range]
  constructor
  · rintro ⟨i, hi, j, hj, rfl⟩
    simp only [Int.ofNat_eq_coe]
    omega
  · rintro ⟨⟨h1, h2⟩, h3, h4⟩
    refine ⟨c.1.toNat, by omega, c.2.toNat, by omega, ?_⟩
    ext
    · simp only [Int.ofNat_eq_coe]
      omega
    · simp only [Int.ofNat_eq_coe]
      omega

theorem HeistPPGame.maze_cells_nodup (d : Int) : (HeistPPGame.maze_cells d).Nodup := by
  unfold HeistPPGame.maze_cells
  rw [List.nodup_flatMap]
  constructor
  · intro i _
    apply List.Nodup.map _ (List.nodup_range _)
    intro a b hab
    simp only [Prod.mk.injEq, Int.ofNat_eq_coe, Nat.cast_inj, true_and] at hab
    exact hab
  · apply List.Pairwise.imp_of_mem _ (List.nodup_range d.toNat)
    intro a b _ _ hab
    simp only [Function.onFun, List.Disjoint, List.mem_map]
    rintro c ⟨j, _, rfl⟩ ⟨j', _, hj'⟩
    simp only [Prod.mk.injEq, Int.ofNat_eq_coe, Nat.cast_inj] at hj'
    exact hab hj'.1.symm

variable {R : Type} (x : HeistExternals R) (g : HeistPPGame)

/-- The grid after the loop over the cells: every open cell of the maze holds `SPACE` or
`LOCKED_DOOR`, and every door placed stands on its own cell, marked `LOCKED_DOOR` in
grid-step mode. -/
theorem HeistPPGame.reset_loop_grid (agent : Nat) (maze : Int → Int → Int)
    (off_x off_y oob : Int) (cells : List (Int × Int)) (hnd : cells.Nodup)
    (st0 : ResetState R) (hagent : agent < st0.entities.length)
    (hlen : st0.grid.data.length = (st0.grid.w * st0.grid.h).toNat)
    (hin : ∀ c ∈ cells, st0.grid.contains (off_x + c.1) (off_y + c.2) = true) :
    ∀ st1, st1 = cells.foldl (HeistPPGame.reset_cell x g agent maze off_x off_y) st0 →
    (st1.grid.w = st0.grid.w ∧ st1.grid.h = st0.grid.h ∧
      st1.grid.data.length = st0.grid.data.length) ∧
    st0.entities.length ≤ st1.entities.length ∧
    (∀ c ∈ cells, maze (c.1 + x.MAZE_OFFSET) (c.2 + x.MAZE_OFFSET) ≠ x.WALL_OBJ →
      st1.grid.get_obj oob (off_x + c.1) (off_y + c.2) = x.SPACE ∨
      st1.grid.get_obj oob (off_x + c.1) (off_y + c.2) = LOCKED_DOOR) ∧
    (∀ e ∈ st1.entities.drop st0.entities.length, e.type = LOCKED_DOOR →
      ∃ c ∈ cells,
        e.x = (((off_x + c.1 : Int) : ℚ) + 1/2) * g.maze_scale ∧
        e.y = (((off_y + c.2 : Int) : ℚ) + 1/2) * g.maze_scale ∧
        e.image_theme = maze (c.1 + x.MAZE_OFFSET) (c.2 + x.MAZE_OFFSET) - x.DOOR_OBJ - 1 ∧
        (g.grid_step = true →
          st1.grid.get_obj oob (off_x + c.1) (off_y + c.2) = LOCKED_DOOR)) := by
  intro st1 hst1
  rw [hst1]
  refine foldl_invariant (HeistPPGame.reset_cell x g agent maze off_x off_y)
    (fun P st =>
      (st.grid.w = st0.grid.w ∧ st.grid.h = st0.grid.h ∧
        st.grid.data.length = st0.grid.data.length) ∧
      st0.entities.length ≤ st.entities.length ∧
      (∀ c ∈ P, maze (c.1 + x.MAZE_OFFSET) (c.2 + x.MAZE_OFFSET) ≠ x.WALL_OBJ →
        st.grid.get_obj oob (off_x + c.1) (off_y + c.2) = x.SPACE ∨
        st.grid.get_obj oob (off_x + c.1) (off_y + c.2) = LOCKED_DOOR) ∧
      (∀ e ∈ st.entities.drop st0.entities.length, e.type = LOCKED_DOOR →
        ∃ c ∈ P,
          e.x = (((off_x + c.1 : Int) : ℚ) + 1/2) * g.maze_scale ∧
          e.y = (((off_y + c.2 : Int) : ℚ) + 1/2) * g.maze_scale ∧
          e.image_theme
            = maze (c.1 + x.MAZE_OFFSET) (c.2 + x.MAZE_OFFSET) - x.DOOR_OBJ - 1 ∧
          (g.grid_step = true →
            st.grid.get_obj oob (off_x + c.1) (off_y + c.2) = LOCKED_DOOR)))
    cells hnd st0 ?_ ?_
  · refine ⟨⟨rfl, rfl, rfl⟩, le_refl _, ?_, ?_⟩
    · intro c hc
      simp at hc
    · intro e he
      simp at he
  · rintro pre a st ha hnot hpre ⟨⟨s1, s2, s3⟩, hL, hG, hD⟩
    obtain ⟨t1, t2, t3⟩ := HeistPPGame.reset_cell_shape x g agent maze off_x off_y st a
    have hlen_st : st.grid.data.length = (st.grid.w * st.grid.h).toNat := by
      rw [s1, s2, s3, hlen]
    have hc_st : st.grid.contains (off_x + a.1) (off_y + a.2) = true := by
      rw [Grid.contains_congr _ st0.grid s1 s2]
      exact hin a ha
    obtain ⟨new, hnew, hlen2, hq⟩ := HeistPPGame.reset_cell_entities x g agent
      st0.entities.length maze off_x off_y oob st a hagent hL
    refine ⟨⟨t1.trans s1, t2.trans s2, t3.trans s3⟩, hlen2, ?_, ?_⟩
    · intro c hc hobj
      rcases List.mem_append.mp hc with hc | hc
      · have hne : c ≠ a := fun h => hnot (h ▸ hc)
        rw [HeistPPGame.reset_cell_get_ne x g agent maze off_x off_y oob st a c hne]
        exact hG c hc hobj
      · rw [List.mem_singleton] at hc
        subst hc
        exact HeistPPGame.reset_cell_get_same x g agent maze off_x off_y oob st c hobj
          hlen_st hc_st
    · intro e he hd
      rw [hnew] at he
      rcases List.mem_append.mp he with he | he
      · obtain ⟨c, hc, p1, p2, p3, p4⟩ := hD e he hd
        refine ⟨c, List.mem_append_left _ hc, p1, p2, p3, ?_⟩
        intro hgs
        have hne : c ≠ a := fun h => hnot (h ▸ hc)
        rw [HeistPPGame.reset_cell_get_ne x g agent maze off_x off_y oob st a c hne]
        exact p4 hgs
      · obtain ⟨p1, p2, p3, p4⟩ := (hq e he).2 hd
        exact ⟨a, by simp, p1, p2, p3, fun hgs => p4 hgs hlen_st hc_st⟩

/-- The hazards after the loop over the cells: each stands in the centre of a cell that
is a wall in the maze, and was placed on a draw not below `wall_chance`. -/
theorem HeistPPGame.reset_loop_hazards (agent : Nat) (maze : Int → Int → Int)
    (off_x off_y : Int) (cells : List (Int × Int)) (hnd : cells.Nodup)
    (st0 : ResetState R) (hagent : agent < st0.entities.length) :
    ∀ st1, st1 = cells.foldl (HeistPPGame.reset_cell x g agent maze off_x off_y) st0 →
    st0.entities.length ≤ st1.entities.length ∧
    (∀ e ∈ st1.entities.drop st0.entities.length, (e.type = WATER ∨ e.type = FIRE) →
      ∃ c ∈ cells, maze (c.1 + x.MAZE_OFFSET) (c.2 + x.MAZE_OFFSET) = x.WALL_OBJ ∧
        e.x = ((off_x + c.1 : Int) : ℚ) + 1/2 ∧ e.y = ((off_y + c.2 : Int) : ℚ) + 1/2 ∧
        ∃ r, ¬ ((x.rand01 r).1 < g.wall_chance)) := by
  intro st1 hst1
  rw [hst1]
  refine foldl_invariant (HeistPPGame.reset_cell x g agent maze off_x off_y)
    (fun P st =>
      st0.entities.length ≤ st.entities.length ∧
      (∀ e ∈ st.entities.drop st0.entities.length, (e.type = WATER ∨ e.type = FIRE) →
        ∃ c ∈ P, maze (c.1 + x.MAZE_OFFSET) (c.2 + x.MAZE_OFFSET) = x.WALL_OBJ ∧
          e.x = ((off_x + c.1 : Int) : ℚ) + 1/2 ∧ e.y = ((off_y + c.2 : Int) : ℚ) + 1/2 ∧
          ∃ r, ¬ ((x.rand01 r).1 < g.wall_chance)))
    cells hnd st0 ?_ ?_
  · refine ⟨le_refl _, ?_⟩
    intro e he
    simp at he
  · rintro pre a st ha hnot hpre ⟨hL, hH⟩
    obtain ⟨new, hnew, hlen2, hq⟩ := HeistPPGame.reset_cell_entities x g agent
      st0.entities.length maze off_x off_y 0 st a hagent hL
    refine ⟨hlen2, ?_⟩
    intro e he hz
    rw [hnew] at he
    rcases List.mem_append.mp he with he | he
    · obtain ⟨c, hc, p⟩ := hH e he hz
      exact ⟨c, List.mem_append_left _ hc, p⟩
    · exact ⟨a, by simp, (hq e he).1 hz⟩

end loop_lemmas

/-! ## Lemmas: the whole of `game_reset` -/

section game_reset_lemmas

variable {R : Type} (x : HeistExternals R) (agent : Nat) (g : HeistPPGame) (r : R)

theorem HeistPPGame.reset_setup_fields :
    (HeistPPGame.reset_setup x agent g r).1.grid = g.grid ∧
    (HeistPPGame.reset_setup x agent g r).1.world_dim = g.world_dim ∧
    (HeistPPGame.reset_setup x agent g r).1.main_height = g.main_height ∧
    (HeistPPGame.reset_setup x agent g r).1.num_keys = g.num_keys ∧
    (HeistPPGame.reset_setup x agent g r).1.num_doors = g.num_doors ∧
    (HeistPPGame.reset_setup x agent g r).1.wall_chance = g.wall_chance ∧
    (HeistPPGame.reset_setup x agent g r).1.grid_step = g.with_grid_steps ∧
    (HeistPPGame.reset_setup x agent g r).1.has_keys = [false, false, false] ∧
    (HeistPPGame.reset_setup x agent g r).1.entities.length = g.entities.length := by
  refine ⟨rfl, rfl, rfl, rfl, rfl, rfl, rfl, rfl, ?_⟩
  simp only [HeistPPGame.reset_setup, update_entity_length]

theorem HeistPPGame.reset_setup_maze_scale :
    (HeistPPGame.reset_setup x agent g r).1.maze_scale = g.maze_scale := rfl

/-- A generator that keeps `randn(n)` inside `[0, n)` gives both offsets the value 0. -/
theorem HeistPPGame.reset_offsets
    (hrand : ∀ s n, 0 < n → 0 ≤ (x.randn s n).1 ∧ (x.randn s n).1 < n) :
    HeistPPGame.reset_off_x x agent g r = 0 ∧ HeistPPGame.reset_off_y x agent g r = 0 := by
  have h1 : g.world_dim - g.world_dim + 1 = 1 := by omega
  have h0 : ∀ s, (x.randn s (g.world_dim - g.world_dim + 1)).1 = 0 := by
    intro s
    rw [h1]
    have := hrand s 1 (by decide)
    omega
  exact ⟨h0 _, h0 _⟩

theorem HeistPPGame.game_reset_grid :
    (HeistPPGame.game_reset x agent g r).1.grid = (HeistPPGame.reset_final x agent g r).grid :=
  rfl

theorem HeistPPGame.game_reset_entities :
    (HeistPPGame.game_reset x agent g r).1.entities
      = (HeistPPGame.reset_final x agent g r).entities
        ++ (List.range g.num_keys.toNat).map (HeistPPGame.ring_key x) := rfl

theorem HeistPPGame.game_reset_has_keys :
    (HeistPPGame.game_reset x agent g r).1.has_keys = [false, false, false] := rfl

theorem HeistPPGame.reset_start_length :
    (HeistPPGame.reset_start x agent g r).entities.length = g.entities.length :=
  (HeistPPGame.reset_setup_fields x agent g r).2.2.2.2.2.2.2.2

theorem HeistPPGame.ring_key_type (i : Nat) : (HeistPPGame.ring_key x i).type = KEY_ON_RING :=
  rfl

/-- The entities created by `game_reset` are those the loop over the cells added and the
key icons of the ring. -/
theorem HeistPPGame.reset_created_eq (hagent : agent < g.entities.length) :
    HeistPPGame.reset_created x agent g r
      = (HeistPPGame.reset_final x agent g r).entities.drop g.entities.length
        ++ (List.range g.num_keys.toNat).map (HeistPPGame.ring_key x) := by
  have hL := (HeistPPGame.reset_loop_hazards x (HeistPPGame.reset_setup x agent g r).1 agent
    (HeistPPGame.reset_maze x agent g r) (HeistPPGame.reset_off_x x agent g r)
    (HeistPPGame.reset_off_y x agent g r)
    (HeistPPGame.maze_cells (HeistPPGame.reset_setup x agent g r).1.world_dim)
    (HeistPPGame.maze_cells_nodup _) (HeistPPGame.reset_start x agent g r)
    (by rw [HeistPPGame.reset_start_length]; exact hagent)
    (HeistPPGame.reset_final x agent g r) rfl).1
  rw [HeistPPGame.reset_start_length] at hL
  unfold HeistPPGame.reset_created
  rw [HeistPPGame.game_reset_entities, List.drop_append_of_le_length hL]

end game_reset_lemmas

/-! ## Theorems: level generation of the heist game -/

/-- C14. Re-rolling never blocks the route: on a world grid of `world_dim × world_dim`
cells, with `randn(n)` in `[0, n)`, after `HeistPPGame::game_reset` every maze cell
`(i, j)` that is not `WALL_OBJ` in the generated maze holds `SPACE` or `LOCKED_DOOR`, and
so not `WALL_OBJ`, at world cell `(off_x + i, off_y + j)`; hence the cells of every path
through non-wall cells of the maze are non-wall cells of the world grid. -/
theorem HeistPPGame.reset_keeps_route_open {R : Type} (x : HeistExternals R) (agent : Nat)
    (g : HeistPPGame) (r : R) (oob : Int)
    (hrand : ∀ s n, 0 < n → 0 ≤ (x.randn s n).1 ∧ (x.randn s n).1 < n)
    (hagent : agent < g.entities.length)
    (hw : g.grid.w = g.world_dim) (hh : g.grid.h = g.world_dim)
    (hlen : g.grid.data.length = (g.grid.w * g.grid.h).toNat)
    (hsw : x.SPACE ≠ x.WALL_OBJ) (hdw : LOCKED_DOOR ≠ x.WALL_OBJ) :
    (∀ i j : Int, 0 ≤ i → i < g.world_dim → 0 ≤ j → j < g.world_dim →
      HeistPPGame.reset_maze x agent g r (i + x.MAZE_OFFSET) (j + x.MAZE_OFFSET) ≠ x.WALL_OBJ →
      ((HeistPPGame.game_reset x agent g r).1.grid.get_obj oob
          (HeistPPGame.reset_off_x x agent g r + i) (HeistPPGame.reset_off_y x agent g r + j)
            = x.SPACE ∨
        (HeistPPGame.game_reset x agent g r).1.grid.get_obj oob
          (HeistPPGame.reset_off_x x agent g r + i) (HeistPPGame.reset_off_y x agent g r + j)
            = LOCKED_DOOR) ∧
      (HeistPPGame.game_reset x agent g r).1.grid.get_obj oob
          (HeistPPGame.reset_off_x x agent g r + i) (HeistPPGame.reset_off_y x agent g r + j)
            ≠ x.WALL_OBJ) ∧
    (∀ path : List (Int × Int),
      (∀ c ∈ path, (0 ≤ c.1 ∧ c.1 < g.world_dim) ∧ (0 ≤ c.2 ∧ c.2 < g.world_dim) ∧
        HeistPPGame.reset_maze x agent g r (c.1 + x.MAZE_OFFSET) (c.2 + x.MAZE_OFFSET)
          ≠ x.WALL_OBJ) →
      ∀ c ∈ path, (HeistPPGame.game_reset x agent g r).1.grid.get_obj oob
          (HeistPPGame.reset_off_x x agent g r + c.1)
          (HeistPPGame.reset_off_y x agent g r + c.2) ≠ x.WALL_OBJ) := by
  obtain ⟨hox, hoy⟩ := HeistPPGame.reset_offsets x agent g r hrand
  obtain ⟨fw, fh, fl⟩ := HeistPPGame.fill_walls_shape x.WALL_OBJ g.grid
  have hstart_len : (HeistPPGame.reset_start x agent g r).grid.data.length
      = ((HeistPPGame.reset_start x agent g r).grid.w
          * (HeistPPGame.reset_start x agent g r).grid.h).toNat := by
    show (HeistPPGame.fill_walls x.WALL_OBJ g.grid).data.length
      = ((HeistPPGame.fill_walls x.WALL_OBJ g.grid).w
          * (HeistPPGame.fill_walls x.WALL_OBJ g.grid).h).toNat
    rw [fw, fh, fl, hlen]
  have hin : ∀ c ∈ HeistPPGame.maze_cells g.world_dim,
      (HeistPPGame.reset_start x agent g r).grid.contains
        (HeistPPGame.reset_off_x x agent g r + c.1)
        (HeistPPGame.reset_off_y x agent g r + c.2) = true := by
    intro c hc
    obtain ⟨⟨h1, h2⟩, h3, h4⟩ := (HeistPPGame.mem_maze_cells g.world_dim c).mp hc
    rw [hox, hoy, Grid.contains_iff]
    show (0 ≤ 0 + c.1 ∧ 0 + c.1 < (HeistPPGame.fill_walls x.WALL_OBJ g.grid).w) ∧
      (0 ≤ 0 + c.2 ∧ 0 + c.2 < (HeistPPGame.fill_walls x.WALL_OBJ g.grid).h)
    rw [fw, fh, hw, hh]
    omega
  have hloop := (HeistPPGame.reset_loop_grid x (HeistPPGame.reset_setup x agent g r).1 agent
    (HeistPPGame.reset_maze x agent g r) (HeistPPGame.reset_off_x x agent g r)
    (HeistPPGame.reset_off_y x agent g r) oob (HeistPPGame.maze_cells g.world_dim)
    (HeistPPGame.maze_cells_nodup _) (HeistPPGame.reset_start x agent g r)
    (by rw [HeistPPGame.reset_start_length]; exact hagent) hstart_len hin
    (HeistPPGame.reset_final x agent g r) rfl).2.2.1
  have hcell : ∀ i j : Int, 0 ≤ i → i < g.world_dim → 0 ≤ j → j < g.world_dim →
      HeistPPGame.reset_maze x agent g r (i + x.MAZE_OFFSET) (j + x.MAZE_OFFSET) ≠ x.WALL_OBJ →
      ((HeistPPGame.game_reset x agent g r).1.grid.get_obj oob
          (HeistPPGame.reset_off_x x agent g r + i) (HeistPPGame.reset_off_y x agent g r + j)
            = x.SPACE ∨
        (HeistPPGame.game_reset x agent g r).1.grid.get_obj oob
          (HeistPPGame.reset_off_x x agent g r + i) (HeistPPGame.reset_off_y x agent g r + j)
            = LOCKED_DOOR) := by
    intro i j hi0 hi hj0 hj hobj
    rw [HeistPPGame.game_reset_grid]
    exact hloop (i, j) ((HeistPPGame.mem_maze_cells g.world_dim (i, j)).mpr
      ⟨⟨hi0, hi⟩, hj0, hj⟩) hobj
  have hnw : ∀ i j : Int, 0 ≤ i → i < g.world_dim → 0 ≤ j → j < g.world_dim →
      HeistPPGame.reset_maze x agent g r (i + x.MAZE_OFFSET) (j + x.MAZE_OFFSET) ≠ x.WALL_OBJ →
      (HeistPPGame.game_reset x agent g r).1.grid.get_obj oob
          (HeistPPGame.reset_off_x x agent g r + i) (HeistPPGame.reset_off_y x agent g r + j)
            ≠ x.WALL_OBJ := by
    intro i j hi0 hi hj0 hj hobj
    rcases hcell i j hi0 hi hj0 hj hobj with h | h
    · rw [h]; exact hsw
    · rw [h]; exact hdw
  refine ⟨fun i j hi0 hi hj0 hj hobj =>
    ⟨hcell i j hi0 hi hj0 hj hobj, hnw i j hi0 hi hj0 hj hobj⟩, ?_⟩
  intro path hpath c hc
  obtain ⟨⟨h1, h2⟩, ⟨h3, h4⟩, h5⟩ := hpath c hc
  exact hnw c.1 c.2 h1 h2 h3 h4 h5

/-- C15 (as amended). Hazard placement: every `WATER` or `FIRE` entity created by
`HeistPPGame::game_reset` stands in the centre of a world cell `(off_x + i, off_y + j)`
whose maze cell `(i, j)` is `WALL_OBJ` in the generated maze: re-rolling is applied only
to wall cells of the maze, never to its open cells. -/
theorem HeistPPGame.reset_hazards_on_walls {R : Type} (x : HeistExternals R) (agent : Nat)
    (g : HeistPPGame) (r : R) (hagent : agent < g.entities.length) :
    ∀ e ∈ HeistPPGame.reset_created x agent g r, (e.type = WATER ∨ e.type = FIRE) →
      ∃ i j : Int, (0 ≤ i ∧ i < g.world_dim) ∧ (0 ≤ j ∧ j < g.world_dim) ∧
        HeistPPGame.reset_maze x agent g r (i + x.MAZE_OFFSET) (j + x.MAZE_OFFSET)
          = x.WALL_OBJ ∧
        e.x = ((HeistPPGame.reset_off_x x agent g r + i : Int) : ℚ) + 1/2 ∧
        e.y = ((HeistPPGame.reset_off_y x agent g r + j : Int) : ℚ) + 1/2 := by
  intro e he hz
  rw [HeistPPGame.reset_created_eq x agent g r hagent] at he
  rcases List.mem_append.mp he with he | he
  · have hloop := (HeistPPGame.reset_loop_hazards x (HeistPPGame.reset_setup x agent g r).1
      agent (HeistPPGame.reset_maze x agent g r) (HeistPPGame.reset_off_x x agent g r)
      (HeistPPGame.reset_off_y x agent g r) (HeistPPGame.maze_cells g.world_dim)
      (HeistPPGame.maze_cells_nodup _) (HeistPPGame.reset_start x agent g r)
      (by rw [HeistPPGame.reset_start_length]; exact hagent)
      (HeistPPGame.reset_final x agent g r) rfl).2
    rw [HeistPPGame.reset_start_length] at hloop
    obtain ⟨c, hc, p1, p2, p3, _⟩ := hloop e he hz
    obtain ⟨hi, hj⟩ := (HeistPPGame.mem_maze_cells g.world_dim c).mp hc
    exact ⟨c.1, c.2, hi, hj, p1, p2, p3⟩
  · obtain ⟨i, _, hi⟩ := List.mem_map.mp he
    rw [← hi, HeistPPGame.ring_key_type] at hz
    rcases hz with hz | hz
    · exact absurd hz (by decide)
    · exact absurd hz (by decide)

/-- The example generator keeps `randn(n)` inside `[0, n)`. -/
theorem exampleExternals_randn (s : Nat) (n : Int) (hn : 0 < n) :
    0 ≤ (exampleExternals.randn s n).1 ∧ (exampleExternals.randn s n).1 < n :=
  ⟨Int.emod_nonneg _ (ne_of_gt hn), Int.emod_lt_of_pos _ hn⟩

/-- Witness of C14: the example level, whose open cells stay open. -/
theorem HeistPPGame.reset_keeps_route_open_witness :
    (0 < (exampleLevel (1/2) (3/4) 1).entities.length ∧
      (exampleLevel (1/2) (3/4) 1).grid.w = (exampleLevel (1/2) (3/4) 1).world_dim ∧
      (exampleLevel (1/2) (3/4) 1).grid.h = (exampleLevel (1/2) (3/4) 1).world_dim ∧
      exampleExternals.SPACE ≠ exampleExternals.WALL_OBJ ∧
      LOCKED_DOOR ≠ exampleExternals.WALL_OBJ) ∧
    (∀ i j : Int, 0 ≤ i → i < (exampleLevel (1/2) (3/4) 1).world_dim → 0 ≤ j →
      j < (exampleLevel (1/2) (3/4) 1).world_dim →
      HeistPPGame.reset_maze exampleExternals 0 (exampleLevel (1/2) (3/4) 1) 0 (i + exampleExternals.MAZE_OFFSET)
        (j + exampleExternals.MAZE_OFFSET) ≠ exampleExternals.WALL_OBJ →
      ((HeistPPGame.game_reset exampleExternals 0 (exampleLevel (1/2) (3/4) 1) 0).1.grid.get_obj 51
          (HeistPPGame.reset_off_x exampleExternals 0 (exampleLevel (1/2) (3/4) 1) 0 + i) (HeistPPGame.reset_off_y exampleExternals 0 (exampleLevel (1/2) (3/4) 1) 0 + j)
            = exampleExternals.SPACE ∨
        (HeistPPGame.game_reset exampleExternals 0 (exampleLevel (1/2) (3/4) 1) 0).1.grid.get_obj 51
          (HeistPPGame.reset_off_x exampleExternals 0 (exampleLevel (1/2) (3/4) 1) 0 + i) (HeistPPGame.reset_off_y exampleExternals 0 (exampleLevel (1/2) (3/4) 1) 0 + j)
            = LOCKED_DOOR) ∧
      (HeistPPGame.game_reset exampleExternals 0 (exampleLevel (1/2) (3/4) 1) 0).1.grid.get_obj 51
          (HeistPPGame.reset_off_x exampleExternals 0 (exampleLevel (1/2) (3/4) 1) 0 + i) (HeistPPGame.reset_off_y exampleExternals 0 (exampleLevel (1/2) (3/4) 1) 0 + j)
            ≠ exampleExternals.WALL_OBJ) ∧
    (∀ path : List (Int × Int),
      (∀ c ∈ path, (0 ≤ c.1 ∧ c.1 < (exampleLevel (1/2) (3/4) 1).world_dim) ∧
        (0 ≤ c.2 ∧ c.2 < (exampleLevel (1/2) (3/4) 1).world_dim) ∧
        HeistPPGame.reset_maze exampleExternals 0 (exampleLevel (1/2) (3/4) 1) 0 (c.1 + exampleExternals.MAZE_OFFSET)
          (c.2 + exampleExternals.MAZE_OFFSET) ≠ exampleExternals.WALL_OBJ) →
      ∀ c ∈ path, (HeistPPGame.game_reset exampleExternals 0 (exampleLevel (1/2) (3/4) 1) 0).1.grid.get_obj 51
          (HeistPPGame.reset_off_x exampleExternals 0 (exampleLevel (1/2) (3/4) 1) 0 + c.1)
          (HeistPPGame.reset_off_y exampleExternals 0 (exampleLevel (1/2) (3/4) 1) 0 + c.2) ≠ exampleExternals.WALL_OBJ) :=
  ⟨⟨by decide, rfl, rfl, by decide, by decide⟩,
    HeistPPGame.reset_keeps_route_open exampleExternals 0 (exampleLevel (1/2) (3/4) 1) 0 51 exampleExternals_randn (by decide) rfl rfl rfl
      (by decide) (by decide)⟩

/-- Witness of C15 (as amended): the hazards of the example level. -/
theorem HeistPPGame.reset_hazards_on_walls_witness :
    0 < (exampleLevel (1/2) (3/4) 1).entities.length ∧
    ∀ e ∈ HeistPPGame.reset_created exampleExternals 0 (exampleLevel (1/2) (3/4) 1) 0, (e.type = WATER ∨ e.type = FIRE) →
      ∃ i j : Int, (0 ≤ i ∧ i < (exampleLevel (1/2) (3/4) 1).world_dim) ∧
        (0 ≤ j ∧ j < (exampleLevel (1/2) (3/4) 1).world_dim) ∧
        HeistPPGame.reset_maze exampleExternals 0 (exampleLevel (1/2) (3/4) 1) 0 (i + exampleExternals.MAZE_OFFSET)
          (j + exampleExternals.MAZE_OFFSET) = exampleExternals.WALL_OBJ ∧
        e.x = ((HeistPPGame.reset_off_x exampleExternals 0 (exampleLevel (1/2) (3/4) 1) 0 + i : Int) : ℚ) + 1/2 ∧
        e.y = ((HeistPPGame.reset_off_y exampleExternals 0 (exampleLevel (1/2) (3/4) 1) 0 + j : Int) : ℚ) + 1/2 :=
  ⟨by decide, HeistPPGame.reset_hazards_on_walls exampleExternals 0 (exampleLevel (1/2) (3/4) 1) 0 (by decide)⟩

/-- C15 as stated fails: in the example level `game_reset` creates a `WATER` entity at
`(3/2, 1/2)`, the centre of cell `(1, 0)`, and that cell is `WALL_OBJ`, not open, in the
generated maze. -/
theorem HeistPPGame.reset_hazards_counterexample :
    BasicAbstractGame.add_entity (3/2) (1/2) 0 0 (1/2) WATER
      ∈ HeistPPGame.reset_created exampleExternals 0 (exampleLevel (1/2) (3/4) 1) 0 ∧
    (BasicAbstractGame.add_entity (3/2) (1/2) 0 0 (1/2) WATER).type = WATER ∧
    (BasicAbstractGame.add_entity (3/2) (1/2) 0 0 (1/2) WATER).x
      = ((HeistPPGame.reset_off_x exampleExternals 0 (exampleLevel (1/2) (3/4) 1) 0 + 1 : Int) : ℚ) + 1/2 ∧
    (BasicAbstractGame.add_entity (3/2) (1/2) 0 0 (1/2) WATER).y
      = ((HeistPPGame.reset_off_y exampleExternals 0 (exampleLevel (1/2) (3/4) 1) 0 + 0 : Int) : ℚ) + 1/2 ∧
    HeistPPGame.reset_maze exampleExternals 0 (exampleLevel (1/2) (3/4) 1) 0 (1 + exampleExternals.MAZE_OFFSET)
      (0 + exampleExternals.MAZE_OFFSET) = exampleExternals.WALL_OBJ := by
  refine ⟨by decide!, rfl, by decide!, by decide!, by decide⟩

/-! ## Theorems: the key set and the terrain thresholds -/

/-- The key set after a collision: as it was, or with the entry of the theme set. -/
theorem HeistPPGame.handle_agent_collision_has_keys (SPACE : Int) (w : HeistPPGame) (i : Nat)
    (e : Entity) (hi : w.entities[i]? = some e) (hk : w.has_keys.length = 3)
    (h0 : 0 ≤ e.image_theme) (h2 : e.image_theme ≤ 2) :
    ∃ w', HeistPPGame.handle_agent_collision SPACE w i = some w' ∧
      (w'.has_keys = w.has_keys ∨ w'.has_keys = w.has_keys.set e.image_theme.toNat true) := by
  have hlt : e.image_theme.toNat < w.has_keys.length := by omega
  have hset : vec_set w.has_keys e.image_theme true
      = some (w.has_keys.set e.image_theme.toNat true) := by
    simp [vec_set, h0, hlt]
  have hget : vec_get w.has_keys e.image_theme = some (w.has_keys[e.image_theme.toNat]) := by
    simp [vec_get, h0, hlt]
  simp only [HeistPPGame.handle_agent_collision, BasicAbstractGame.handle_agent_collision, hi]
  by_cases t1 : e.type = EXIT
  · rw [if_pos t1]
    exact ⟨_, rfl, Or.inl rfl⟩
  · rw [if_neg t1]
    by_cases t2 : e.type = KEY
    · rw [if_pos t2, hset]
      simp only []
      split
      · exact ⟨_, rfl, Or.inr rfl⟩
      · exact ⟨_, rfl, Or.inr rfl⟩
    · rw [if_neg t2]
      by_cases t3 : e.type = LOCKED_DOOR
      · rw [if_pos t3, hget]
        simp only []
        cases w.has_keys[e.image_theme.toNat]
        · exact ⟨_, rfl, Or.inl rfl⟩
        · exact ⟨_, rfl, Or.inl rfl⟩
      · rw [if_neg t3]
        by_cases t4 : e.type = WATER
        · rw [if_pos t4]
          exact ⟨_, rfl, Or.inl rfl⟩
        · rw [if_neg t4]
          by_cases t5 : e.type = FIRE
          · rw [if_pos t5]
            exact ⟨_, rfl, Or.inl rfl⟩
          · rw [if_neg t5]
            exact ⟨_, rfl, Or.inl rfl⟩

/-- C19. Key-set invariant: `HeistPPGame::game_reset` leaves `has_keys` with exactly the 3
entries `false, false, false`; `handle_agent_collision`, on an entity of any type whose
theme is in `0..2`, keeps the length 3 and leaves `true` every entry that was `true`: the
set of collected keys only grows. -/
theorem HeistPPGame.key_set_invariant {R : Type} (x : HeistExternals R) (agent : Nat)
    (g : HeistPPGame) (r : R) (SPACE : Int) (w : HeistPPGame) (i : Nat) (e : Entity)
    (hi : w.entities[i]? = some e) (hk : w.has_keys.length = 3)
    (h0 : 0 ≤ e.image_theme) (h2 : e.image_theme ≤ 2) :
    (HeistPPGame.game_reset x agent g r).1.has_keys = [false, false, false] ∧
    (HeistPPGame.game_reset x agent g r).1.has_keys.length = 3 ∧
    ∃ w', HeistPPGame.handle_agent_collision SPACE w i = some w' ∧
      w'.has_keys.length = 3 ∧
      ∀ u : Int, vec_get w.has_keys u = some true → vec_get w'.has_keys u = some true := by
  refine ⟨rfl, rfl, ?_⟩
  obtain ⟨w', hw', hkeys⟩ :=
    HeistPPGame.handle_agent_collision_has_keys SPACE w i e hi hk h0 h2
  refine ⟨w', hw', ?_, ?_⟩
  · rcases hkeys with h | h
    · rw [h, hk]
    · rw [h, List.length_set, hk]
  · intro u hu
    rcases hkeys with h | h
    · rw [h]
      exact hu
    · rw [h]
      unfold vec_get at hu ⊢
      split
      · rename_i hu0
        rw [if_pos hu0] at hu
        by_cases hne : e.image_theme.toNat = u.toNat
        · rw [hne, List.getElem?_set_self]
          have := List.getElem?_eq_some_iff.mp hu
          obtain ⟨hlt, _⟩ := this
          exact hlt
        · rw [List.getElem?_set_ne hne]
          exact hu
      · rename_i hu0
        rw [if_neg hu0] at hu
        exact absurd hu (by simp)

/-- Witness of C19: the key of theme 1 is collected while key 0 is already held. -/
theorem HeistPPGame.key_set_invariant_witness :
    (HeistPPGame.game_reset exampleExternals 0 (exampleLevel 1 1 1) 0).1.has_keys
      = [false, false, false] ∧
    (HeistPPGame.game_reset exampleExternals 0 (exampleLevel 1 1 1) 0).1.has_keys.length = 3 ∧
    ∃ w', HeistPPGame.handle_agent_collision 100 (heistExample [true, false, false]) 0
        = some w' ∧
      w'.has_keys.length = 3 ∧
      ∀ u : Int, vec_get (heistExample [true, false, false]).has_keys u = some true →
        vec_get w'.has_keys u = some true :=
  HeistPPGame.key_set_invariant exampleExternals 0 (exampleLevel 1 1 1) 0 100
    (heistExample [true, false, false]) 0 (mkEntity KEY 1 (1/2) (1/2)) rfl rfl
    (by decide) (by decide)

/-- The thresholds `init_chances` computes from non-negative probabilities. -/
theorem HeistPPGame.init_chances_thresholds (g : HeistPPGame) (hw : 0 ≤ g.wall_chance)
    (hwa : 0 ≤ g.water_chance) (hf : 0 ≤ g.fire_chance) :
    0 ≤ (HeistPPGame.init_chances g).wall_chance ∧
    (HeistPPGame.init_chances g).wall_chance ≤ (HeistPPGame.init_chances g).water_chance ∧
    (HeistPPGame.init_chances g).water_chance ≤ (HeistPPGame.init_chances g).fire_chance ∧
    (HeistPPGame.init_chances g).fire_chance ≤ 1 ∧
    (HeistPPGame.init_chances g).fire_chance
      = min (g.wall_chance + g.water_chance + g.fire_chance) 1 ∧
    (g.wall_chance + g.water_chance + g.fire_chance > 1 →
      (HeistPPGame.init_chances g).wall_chance
        = g.wall_chance / (g.wall_chance + g.water_chance + g.fire_chance) ∧
      (HeistPPGame.init_chances g).water_chance - (HeistPPGame.init_chances g).wall_chance
        = g.water_chance / (g.wall_chance + g.water_chance + g.fire_chance) ∧
      (HeistPPGame.init_chances g).fire_chance - (HeistPPGame.init_chances g).water_chance
        = g.fire_chance / (g.wall_chance + g.water_chance + g.fire_chance)) ∧
    (g.wall_chance + g.water_chance + g.fire_chance ≤ 1 →
      (HeistPPGame.init_chances g).wall_chance = g.wall_chance ∧
      (HeistPPGame.init_chances g).water_chance = g.wall_chance + g.water_chance ∧
      (HeistPPGame.init_chances g).fire_chance
        = g.wall_chance + g.water_chance + g.fire_chance) := by
  by_cases hs : g.wall_chance + g.water_chance + g.fire_chance > 1
  · have hpos : 0 < g.wall_chance + g.water_chance + g.fire_chance := by linarith
    have hne : g.wall_chance + g.water_chance + g.fire_chance ≠ 0 := ne_of_gt hpos
    have e1 : (HeistPPGame.init_chances g).wall_chance
        = g.wall_chance / (g.wall_chance + g.water_chance + g.fire_chance) := by
      simp [HeistPPGame.init_chances, hs]
    have e2 : (HeistPPGame.init_chances g).water_chance
        = g.water_chance / (g.wall_chance + g.water_chance + g.fire_chance)
          + g.wall_chance / (g.wall_chance + g.water_chance + g.fire_chance) := by
      simp [HeistPPGame.init_chances, hs]
    have e3 : (HeistPPGame.init_chances g).fire_chance
        = g.fire_chance / (g.wall_chance + g.water_chance + g.fire_chance)
          + (g.water_chance / (g.wall_chance + g.water_chance + g.fire_chance)
            + g.wall_chance / (g.wall_chance + g.water_chance + g.fire_chance)) := by
      simp [HeistPPGame.init_chances, hs]
    have e3' : (HeistPPGame.init_chances g).fire_chance = 1 := by
      rw [e3]
      field_simp
      ring
    have d1 : 0 ≤ g.wall_chance / (g.wall_chance + g.water_chance + g.fire_chance) :=
      div_nonneg hw (le_of_lt hpos)
    have d2 : 0 ≤ g.water_chance / (g.wall_chance + g.water_chance + g.fire_chance) :=
      div_nonneg hwa (le_of_lt hpos)
    have d3 : 0 ≤ g.fire_chance / (g.wall_chance + g.water_chance + g.fire_chance) :=
      div_nonneg hf (le_of_lt hpos)
    refine ⟨?_, ?_, ?_, ?_, ?_, ?_, ?_⟩
    · rw [e1]; exact d1
    · rw [e1, e2]; linarith
    · rw [e2, e3]; linarith
    · rw [e3']
    · rw [e3', min_eq_right (le_of_lt hs)]
    · intro _
      refine ⟨e1, ?_, ?_⟩
      · rw [e1, e2]; ring
      · rw [e2, e3]; ring
    · intro hle
      exact absurd hs (not_lt.mpr hle)
  · have hle : g.wall_chance + g.water_chance + g.fire_chance ≤ 1 := not_lt.mp hs
    have e1 : (HeistPPGame.init_chances g).wall_chance = g.wall_chance := by
      simp [HeistPPGame.init_chances, hs]
    have e2 : (HeistPPGame.init_chances g).water_chance
        = g.water_chance + g.wall_chance := by
      simp [HeistPPGame.init_chances, hs]
    have e3 : (HeistPPGame.init_chances g).fire_chance
        = g.fire_chance + (g.water_chance + g.wall_chance) := by
      simp [HeistPPGame.init_chances, hs]
    refine ⟨?_, ?_, ?_, ?_, ?_, ?_, ?_⟩
    · rw [e1]; exact hw
    · rw [e1, e2]; linarith
    · rw [e2, e3]; linarith
    · rw [e3]; linarith
    · rw [e3, min_eq_left hle]; ring
    · intro hgt
      exact absurd hgt hs
    · intro _
      exact ⟨e1, by rw [e2]; ring, by rw [e3]; ring⟩

/-- The state `game_init` returns when the counts pass the three `fassert`s. -/
theorem HeistPPGame.game_init_accepts (o : HeistOptions) (g : HeistPPGame)
    (hcnt : o.num_doors ≤ o.num_keys ∧ o.num_keys ≤ 3) :
    ∃ g', HeistPPGame.game_init o g = some g' ∧
      g'.wall_chance = (HeistPPGame.init_chances
        { g with wall_chance := o.wall_chance, water_chance := o.water_chance,
                 fire_chance := o.fire_chance, num_keys := o.num_keys,
                 num_doors := o.num_doors }).wall_chance ∧
      g'.water_chance = (HeistPPGame.init_chances
        { g with wall_chance := o.wall_chance, water_chance := o.water_chance,
                 fire_chance := o.fire_chance, num_keys := o.num_keys,
                 num_doors := o.num_doors }).water_chance ∧
      g'.fire_chance = (HeistPPGame.init_chances
        { g with wall_chance := o.wall_chance, water_chance := o.water_chance,
                 fire_chance := o.fire_chance, num_keys := o.num_keys,
                 num_doors := o.num_doors }).fire_chance := by
  obtain ⟨h1, h2⟩ := hcnt
  have h3 : o.num_doors ≤ 3 := le_trans h1 h2
  unfold HeistPPGame.game_init
  simp only []
  rw [if_neg (not_not.mpr h1), if_neg (not_not.mpr h2), if_neg (not_not.mpr h3)]
  exact ⟨_, rfl, rfl, rfl, rfl⟩

/-- With `wall_chance = 1` and draws of `rand01` below 1, `game_reset` creates no hazard. -/
theorem HeistPPGame.reset_no_hazards {R : Type} (x : HeistExternals R) (agent : Nat)
    (g : HeistPPGame) (r : R) (hdraw : ∀ s, (x.rand01 s).1 < 1)
    (hagent : agent < g.entities.length) (hwall : g.wall_chance = 1) :
    ∀ e ∈ HeistPPGame.reset_created x agent g r, e.type ≠ WATER ∧ e.type ≠ FIRE := by
  intro e he
  rw [HeistPPGame.reset_created_eq x agent g r hagent] at he
  rcases List.mem_append.mp he with he | he
  · have hloop := (HeistPPGame.reset_loop_hazards x (HeistPPGame.reset_setup x agent g r).1
      agent (HeistPPGame.reset_maze x agent g r) (HeistPPGame.reset_off_x x agent g r)
      (HeistPPGame.reset_off_y x agent g r) (HeistPPGame.maze_cells g.world_dim)
      (HeistPPGame.maze_cells_nodup _) (HeistPPGame.reset_start x agent g r)
      (by rw [HeistPPGame.reset_start_length]; exact hagent)
      (HeistPPGame.reset_final x agent g r) rfl).2
    rw [HeistPPGame.reset_start_length] at hloop
    have hnot : ¬ (e.type = WATER ∨ e.type = FIRE) := by
      intro hz
      obtain ⟨c, _, _, _, _, s, hs⟩ := hloop e he hz
      apply hs
      show (x.rand01 s).1 < g.wall_chance
      rw [hwall]
      exact hdraw s
    exact ⟨fun h => hnot (Or.inl h), fun h => hnot (Or.inr h)⟩
  · obtain ⟨i, _, hi⟩ := List.mem_map.mp he
    rw [← hi, HeistPPGame.ring_key_type]
    exact ⟨by decide, by decide⟩

/-- C20. Terrain thresholds in exact arithmetic: for non-negative option values with sum
`s` (and counts that pass the `fassert`s), `game_init` stores cumulative thresholds with
`0 <= wall_chance <= water_chance <= fire_chance <= 1` and `fire_chance = min(s, 1)`, the
three probabilities scaled by `1/s` when `s > 1` and unscaled otherwise; the default
options `(1, 0, 0)` give the thresholds `1, 1, 1`; and with `wall_chance = 1` and draws
of `rand01` below 1, `game_reset` creates no `WATER` and no `FIRE` entity. -/
theorem HeistPPGame.terrain_thresholds {R : Type} (o : HeistOptions) (g : HeistPPGame)
    (x : HeistExternals R) (agent : Nat) (g1 : HeistPPGame) (r : R)
    (hw : 0 ≤ o.wall_chance) (hwa : 0 ≤ o.water_chance) (hf : 0 ≤ o.fire_chance)
    (hcnt : o.num_doors ≤ o.num_keys ∧ o.num_keys ≤ 3)
    (hdraw : ∀ s, (x.rand01 s).1 < 1) (hagent : agent < g1.entities.length)
    (hwall : g1.wall_chance = 1) :
    (∃ g', HeistPPGame.game_init o g = some g' ∧
      0 ≤ g'.wall_chance ∧ g'.wall_chance ≤ g'.water_chance ∧
      g'.water_chance ≤ g'.fire_chance ∧ g'.fire_chance ≤ 1 ∧
      g'.fire_chance = min (o.wall_chance + o.water_chance + o.fire_chance) 1 ∧
      (o.wall_chance + o.water_chance + o.fire_chance > 1 →
        g'.wall_chance = o.wall_chance / (o.wall_chance + o.water_chance + o.fire_chance) ∧
        g'.water_chance - g'.wall_chance
          = o.water_chance / (o.wall_chance + o.water_chance + o.fire_chance) ∧
        g'.fire_chance - g'.water_chance
          = o.fire_chance / (o.wall_chance + o.water_chance + o.fire_chance)) ∧
      (o.wall_chance + o.water_chance + o.fire_chance ≤ 1 →
        g'.wall_chance = o.wall_chance ∧
        g'.water_chance = o.wall_chance + o.water_chance ∧
        g'.fire_chance = o.wall_chance + o.water_chance + o.fire_chance)) ∧
    (∃ g', HeistPPGame.game_init HeistOptions.defaults g = some g' ∧
      g'.wall_chance = 1 ∧ g'.water_chance = 1 ∧ g'.fire_chance = 1) ∧
    (∀ e ∈ HeistPPGame.reset_created x agent g1 r, e.type ≠ WATER ∧ e.type ≠ FIRE) := by
  refine ⟨?_, ?_, HeistPPGame.reset_no_hazards x agent g1 r hdraw hagent hwall⟩
  · obtain ⟨g', hg', e1, e2, e3⟩ := HeistPPGame.game_init_accepts o g hcnt
    obtain ⟨t1, t2, t3, t4, t5, t6, t7⟩ := HeistPPGame.init_chances_thresholds
      { g with wall_chance := o.wall_chance, water_chance := o.water_chance,
               fire_chance := o.fire_chance, num_keys := o.num_keys,
               num_doors := o.num_doors } hw hwa hf
    refine ⟨g', hg', ?_, ?_, ?_, ?_, ?_, ?_, ?_⟩
    · rw [e1]; exact t1
    · rw [e1, e2]; exact t2
    · rw [e2, e3]; exact t3
    · rw [e3]; exact t4
    · rw [e3]; exact t5
    · rw [e1, e2, e3]; exact t6
    · rw [e1, e2, e3]; exact t7
  · obtain ⟨g', hg', e1, e2, e3⟩ := HeistPPGame.game_init_accepts HeistOptions.defaults g
      ⟨by decide, by decide⟩
    obtain ⟨_, _, _, _, _, _, t7⟩ := HeistPPGame.init_chances_thresholds
      { g with wall_chance := HeistOptions.defaults.wall_chance,
               water_chance := HeistOptions.defaults.water_chance,
               fire_chance := HeistOptions.defaults.fire_chance,
               num_keys := HeistOptions.defaults.num_keys,
               num_doors := HeistOptions.defaults.num_doors }
      (by norm_num [HeistOptions.defaults]) (by norm_num [HeistOptions.defaults])
      (by norm_num [HeistOptions.defaults])
    obtain ⟨u1, u2, u3⟩ := t7 (by norm_num [HeistOptions.defaults])
    refine ⟨g', hg', ?_, ?_, ?_⟩
    · rw [e1, u1]; rfl
    · rw [e2, u2]; norm_num [HeistOptions.defaults]
    · rw [e3, u3]; norm_num [HeistOptions.defaults]

/-- The draws of the example generator lie below 1. -/
theorem exampleExternals_rand01 (s : Nat) : (exampleExternals.rand01 s).1 < 1 := by
  show ((s % 3 : Nat) : ℚ) / 4 + 1/4 < 1
  have h : s % 3 < 3 := Nat.mod_lt s (by decide)
  have h2 : ((s % 3 : Nat) : ℚ) ≤ 2 := by
    have : s % 3 ≤ 2 := by omega
    exact_mod_cast this
  linarith

/-- Witness of C20: the probabilities `1, 1, 2` of sum 4, and the example level with
`wall_chance = 1`. -/
theorem HeistPPGame.terrain_thresholds_witness :
    (0 ≤ ({ HeistOptions.defaults with wall_chance := 1, water_chance := 1, fire_chance := 2 } : HeistOptions).wall_chance ∧ 0 ≤ ({ HeistOptions.defaults with wall_chance := 1, water_chance := 1, fire_chance := 2 } : HeistOptions).water_chance ∧ 0 ≤ ({ HeistOptions.defaults with wall_chance := 1, water_chance := 1, fire_chance := 2 } : HeistOptions).fire_chance ∧
      (exampleLevel 1 1 1).wall_chance = 1) ∧
    (∃ g', HeistPPGame.game_init ({ HeistOptions.defaults with wall_chance := 1, water_chance := 1, fire_chance := 2 } : HeistOptions) (heistExample []) = some g' ∧
      0 ≤ g'.wall_chance ∧ g'.wall_chance ≤ g'.water_chance ∧
      g'.water_chance ≤ g'.fire_chance ∧ g'.fire_chance ≤ 1 ∧
      g'.fire_chance = min (({ HeistOptions.defaults with wall_chance := 1, water_chance := 1, fire_chance := 2 } : HeistOptions).wall_chance + ({ HeistOptions.defaults with wall_chance := 1, water_chance := 1, fire_chance := 2 } : HeistOptions).water_chance + ({ HeistOptions.defaults with wall_chance := 1, water_chance := 1, fire_chance := 2 } : HeistOptions).fire_chance) 1 ∧
      (({ HeistOptions.defaults with wall_chance := 1, water_chance := 1, fire_chance := 2 } : HeistOptions).wall_chance + ({ HeistOptions.defaults with wall_chance := 1, water_chance := 1, fire_chance := 2 } : HeistOptions).water_chance + ({ HeistOptions.defaults with wall_chance := 1, water_chance := 1, fire_chance := 2 } : HeistOptions).fire_chance > 1 →
        g'.wall_chance
          = ({ HeistOptions.defaults with wall_chance := 1, water_chance := 1, fire_chance := 2 } : HeistOptions).wall_chance / (({ HeistOptions.defaults with wall_chance := 1, water_chance := 1, fire_chance := 2 } : HeistOptions).wall_chance + ({ HeistOptions.defaults with wall_chance := 1, water_chance := 1, fire_chance := 2 } : HeistOptions).water_chance + ({ HeistOptions.defaults with wall_chance := 1, water_chance := 1, fire_chance := 2 } : HeistOptions).fire_chance) ∧
        g'.water_chance - g'.wall_chance
          = ({ HeistOptions.defaults with wall_chance := 1, water_chance := 1, fire_chance := 2 } : HeistOptions).water_chance / (({ HeistOptions.defaults with wall_chance := 1, water_chance := 1, fire_chance := 2 } : HeistOptions).wall_chance + ({ HeistOptions.defaults with wall_chance := 1, water_chance := 1, fire_chance := 2 } : HeistOptions).water_chance + ({ HeistOptions.defaults with wall_chance := 1, water_chance := 1, fire_chance := 2 } : HeistOptions).fire_chance) ∧
        g'.fire_chance - g'.water_chance
          = ({ HeistOptions.defaults with wall_chance := 1, water_chance := 1, fire_chance := 2 } : HeistOptions).fire_chance / (({ HeistOptions.defaults with wall_chance := 1, water_chance := 1, fire_chance := 2 } : HeistOptions).wall_chance + ({ HeistOptions.defaults with wall_chance := 1, water_chance := 1, fire_chance := 2 } : HeistOptions).water_chance + ({ HeistOptions.defaults with wall_chance := 1, water_chance := 1, fire_chance := 2 } : HeistOptions).fire_chance)) ∧
      (({ HeistOptions.defaults with wall_chance := 1, water_chance := 1, fire_chance := 2 } : HeistOptions).wall_chance + ({ HeistOptions.defaults with wall_chance := 1, water_chance := 1, fire_chance := 2 } : HeistOptions).water_chance + ({ HeistOptions.defaults with wall_chance := 1, water_chance := 1, fire_chance := 2 } : HeistOptions).fire_chance ≤ 1 →
        g'.wall_chance = ({ HeistOptions.defaults with wall_chance := 1, water_chance := 1, fire_chance := 2 } : HeistOptions).wall_chance ∧
        g'.water_chance = ({ HeistOptions.defaults with wall_chance := 1, water_chance := 1, fire_chance := 2 } : HeistOptions).wall_chance + ({ HeistOptions.defaults with wall_chance := 1, water_chance := 1, fire_chance := 2 } : HeistOptions).water_chance ∧
        g'.fire_chance = ({ HeistOptions.defaults with wall_chance := 1, water_chance := 1, fire_chance := 2 } : HeistOptions).wall_chance + ({ HeistOptions.defaults with wall_chance := 1, water_chance := 1, fire_chance := 2 } : HeistOptions).water_chance + ({ HeistOptions.defaults with wall_chance := 1, water_chance := 1, fire_chance := 2 } : HeistOptions).fire_chance)) ∧
    (∃ g', HeistPPGame.game_init HeistOptions.defaults (heistExample []) = some g' ∧
      g'.wall_chance = 1 ∧ g'.water_chance = 1 ∧ g'.fire_chance = 1) ∧
    (∀ e ∈ HeistPPGame.reset_created exampleExternals 0 (exampleLevel 1 1 1) 0,
      e.type ≠ WATER ∧ e.type ≠ FIRE) :=
  ⟨⟨by norm_num [HeistOptions.defaults], by norm_num [HeistOptions.defaults],
      by norm_num [HeistOptions.defaults], rfl⟩,
    HeistPPGame.terrain_thresholds ({ HeistOptions.defaults with wall_chance := 1, water_chance := 1, fire_chance := 2 } : HeistOptions) (heistExample []) exampleExternals 0
      (exampleLevel 1 1 1) 0 (by norm_num [HeistOptions.defaults])
      (by norm_num [HeistOptions.defaults]) (by norm_num [HeistOptions.defaults])
      ⟨by decide, by decide⟩ exampleExternals_rand01 (by decide) rfl⟩

/-! ## Lemmas: doors and their grid cells -/

section door_lemmas

/-- The conversion `int(n + 0.5)` of the centre of a cell gives the cell. -/
theorem float_to_int_half (n : Int) (hn : 0 ≤ n) : float_to_int ((n : ℚ) + 1/2) = n := by
  have hv : (0 : ℚ) ≤ (n : ℚ) + 1/2 := by
    have : (0 : ℚ) ≤ (n : ℚ) := by exact_mod_cast hn
    linarith
  have hnum : 0 ≤ ((n : ℚ) + 1/2).num := Rat.num_nonneg.mpr hv
  unfold float_to_int
  rw [Int.tdiv_eq_ediv hnum (by exact_mod_cast Nat.zero_le _), ← Rat.floor_def,
    Int.floor_eq_iff]
  constructor
  · linarith
  · linarith

/-- A write through a pointer that keeps the type keeps the types of all entities. -/
theorem update_entity_types (l : List Entity) (i : Nat) (f : Entity → Entity)
    (hf : ∀ a, (f a).type = a.type) :
    (update_entity l i f).map Entity.type = l.map Entity.type := by
  unfold update_entity
  split
  · rename_i e he
    apply List.ext_getElem?
    intro j
    simp only [List.getElem?_map, List.getElem?_set]
    by_cases hij : i = j
    · subst hij
      rw [if_pos rfl, he]
      have hlt : i < l.length := (List.getElem?_eq_some_iff.mp he).1
      rw [if_pos hlt]
      simp [hf]
    · rw [if_neg hij]
  · rfl

/-- The value written stays in a cell that already holds it. -/
theorem Grid.get_obj_set_obj_stable (gr : Grid) (oob x y v cx cy : Int)
    (hlen : gr.data.length = (gr.w * gr.h).toNat) (hv : gr.get_obj oob cx cy = v) :
    (gr.set_obj x y v).get_obj oob cx cy = v := by
  by_cases hxy : cx = x ∧ cy = y
  · obtain ⟨h1, h2⟩ := hxy
    subst h1 h2
    by_cases hc : gr.contains cx cy = true
    · exact Grid.get_obj_set_obj_same gr oob cx cy v hlen hc
    · unfold Grid.set_obj
      rw [if_neg hc]
      exact hv
  · rw [Grid.get_obj_set_obj_ne gr oob x y v cx cy hxy]
    exact hv

theorem HeistPPGame.clear_door_cells_cons (SPACE theme : Int) (a : Entity)
    (rest : List Entity) (gr : Grid) :
    HeistPPGame.clear_door_cells SPACE theme (a :: rest) gr
      = HeistPPGame.clear_door_cells SPACE theme rest
          (if a.type ≠ LOCKED_DOOR then gr
           else if a.image_theme ≠ theme then gr
           else gr.set_obj (float_to_int a.x) (float_to_int a.y) SPACE) := rfl

theorem HeistPPGame.clear_door_cells_nil (SPACE theme : Int) (gr : Grid) :
    HeistPPGame.clear_door_cells SPACE theme [] gr = gr := rfl

/-- Clearing the cells of the doors of a theme keeps the shape of the grid. -/
theorem HeistPPGame.clear_door_cells_shape (SPACE theme : Int) (ents : List Entity)
    (gr : Grid) :
    (HeistPPGame.clear_door_cells SPACE theme ents gr).w = gr.w ∧
    (HeistPPGame.clear_door_cells SPACE theme ents gr).h = gr.h ∧
    (HeistPPGame.clear_door_cells SPACE theme ents gr).data.length = gr.data.length := by
  induction ents generalizing gr with
  | nil => exact ⟨rfl, rfl, rfl⟩
  | cons a rest ih =>
    rw [HeistPPGame.clear_door_cells_cons]
    obtain ⟨h1, h2, h3⟩ := ih
      (if a.type ≠ LOCKED_DOOR then gr
       else if a.image_theme ≠ theme then gr
       else gr.set_obj (float_to_int a.x) (float_to_int a.y) SPACE)
    rw [h1, h2, h3]
    split_ifs
    · exact ⟨rfl, rfl, rfl⟩
    · exact ⟨rfl, rfl, rfl⟩
    · exact ⟨Grid.set_obj_w _ _ _ _, Grid.set_obj_h _ _ _ _, Grid.set_obj_length _ _ _ _⟩

/-- A cell on which no door of the theme stands is left as it was. -/
theorem HeistPPGame.clear_door_cells_untouched (SPACE theme oob cx cy : Int)
    (ents : List Entity) (gr : Grid)
    (hno : ∀ d ∈ ents, d.type = LOCKED_DOOR → d.image_theme = theme →
      ¬ (cx = float_to_int d.x ∧ cy = float_to_int d.y)) :
    (HeistPPGame.clear_door_cells SPACE theme ents gr).get_obj oob cx cy
      = gr.get_obj oob cx cy := by
  induction ents generalizing gr with
  | nil => rfl
  | cons a rest ih =>
    rw [HeistPPGame.clear_door_cells_cons, ih _ (fun d hd => hno d (List.mem_cons_of_mem _ hd))]
    split_ifs with h1 h2
    · rfl
    · rfl
    · exact Grid.get_obj_set_obj_ne gr oob _ _ SPACE cx cy
        (hno a (List.mem_cons_self _ _) (not_not.mp h1) (not_not.mp h2))

/-- A cell that holds `SPACE` keeps it. -/
theorem HeistPPGame.clear_door_cells_stable (SPACE theme oob cx cy : Int)
    (ents : List Entity) (gr : Grid) (hlen : gr.data.length = (gr.w * gr.h).toNat)
    (hv : gr.get_obj oob cx cy = SPACE) :
    (HeistPPGame.clear_door_cells SPACE theme ents gr).get_obj oob cx cy = SPACE := by
  induction ents generalizing gr with
  | nil => exact hv
  | cons a rest ih =>
    rw [HeistPPGame.clear_door_cells_cons]
    apply ih
    · split_ifs
      · exact hlen
      · exact hlen
      · rw [Grid.set_obj_length, Grid.set_obj_w, Grid.set_obj_h]
        exact hlen
    · split_ifs
      · exact hv
      · exact hv
      · exact Grid.get_obj_set_obj_stable gr oob _ _ SPACE cx cy hlen hv

/-- The cell of every door of the theme holds `SPACE` afterwards. -/
theorem HeistPPGame.clear_door_cells_cleared (SPACE theme oob : Int) (ents : List Entity)
    (gr : Grid) (hlen : gr.data.length = (gr.w * gr.h).toNat) (d : Entity) (hd : d ∈ ents)
    (ht : d.type = LOCKED_DOOR) (hth : d.image_theme = theme)
    (hc : gr.contains (float_to_int d.x) (float_to_int d.y) = true) :
    (HeistPPGame.clear_door_cells SPACE theme ents gr).get_obj oob
      (float_to_int d.x) (float_to_int d.y) = SPACE := by
  induction ents generalizing gr with
  | nil => simp at hd
  | cons a rest ih =>
    rw [HeistPPGame.clear_door_cells_cons]
    have hlen' : (if a.type ≠ LOCKED_DOOR then gr
       else if a.image_theme ≠ theme then gr
       else gr.set_obj (float_to_int a.x) (float_to_int a.y) SPACE).data.length
        = ((if a.type ≠ LOCKED_DOOR then gr
           else if a.image_theme ≠ theme then gr
           else gr.set_obj (float_to_int a.x) (float_to_int a.y) SPACE).w
          * (if a.type ≠ LOCKED_DOOR then gr
           else if a.image_theme ≠ theme then gr
           else gr.set_obj (float_to_int a.x) (float_to_int a.y) SPACE).h).toNat := by
      split_ifs
      · exact hlen
      · exact hlen
      · rw [Grid.set_obj_length, Grid.set_obj_w, Grid.set_obj_h]
        exact hlen
    rcases List.mem_cons.mp hd with hda | hdr
    · subst hda
      apply HeistPPGame.clear_door_cells_stable SPACE theme oob _ _ rest _ hlen'
      rw [if_neg (not_not.mpr ht), if_neg (not_not.mpr hth)]
      exact Grid.get_obj_set_obj_same gr oob _ _ SPACE hlen hc
    · apply ih _ hlen' hdr
      split_ifs
      · exact hc
      · exact hc
      · rw [Grid.set_obj_contains]
        exact hc

end door_lemmas

section door_position_lemmas

variable {R : Type} (x : HeistExternals R) (g : HeistPPGame)

/-- The object step keeps the types of the entities in front of `n0`. -/
theorem HeistPPGame.reset_object_take_types (agent n0 : Nat) (obj cx cy : Int)
    (st : ResetState R) (hn0 : n0 ≤ st.entities.length) :
    ((HeistPPGame.reset_object x g agent obj cx cy st).entities.take n0).map Entity.type
        = (st.entities.take n0).map Entity.type ∧
    n0 ≤ (HeistPPGame.reset_object x g agent obj cx cy st).entities.length := by
  unfold HeistPPGame.reset_object
  simp only []
  have happ : ∀ new : List Entity,
      ((st.entities ++ new).take n0).map Entity.type = (st.entities.take n0).map Entity.type ∧
      n0 ≤ (st.entities ++ new).length := by
    intro new
    rw [List.take_append_of_le_length hn0, List.length_append]
    exact ⟨rfl, by omega⟩
  by_cases h1 : obj ≥ x.KEY_OBJ
  · rw [if_pos h1]
    exact happ _
  · rw [if_neg h1]
    by_cases h2 : obj ≥ x.DOOR_OBJ
    · rw [if_pos h2]
      by_cases h3 : st.num_placed_doors < g.num_doors
      · rw [if_pos h3]
        cases g.grid_step
        · exact happ _
        · exact happ _
      · rw [if_neg h3]
        exact ⟨rfl, hn0⟩
    · rw [if_neg h2]
      by_cases h4 : obj = x.EXIT_OBJ
      · rw [if_pos h4]
        exact happ _
      · rw [if_neg h4]
        by_cases h5 : obj = x.AGENT_OBJ
        · rw [if_pos h5]
          refine ⟨?_, ?_⟩
          · rw [List.map_take, List.map_take]
            refine congrArg (List.take n0) (update_entity_types st.entities agent _ ?_)
            intro a
            rfl
          · rw [update_entity_length]
            exact hn0
        · rw [if_neg h5]
          exact ⟨rfl, hn0⟩

/-- The step for a cell keeps the types of the entities it found in front of `n0`. -/
theorem HeistPPGame.reset_cell_take_types (agent n0 : Nat) (maze : Int → Int → Int)
    (off_x off_y : Int) (st : ResetState R) (c : Int × Int)
    (hn0 : n0 ≤ st.entities.length) :
    ((HeistPPGame.reset_cell x g agent maze off_x off_y st c).entities.take n0).map
        Entity.type = (st.entities.take n0).map Entity.type ∧
    n0 ≤ (HeistPPGame.reset_cell x g agent maze off_x off_y st c).entities.length := by
  obtain ⟨tnew, ht, _⟩ := HeistPPGame.reset_terrain_entities x g
    (maze (c.1 + x.MAZE_OFFSET) (c.2 + x.MAZE_OFFSET)) (off_x + c.1) (off_y + c.2) st
  have hn1 : n0 ≤ (HeistPPGame.reset_terrain x g
      (maze (c.1 + x.MAZE_OFFSET) (c.2 + x.MAZE_OFFSET)) (off_x + c.1) (off_y + c.2)
        st).entities.length := by
    rw [ht, List.length_append]
    omega
  have htake : ((HeistPPGame.reset_terrain x g
      (maze (c.1 + x.MAZE_OFFSET) (c.2 + x.MAZE_OFFSET)) (off_x + c.1) (off_y + c.2)
        st).entities.take n0).map Entity.type = (st.entities.take n0).map Entity.type := by
    rw [ht, List.take_append_of_le_length hn0]
  obtain ⟨o1, o2⟩ := HeistPPGame.reset_object_take_types x g agent n0
    (maze (c.1 + x.MAZE_OFFSET) (c.2 + x.MAZE_OFFSET)) (off_x + c.1) (off_y + c.2)
    (HeistPPGame.reset_terrain x g (maze (c.1 + x.MAZE_OFFSET) (c.2 + x.MAZE_OFFSET))
      (off_x + c.1) (off_y + c.2) st) hn1
  exact ⟨o1.trans htake, o2⟩

/-- The loop over the cells keeps the types of the entities it found. -/
theorem HeistPPGame.reset_loop_take_types (agent n0 : Nat) (maze : Int → Int → Int)
    (off_x off_y : Int) (cells : List (Int × Int)) (st : ResetState R)
    (hn0 : n0 ≤ st.entities.length) :
    (((cells.foldl (HeistPPGame.reset_cell x g agent maze off_x off_y) st).entities.take
        n0).map Entity.type = (st.entities.take n0).map Entity.type) ∧
    n0 ≤ (cells.foldl (HeistPPGame.reset_cell x g agent maze off_x off_y) st).entities.length
    := by
  induction cells generalizing st with
  | nil => exact ⟨rfl, hn0⟩
  | cons c rest ih =>
    obtain ⟨h1, h2⟩ := HeistPPGame.reset_cell_take_types x g agent n0 maze off_x off_y st c hn0
    obtain ⟨h3, h4⟩ := ih (HeistPPGame.reset_cell x g agent maze off_x off_y st c) h2
    exact ⟨h3.trans h1, h4⟩

/-- The `KEY` branch of `handle_agent_collision` in grid-step mode. -/
theorem HeistPPGame.handle_agent_collision_key (SPACE : Int) (w : HeistPPGame) (i : Nat)
    (e : Entity) (hi : w.entities[i]? = some e) (ht : e.type = KEY)
    (hk : w.has_keys.length = 3) (h0 : 0 ≤ e.image_theme) (h2 : e.image_theme ≤ 2)
    (hgs : w.grid_step = true) :
    ∃ w', HeistPPGame.handle_agent_collision SPACE w i = some w' ∧
      w'.entities = w.entities.set i { e with will_erase := true } ∧
      w'.grid = HeistPPGame.clear_door_cells SPACE e.image_theme
        (w.entities.set i { e with will_erase := true }) w.grid := by
  have hlt : e.image_theme.toNat < w.has_keys.length := by omega
  have hset : vec_set w.has_keys e.image_theme true
      = some (w.has_keys.set e.image_theme.toNat true) := by
    simp [vec_set, h0, hlt]
  simp only [HeistPPGame.handle_agent_collision, BasicAbstractGame.handle_agent_collision, hi]
  rw [if_neg (by rw [ht]; decide), if_pos ht, hset]
  simp only []
  have hgs' : ({ HeistPPGame.mark_erased w i e with
      has_keys := w.has_keys.set e.image_theme.toNat true } : HeistPPGame).grid_step = true :=
    hgs
  rw [if_pos hgs']
  exact ⟨_, rfl, rfl, rfl⟩

end door_position_lemmas

section door_round_trip_lemmas

variable {R : Type} (x : HeistExternals R) (agent : Nat) (g : HeistPPGame) (r : R)

theorem HeistPPGame.reset_setup_types :
    (HeistPPGame.reset_setup x agent g r).1.entities.map Entity.type
      = g.entities.map Entity.type := by
  show (update_entity (update_entity g.entities agent _) agent _).map Entity.type = _
  refine Eq.trans (update_entity_types _ _ _ ?_) (update_entity_types _ _ _ ?_)
  · intro a
    rfl
  · intro a
    rfl

theorem HeistPPGame.maze_scale_one (hscale : g.main_height = g.world_dim)
    (hdim : 0 < g.world_dim) : g.maze_scale = 1 := by
  unfold HeistPPGame.maze_scale
  rw [hscale, mul_one]
  have : (g.world_dim : ℚ) ≠ 0 := by
    have : (0 : ℚ) < (g.world_dim : ℚ) := by exact_mod_cast hdim
    exact ne_of_gt this
  exact div_self this

/-- After `game_reset` in grid-step mode with `maze_scale = 1`, every door entity stands
in a cell of the maze, carries the theme of the maze code of that cell, and that cell of
the world grid holds `LOCKED_DOOR`. -/
theorem HeistPPGame.reset_door_cells (oob : Int)
    (hrand : ∀ s n, 0 < n → 0 ≤ (x.randn s n).1 ∧ (x.randn s n).1 < n)
    (hagent : agent < g.entities.length)
    (hw : g.grid.w = g.world_dim) (hh : g.grid.h = g.world_dim)
    (hlen : g.grid.data.length = (g.grid.w * g.grid.h).toNat)
    (hgs : g.with_grid_steps = true) (hscale : g.main_height = g.world_dim)
    (hdim : 0 < g.world_dim) (hnodoor : ∀ e ∈ g.entities, e.type ≠ LOCKED_DOOR) :
    ∀ d ∈ (HeistPPGame.game_reset x agent g r).1.entities, d.type = LOCKED_DOOR →
      ∃ c : Int × Int, (0 ≤ c.1 ∧ c.1 < g.world_dim) ∧ (0 ≤ c.2 ∧ c.2 < g.world_dim) ∧
        float_to_int d.x = c.1 ∧ float_to_int d.y = c.2 ∧
        d.image_theme = HeistPPGame.reset_maze x agent g r (c.1 + x.MAZE_OFFSET)
          (c.2 + x.MAZE_OFFSET) - x.DOOR_OBJ - 1 ∧
        (HeistPPGame.game_reset x agent g r).1.grid.get_obj oob c.1 c.2 = LOCKED_DOOR := by
  intro d hd hdoor
  obtain ⟨hox, hoy⟩ := HeistPPGame.reset_offsets x agent g r hrand
  obtain ⟨fw, fh, fl⟩ := HeistPPGame.fill_walls_shape x.WALL_OBJ g.grid
  have hstart_len : (HeistPPGame.reset_start x agent g r).grid.data.length
      = ((HeistPPGame.reset_start x agent g r).grid.w
          * (HeistPPGame.reset_start x agent g r).grid.h).toNat := by
    show (HeistPPGame.fill_walls x.WALL_OBJ g.grid).data.length
      = ((HeistPPGame.fill_walls x.WALL_OBJ g.grid).w
          * (HeistPPGame.fill_walls x.WALL_OBJ g.grid).h).toNat
    rw [fw, fh, fl, hlen]
  have hin : ∀ c ∈ HeistPPGame.maze_cells g.world_dim,
      (HeistPPGame.reset_start x agent g r).grid.contains
        (HeistPPGame.reset_off_x x agent g r + c.1)
        (HeistPPGame.reset_off_y x agent g r + c.2) = true := by
    intro c hc
    obtain ⟨⟨h1, h2⟩, h3, h4⟩ := (HeistPPGame.mem_maze_cells g.world_dim c).mp hc
    rw [hox, hoy, Grid.contains_iff]
    show (0 ≤ 0 + c.1 ∧ 0 + c.1 < (HeistPPGame.fill_walls x.WALL_OBJ g.grid).w) ∧
      (0 ≤ 0 + c.2 ∧ 0 + c.2 < (HeistPPGame.fill_walls x.WALL_OBJ g.grid).h)
    rw [fw, fh, hw, hh]
    omega
  have hloop := (HeistPPGame.reset_loop_grid x (HeistPPGame.reset_setup x agent g r).1 agent
    (HeistPPGame.reset_maze x agent g r) (HeistPPGame.reset_off_x x agent g r)
    (HeistPPGame.reset_off_y x agent g r) oob (HeistPPGame.maze_cells g.world_dim)
    (HeistPPGame.maze_cells_nodup _) (HeistPPGame.reset_start x agent g r)
    (by rw [HeistPPGame.reset_start_length]; exact hagent) hstart_len hin
    (HeistPPGame.reset_final x agent g r) rfl).2.2.2
  rw [HeistPPGame.reset_start_length] at hloop
  have htypes := (HeistPPGame.reset_loop_take_types x (HeistPPGame.reset_setup x agent g r).1
    agent g.entities.length (HeistPPGame.reset_maze x agent g r)
    (HeistPPGame.reset_off_x x agent g r) (HeistPPGame.reset_off_y x agent g r)
    (HeistPPGame.maze_cells g.world_dim) (HeistPPGame.reset_start x agent g r)
    (le_of_eq (HeistPPGame.reset_start_length x agent g r).symm)).1
  rw [HeistPPGame.game_reset_entities] at hd
  rcases List.mem_append.mp hd with hd | hd
  · rw [← List.take_append_drop g.entities.length
      (HeistPPGame.reset_final x agent g r).entities] at hd
    rcases List.mem_append.mp hd with hd | hd
    · exfalso
      have hmem : d.type ∈ ((HeistPPGame.reset_final x agent g r).entities.take
          g.entities.length).map Entity.type := List.mem_map_of_mem _ hd
      have hfin : (HeistPPGame.reset_final x agent g r).entities
          = ((HeistPPGame.maze_cells g.world_dim).foldl
            (HeistPPGame.reset_cell x (HeistPPGame.reset_setup x agent g r).1 agent
              (HeistPPGame.reset_maze x agent g r) (HeistPPGame.reset_off_x x agent g r)
              (HeistPPGame.reset_off_y x agent g r))
            (HeistPPGame.reset_start x agent g r)).entities := rfl
      rw [hfin, htypes] at hmem
      have hall : (HeistPPGame.reset_start x agent g r).entities.take g.entities.length
          = (HeistPPGame.reset_start x agent g r).entities := by
        apply List.take_of_length_le
        rw [HeistPPGame.reset_start_length]
      rw [hall] at hmem
      have hst : (HeistPPGame.reset_start x agent g r).entities.map Entity.type
          = g.entities.map Entity.type := HeistPPGame.reset_setup_types x agent g r
      rw [hst] at hmem
      obtain ⟨e, he, het⟩ := List.mem_map.mp hmem
      exact hnodoor e he (het.trans hdoor)
    · obtain ⟨c, hc, p1, p2, p3, p4⟩ := hloop d hd hdoor
      obtain ⟨⟨h1, h2⟩, h3, h4⟩ := (HeistPPGame.mem_maze_cells g.world_dim c).mp hc
      have hsc : (HeistPPGame.reset_setup x agent g r).1.maze_scale = 1 := by
        rw [HeistPPGame.reset_setup_maze_scale]
        exact HeistPPGame.maze_scale_one g hscale hdim
      rw [hox, hsc, zero_add, mul_one] at p1
      rw [hoy, hsc, zero_add, mul_one] at p2
      have p4' := p4 hgs
      rw [hox, hoy, zero_add, zero_add] at p4'
      refine ⟨c, ⟨h1, h2⟩, ⟨h3, h4⟩, ?_, ?_, p3, ?_⟩
      · rw [p1]
        exact float_to_int_half c.1 h1
      · rw [p2]
        exact float_to_int_half c.2 h3
      · rw [HeistPPGame.game_reset_grid]
        exact p4'
  · obtain ⟨i, _, hi⟩ := List.mem_map.mp hd
    rw [← hi, HeistPPGame.ring_key_type] at hdoor
    exact absurd hdoor (by decide)

/-- The grid after `game_reset` has the shape the grid had before. -/
theorem HeistPPGame.game_reset_grid_shape :
    (HeistPPGame.game_reset x agent g r).1.grid.w = g.grid.w ∧
    (HeistPPGame.game_reset x agent g r).1.grid.h = g.grid.h ∧
    (HeistPPGame.game_reset x agent g r).1.grid.data.length = g.grid.data.length := by
  obtain ⟨fw, fh, fl⟩ := HeistPPGame.fill_walls_shape x.WALL_OBJ g.grid
  rw [HeistPPGame.game_reset_grid]
  have hshape : ∀ (cells : List (Int × Int)) (st : ResetState R),
      (cells.foldl (HeistPPGame.reset_cell x (HeistPPGame.reset_setup x agent g r).1 agent
        (HeistPPGame.reset_maze x agent g r) (HeistPPGame.reset_off_x x agent g r)
        (HeistPPGame.reset_off_y x agent g r)) st).grid.w = st.grid.w ∧
      (cells.foldl (HeistPPGame.reset_cell x (HeistPPGame.reset_setup x agent g r).1 agent
        (HeistPPGame.reset_maze x agent g r) (HeistPPGame.reset_off_x x agent g r)
        (HeistPPGame.reset_off_y x agent g r)) st).grid.h = st.grid.h ∧
      (cells.foldl (HeistPPGame.reset_cell x (HeistPPGame.reset_setup x agent g r).1 agent
        (HeistPPGame.reset_maze x agent g r) (HeistPPGame.reset_off_x x agent g r)
        (HeistPPGame.reset_off_y x agent g r)) st).grid.data.length
          = st.grid.data.length := by
    intro cells
    induction cells with
    | nil => intro st; exact ⟨rfl, rfl, rfl⟩
    | cons c rest ih =>
      intro st
      obtain ⟨a1, a2, a3⟩ := HeistPPGame.reset_cell_shape x
        (HeistPPGame.reset_setup x agent g r).1 agent (HeistPPGame.reset_maze x agent g r)
        (HeistPPGame.reset_off_x x agent g r) (HeistPPGame.reset_off_y x agent g r) st c
      obtain ⟨b1, b2, b3⟩ := ih (HeistPPGame.reset_cell x
        (HeistPPGame.reset_setup x agent g r).1 agent (HeistPPGame.reset_maze x agent g r)
        (HeistPPGame.reset_off_x x agent g r) (HeistPPGame.reset_off_y x agent g r) st c)
      exact ⟨b1.trans a1, b2.trans a2, b3.trans a3⟩
  obtain ⟨s1, s2, s3⟩ := hshape (HeistPPGame.maze_cells g.world_dim)
    (HeistPPGame.reset_start x agent g r)
  exact ⟨s1.trans fw, s2.trans fh, s3.trans fl⟩

end door_round_trip_lemmas

/-! ## Theorems: doors published in the grid -/

/-- C16. Grid door publication round trip, in grid-step mode with `main_height =
world_dim` (so `maze_scale = 1`): after `game_reset`, when the key of theme `t` is
collected, every door entity stands on a cell that `game_reset` marked `LOCKED_DOOR`; for
a door of theme `t` that very cell is the one `handle_agent_collision` sets to `SPACE`,
so no door of theme `t` stands on a `LOCKED_DOOR` cell any more, and the cell of a door
of another theme is unchanged. -/
theorem HeistPPGame.door_cell_round_trip {R : Type} (x : HeistExternals R) (agent : Nat)
    (g : HeistPPGame) (r : R) (oob : Int) (k : Nat) (key : Entity)
    (hrand : ∀ s n, 0 < n → 0 ≤ (x.randn s n).1 ∧ (x.randn s n).1 < n)
    (hagent : agent < g.entities.length)
    (hw : g.grid.w = g.world_dim) (hh : g.grid.h = g.world_dim)
    (hlen : g.grid.data.length = (g.grid.w * g.grid.h).toNat)
    (hgs : g.with_grid_steps = true) (hscale : g.main_height = g.world_dim)
    (hdim : 0 < g.world_dim) (hsd : x.SPACE ≠ LOCKED_DOOR)
    (hnodoor : ∀ e ∈ g.entities, e.type ≠ LOCKED_DOOR)
    (hk : (HeistPPGame.game_reset x agent g r).1.entities[k]? = some key)
    (hkt : key.type = KEY) (h0 : 0 ≤ key.image_theme) (h2 : key.image_theme ≤ 2) :
    ∃ g2, HeistPPGame.handle_agent_collision x.SPACE (HeistPPGame.game_reset x agent g r).1 k
        = some g2 ∧
      ∀ d ∈ g2.entities, d.type = LOCKED_DOOR →
        d ∈ (HeistPPGame.game_reset x agent g r).1.entities ∧
        (HeistPPGame.game_reset x agent g r).1.grid.get_obj oob
          (float_to_int d.x) (float_to_int d.y) = LOCKED_DOOR ∧
        (d.image_theme = key.image_theme →
          g2.grid.get_obj oob (float_to_int d.x) (float_to_int d.y) = x.SPACE ∧
          g2.grid.get_obj oob (float_to_int d.x) (float_to_int d.y) ≠ LOCKED_DOOR) ∧
        (d.image_theme ≠ key.image_theme →
          g2.grid.get_obj oob (float_to_int d.x) (float_to_int d.y)
            = (HeistPPGame.game_reset x agent g r).1.grid.get_obj oob
                (float_to_int d.x) (float_to_int d.y)) := by
  have hfacts := HeistPPGame.reset_door_cells x agent g r oob hrand hagent hw hh hlen hgs
    hscale hdim hnodoor
  obtain ⟨sw, sh, sl⟩ := HeistPPGame.game_reset_grid_shape x agent g r
  have hlen1 : (HeistPPGame.game_reset x agent g r).1.grid.data.length
      = ((HeistPPGame.game_reset x agent g r).1.grid.w
          * (HeistPPGame.game_reset x agent g r).1.grid.h).toNat := by
    rw [sw, sh, sl, hlen]
  obtain ⟨g2, hg2, hents, hgrid⟩ := HeistPPGame.handle_agent_collision_key x.SPACE
    (HeistPPGame.game_reset x agent g r).1 k key hk hkt rfl h0 h2 hgs
  have hmem : ∀ d ∈ (HeistPPGame.game_reset x agent g r).1.entities.set k
      { key with will_erase := true }, d.type = LOCKED_DOOR →
      d ∈ (HeistPPGame.game_reset x agent g r).1.entities := by
    intro d hd hdoor
    rcases List.mem_or_eq_of_mem_set hd with h | h
    · exact h
    · rw [h] at hdoor
      have : KEY = LOCKED_DOOR := hkt.symm.trans hdoor
      exact absurd this (by decide)
  refine ⟨g2, hg2, ?_⟩
  intro d hd hdoor
  rw [hents] at hd
  have hd1 := hmem d hd hdoor
  obtain ⟨c, ⟨c1, c2⟩, ⟨c3, c4⟩, px, py, pth, pcell⟩ := hfacts d hd1 hdoor
  have hcell : (HeistPPGame.game_reset x agent g r).1.grid.get_obj oob
      (float_to_int d.x) (float_to_int d.y) = LOCKED_DOOR := by
    rw [px, py]
    exact pcell
  refine ⟨hd1, hcell, ?_, ?_⟩
  · intro hth
    have hc : (HeistPPGame.game_reset x agent g r).1.grid.contains
        (float_to_int d.x) (float_to_int d.y) = true := by
      rw [px, py, Grid.contains_iff, sw, sh, hw, hh]
      exact ⟨⟨c1, c2⟩, c3, c4⟩
    have hsp : g2.grid.get_obj oob (float_to_int d.x) (float_to_int d.y) = x.SPACE := by
      rw [hgrid]
      exact HeistPPGame.clear_door_cells_cleared x.SPACE key.image_theme oob _ _ hlen1 d hd
        hdoor hth hc
    exact ⟨hsp, by rw [hsp]; exact hsd⟩
  · intro hth
    rw [hgrid]
    apply HeistPPGame.clear_door_cells_untouched
    intro d' hd' hdoor' hth' hsame
    have hd1' := hmem d' hd' hdoor'
    obtain ⟨c', _, _, px', py', pth', _⟩ := hfacts d' hd1' hdoor'
    have e1 : c'.1 = c.1 := by rw [← px', ← px]; exact hsame.1.symm
    have e2 : c'.2 = c.2 := by rw [← py', ← py]; exact hsame.2.symm
    apply hth
    rw [pth, ← hth', pth', e1, e2]

/-- Witness of C16: the example level, in which the key of theme 1 is the entity at
position 2 and its door stands in cell `(1, 1)`. -/
theorem HeistPPGame.door_cell_round_trip_witness :
    (exampleLevel 1 1 1).with_grid_steps = true ∧
    (exampleLevel 1 1 1).main_height = (exampleLevel 1 1 1).world_dim ∧
    exampleExternals.SPACE ≠ LOCKED_DOOR ∧
    ∃ g2, HeistPPGame.handle_agent_collision exampleExternals.SPACE
        (HeistPPGame.game_reset exampleExternals 0 (exampleLevel 1 1 1) 0).1 2 = some g2 ∧
      ∀ d ∈ g2.entities, d.type = LOCKED_DOOR →
        d ∈ (HeistPPGame.game_reset exampleExternals 0 (exampleLevel 1 1 1) 0).1.entities ∧
        (HeistPPGame.game_reset exampleExternals 0 (exampleLevel 1 1 1) 0).1.grid.get_obj 51
          (float_to_int d.x) (float_to_int d.y) = LOCKED_DOOR ∧
        (d.image_theme = (mkEntityAt KEY 1 (5/2) (1/2) (3/8)).image_theme →
          g2.grid.get_obj 51 (float_to_int d.x) (float_to_int d.y) = exampleExternals.SPACE ∧
          g2.grid.get_obj 51 (float_to_int d.x) (float_to_int d.y) ≠ LOCKED_DOOR) ∧
        (d.image_theme ≠ (mkEntityAt KEY 1 (5/2) (1/2) (3/8)).image_theme →
          g2.grid.get_obj 51 (float_to_int d.x) (float_to_int d.y)
            = (HeistPPGame.game_reset exampleExternals 0 (exampleLevel 1 1 1) 0).1.grid.get_obj
                51 (float_to_int d.x) (float_to_int d.y)) :=
  ⟨rfl, rfl, by decide,
    HeistPPGame.door_cell_round_trip exampleExternals 0 (exampleLevel 1 1 1) 0 51 2
      (mkEntityAt KEY 1 (5/2) (1/2) (3/8)) exampleExternals_randn (by decide) rfl rfl rfl rfl
      rfl (by decide) (by decide) (by decide) (by decide!) rfl (by decide) (by decide)⟩

/-! ## Theorems: the reward of a direct run -/

section direct_run_lemmas

end direct_run_lemmas

section timeout_lemmas

/-- No handler of the heist game sets `level_complete` without `done`: only the exit
branch writes either flag, and it writes both. -/
theorem HeistPPGame.handle_agent_collision_flags (SPACE : Int) (w w' : HeistPPGame) (i : Nat)
    (hh : HeistPPGame.handle_agent_collision SPACE w i = some w')
    (hf : w.step_data.level_complete = w.step_data.done) :
    w'.step_data.level_complete = w'.step_data.done := by
  simp only [HeistPPGame.handle_agent_collision, BasicAbstractGame.handle_agent_collision]
    at hh
  cases hi : w.entities[i]? with
  | none => rw [hi] at hh; exact absurd hh (by simp)
  | some e =>
    rw [hi] at hh
    simp only [] at hh
    by_cases t1 : e.type = EXIT
    · rw [if_pos t1] at hh
      simp only [Option.some.injEq] at hh
      subst hh
      rfl
    · rw [if_neg t1] at hh
      by_cases t2 : e.type = KEY
      · rw [if_pos t2] at hh
        cases hv : vec_set w.has_keys e.image_theme true with
        | none => rw [hv] at hh; exact absurd hh (by simp)
        | some keys =>
          rw [hv] at hh
          simp only [] at hh
          split at hh
          · simp only [Option.some.injEq] at hh
            subst hh
            exact hf
          · simp only [Option.some.injEq] at hh
            subst hh
            exact hf
      · rw [if_neg t2] at hh
        by_cases t3 : e.type = LOCKED_DOOR
        · rw [if_pos t3] at hh
          cases hv : vec_get w.has_keys e.image_theme with
          | none => rw [hv] at hh; exact absurd hh (by simp)
          | some b =>
            rw [hv] at hh
            simp only [] at hh
            split at hh
            · simp only [Option.some.injEq] at hh
              subst hh
              exact hf
            · simp only [Option.some.injEq] at hh
              subst hh
              exact hf
        · rw [if_neg t3] at hh
          by_cases t4 : e.type = WATER
          · rw [if_pos t4] at hh
            simp only [Option.some.injEq] at hh
            subst hh
            exact hf
          · rw [if_neg t4] at hh
            by_cases t5 : e.type = FIRE
            · rw [if_pos t5] at hh
              simp only [Option.some.injEq] at hh
              subst hh
              exact hf
            · rw [if_neg t5] at hh
              simp only [Option.some.injEq] at hh
              subst hh
              exact hf

theorem HeistPPGame.collide_flags (SPACE : Int) (hits : List Nat) (w w' : HeistPPGame)
    (hh : HeistPPGame.collide SPACE hits w = some w')
    (hf : w.step_data.level_complete = w.step_data.done) :
    w'.step_data.level_complete = w'.step_data.done := by
  induction hits generalizing w with
  | nil =>
    simp only [HeistPPGame.collide, Option.some.injEq] at hh
    subst hh
    exact hf
  | cons i rest ih =>
    simp only [HeistPPGame.collide] at hh
    cases h1 : HeistPPGame.handle_agent_collision SPACE w i with
    | none => rw [h1] at hh; exact absurd hh (by simp)
    | some w1 =>
      rw [h1] at hh
      exact ih w1 hh (HeistPPGame.handle_agent_collision_flags SPACE w w1 i h1 hf)

theorem HeistPPGame.game_step_flags (SPACE : Int)
    (move : Int → HeistPPGame → List Entity × List Nat) (action : Int) (w w' : HeistPPGame)
    (hh : HeistPPGame.game_step SPACE move action w = some w')
    (hf : w.step_data.level_complete = w.step_data.done) :
    w'.step_data.level_complete = w'.step_data.done := by
  simp only [HeistPPGame.game_step, BasicAbstractGame.game_step] at hh
  cases h1 : HeistPPGame.collide SPACE (move action w).2
      { w with entities := (move action w).1 } with
  | none => rw [h1] at hh; exact absurd hh (by simp)
  | some w1 =>
    rw [h1] at hh
    simp only [Option.some.injEq] at hh
    subst hh
    exact HeistPPGame.collide_flags SPACE _ _ w1 h1 hf

/-- In every state, the `game_step` of the heist game leaves `level_complete` equal to
`done`. -/
theorem heist_step_game_flags {R : Type} (randint : R → Int → Int → Int × R)
    (seed : Int → Option HeistPPGame → Option HeistPPGame)
    (game_reset : Game R (Option HeistPPGame) → Option HeistPPGame) (SPACE : Int)
    (move : Int → HeistPPGame → List Entity × List Nat)
    (s : Game R (Option HeistPPGame)) :
    (Game.step_game (heistHooks randint seed game_reset SPACE move) s).step_data.level_complete
      = (Game.step_game (heistHooks randint seed game_reset SPACE move) s).step_data.done := by
  show ((heistHooks randint seed game_reset SPACE move).game_step _).2.level_complete
    = ((heistHooks randint seed game_reset SPACE move).game_step _).2.done
  simp only [heistHooks]
  cases hw : s.world with
  | none => rfl
  | some w =>
    simp only []
    cases hg : HeistPPGame.game_step SPACE move
        (if s.action = -1 then s.default_action else s.action)
        { w with step_data := { reward := 0, done := false, level_complete := false } } with
    | none => rfl
    | some w1 =>
      exact HeistPPGame.game_step_flags SPACE move _ _ w1 hg rfl

end timeout_lemmas

/-- C2. Timeout termination of the game under `Game::step`: from a freshly reset state
(`cur_time = 0`, `episodes_remaining = 0`) with timeout `T ≥ 1`, in either mode, for `T`
actions none of which is the sentinel `-1` and whose `game_step` never sets `done`, the
published `done` flags of calls `1..T` are `false, ..., false, true`: call `k` publishes
`done = true` iff `k = T`. The handlers set `level_complete` only together with `done`,
so sequential-levels mode hides nothing here. -/
theorem Game.timeout_termination {R : Type} (randint : R → Int → Int → Int × R)
    (seed : Int → Option HeistPPGame → Option HeistPPGame)
    (game_reset : Game R (Option HeistPPGame) → Option HeistPPGame) (SPACE : Int)
    (move : Int → HeistPPGame → List Entity × List Nat)
    (g : Game R (Option HeistPPGame)) (acts : List Int)
    (hc : g.cur_time = 0) (he : g.episodes_remaining = 0)
    (hT : 1 ≤ g.timeout) (hlen : (acts.length : Int) = g.timeout)
    (ha : ∀ a ∈ acts, a ≠ -1)
    (hq : ∀ s ∈ Game.entries (heistHooks randint seed game_reset SPACE move) acts g,
      (Game.step_game (heistHooks randint seed game_reset SPACE move) s).step_data.done
        = false) :
    (Game.run (heistHooks randint seed game_reset SPACE move) acts g).2.map StepOut.done
        = List.replicate (acts.length - 1) false ++ [true] ∧
    ∀ k (hk : k < ((Game.run (heistHooks randint seed game_reset SPACE move) acts g).2).length),
      (((Game.run (heistHooks randint seed game_reset SPACE move) acts g).2).get ⟨k, hk⟩).done
        = true ↔ ((k : Int) + 1 = g.timeout) := by
  have hne : acts ≠ [] := by
    intro h0
    rw [h0] at hlen
    simp only [List.length_nil, Nat.cast_zero] at hlen
    omega
  have hflags : (Game.run (heistHooks randint seed game_reset SPACE move) acts g).2.map
      StepOut.done = List.replicate (acts.length - 1) false ++ [true] := by
    apply Game.run_done_flags (heistHooks randint seed game_reset SPACE move) g acts hne he
      _ ha hq
    · intro s hs hmask
      have hlast : s ∈ Game.entries (heistHooks randint seed game_reset SPACE move) acts g :=
        List.mem_of_getLast?_eq_some hs
      have hd := hq s hlast
      rw [← heist_step_game_flags randint seed game_reset SPACE move s, hmask.2] at hd
      exact absurd hd (by simp)
    · rw [hc, zero_add, hlen]
  refine ⟨hflags, ?_⟩
  intro k hk
  have hpos : 0 < acts.length := List.length_pos.mpr hne
  have hl : ((Game.run (heistHooks randint seed game_reset SPACE move) acts g).2).length
      = acts.length := by
    have := congrArg List.length hflags
    simp only [List.length_map, List.length_append, List.length_replicate,
      List.length_singleton] at this
    omega
  have hget : (((Game.run (heistHooks randint seed game_reset SPACE move) acts g).2).get
      ⟨k, hk⟩).done
      = (List.replicate (acts.length - 1) false ++ [true])[k]?.getD false := by
    rw [← hflags, List.getElem?_map, List.getElem?_eq_getElem hk]
    rfl
  rw [hget]
  by_cases hlt : k < acts.length - 1
  · rw [List.getElem?_append_left (by simpa using hlt)]
    simp only [List.getElem?_replicate, hlt, if_true, Option.getD_some]
    constructor
    · intro h; exact absurd h (by simp)
    · intro h; omega
  · have hk1 : k = acts.length - 1 := by omega
    rw [List.getElem?_append_right (by simp; omega)]
    simp only [List.length_replicate, hk1, Nat.sub_self, List.getElem?_cons_zero,
      Option.getD_some, true_iff]
    omega

/-- Witness of C2: the agent takes the key, opens the door and steps into the water, in
sequential-levels mode; the third call reaches the timeout of 3. -/
theorem Game.timeout_termination_witness :
    (Game.run exampleHeistHooks [0, 0, 1] exampleHeistTimeout).2.map StepOut.done
        = List.replicate ([0, 0, 1].length - 1) false ++ [true] ∧
    ∀ k (hk : k < ((Game.run exampleHeistHooks [0, 0, 1] exampleHeistTimeout).2).length),
      (((Game.run exampleHeistHooks [0, 0, 1] exampleHeistTimeout).2).get ⟨k, hk⟩).done
        = true ↔ ((k : Int) + 1 = exampleHeistTimeout.timeout) :=
  Game.timeout_termination counterRandint (fun _ w => w) (fun g => g.world) 100
    exampleMove exampleHeistTimeout [0, 0, 1] rfl rfl (by decide) rfl (by decide)
    (by decide!)

end Procgen
